import Mathlib

/-!
# CuPP: the managed container `cupp::vector` and its host/device coherence protocol

A shallow embedding of `include/vector.h`, followed by the call operator of
`include/cupp/kernel.h` and the type binding of `include/kernel_type_binding.h`.
The container is a record of its
data members; every member function is a function from the container and the
device world to an outcome.  The device world carries the trace of the device
primitives that were called, so that "a copy happened" is a statement about
the trace.

Conventions
* `assert` is compiled in (NDEBUG is not defined): a failed assertion stops
  the program, outcome `aborted assertion_failed`.
* Undefined behaviour of the C++ program (use of a null or deleted pointer,
  an index outside the buffer) is an `aborted` outcome as well.
* A C++ exception is the outcome `thrown`; the container is still there
  afterwards, in the state the outcome carries.
-/

namespace cupp

/-- Identity of a `cupp::device` object: the address `&d` that the container
stores in `device_ptr_` and compares with. -/
abbrev device := Nat

/-- A call of a device primitive, as recorded in the trace of the world. -/
inductive event where
  | alloc (d : device) (address size : Nat)
  | free (address : Nat)
  | copy_to_device (address : Nat)
  | copy_to_host (address : Nat)
  deriving DecidableEq, Repr

/-- C++ exceptions that the modelled code can raise. -/
inductive error where
  | cuda_runtime_error
  | out_of_range
  | kernel_number_of_parameters_mismatch (expected got : Int)
  | launch_error
  | bad_any_cast
  | length_error
  deriving DecidableEq, Repr

/-- Ways in which the program stops. -/
inductive fault where
  | assertion_failed
  | invalid_pointer
  | out_of_bounds
  deriving DecidableEq, Repr

/-- The device side of the world.  `next_address` is the address the next
allocation returns, `failures` scripts the device primitives still to be
called (`true`: that call fails; an exhausted script means success), and
`log` is the trace of the primitive calls made so far, oldest first. -/
structure world where
  next_address : Nat
  failures : List Bool
  log : List event
  deriving DecidableEq, Repr

/-- Does the next primitive call fail? -/
def world.fails (w : world) : Bool := w.failures.headD false

/-- The world after one primitive call `e` (successful or not). -/
def world.step (e : event) (w : world) : world :=
  { w with failures := w.failures.tail, log := w.log ++ [e] }

/-- Result of running a piece of the program on a state of type `σ`. -/
inductive outcome (σ α : Type) where
  | ok (a : α) (s : σ)
  | thrown (e : error) (s : σ)
  | aborted (f : fault) (s : σ)
  deriving DecidableEq, Repr

/-- The state an outcome ends in. -/
def outcome.state {σ α : Type} : outcome σ α → σ
  | .ok _ s => s
  | .thrown _ s => s
  | .aborted _ s => s

/-- Sequencing: the continuation runs only after a normal return. -/
def outcome.bind {σ α β : Type} (x : outcome σ α) (f : α → σ → outcome σ β) : outcome σ β :=
  match x with
  | .ok a s => f a s
  | .thrown e s => .thrown e s
  | .aborted g s => .aborted g s

/-- A C++ pointer member: null, pointing to a live object, or pointing to an
object that has been deleted. -/
inductive pointer (α : Type) where
  | null
  | valid (a : α)
  | dangling
  deriving DecidableEq, Repr

/-- Modelled from the spec: the Linear Device Buffer `memory1d<T>` (memory1d.h is
not part of the sources).  It owns a contiguous device allocation on device
`dev` at `address`; `cells` are the elements stored there. -/
structure memory1d (T : Type) where
  dev : device
  address : Nat
  cells : List T
  deriving DecidableEq, Repr

/-- Modelled from the spec: `size()` of the Linear Device Buffer. -/
def memory1d.size {T : Type} (m : memory1d T) : Nat := m.cells.length

/-- Modelled from the spec: the constructor `memory1d<T>(d, ptr, n)` of memory1d.h,
with `host` the `n` elements at `ptr`: allocate `n` elements on `d`, then copy
the host elements in.  Either primitive can fail with a reported error. -/
def memory1d.create {T : Type} (d : device) (host : List T) (w : world) :
    outcome world (memory1d T) :=
  let w1 := w.step (.alloc d w.next_address host.length)
  if w.fails then .thrown .cuda_runtime_error w1
  else
    let w2 := { w1 with next_address := w.next_address + 1 }
    let w3 := w2.step (.copy_to_device w.next_address)
    if w2.fails then .thrown .cuda_runtime_error w3
    else .ok { dev := d, address := w.next_address, cells := host } w3

/-- Modelled from the spec: `copy_to_device(ptr)` of memory1d.h: `size()` elements
are read at `ptr`, where `host` is the host buffer that starts there. -/
def memory1d.copy_to_device {T : Type} (m : memory1d T) (host : List T) (w : world) :
    outcome world (memory1d T) :=
  if host.length < m.size then .aborted .out_of_bounds w
  else if w.fails then .thrown .cuda_runtime_error (w.step (.copy_to_device m.address))
  else .ok { m with cells := host.take m.size } (w.step (.copy_to_device m.address))

/-- Modelled from the spec: `copy_to_host(ptr)` of memory1d.h: `size()` elements
are written at `ptr`, where `host` is the host buffer that starts there; the
value is the host buffer afterwards. -/
def memory1d.copy_to_host {T : Type} (m : memory1d T) (host : List T) (w : world) :
    outcome world (List T) :=
  if host.length < m.size then .aborted .out_of_bounds w
  else if w.fails then .thrown .cuda_runtime_error (w.step (.copy_to_host m.address))
  else .ok (m.cells ++ host.drop m.size) (w.step (.copy_to_host m.address))

/-- The device-side descriptor `cupp::deviceT::vector<T>` (deviceT/vector.h): the
length and the raw device address of the mirrored data. -/
structure deviceT.vector where
  size : Nat
  device_pointer : Nat
  deriving DecidableEq, Repr

/-- The data members of `cupp::vector<T>` (vector.h, lines 600-634).
`device_ptr_` is `none` as long as no member function has assigned it (the
constructors leave it uninitialised; it is not read before `update_device`
has set it). -/
structure vector (T : Type) where
  data_ : List T
  host_changes_ : Bool
  device_changes_ : Bool
  proxy_invalid_ : Bool
  memory_ : pointer (memory1d T)
  device_proxy_ : pointer (memory1d deviceT.vector)
  device_ptr_ : Option device
  deriving DecidableEq, Repr

/-- State on which the member functions run: the container and the device world. -/
abbrev st (T : Type) := vector T × world

/-- The function `vector::update_host` (vector.h, lines 560-568). -/
def update_host {T : Type} (v : vector T) (w : world) : outcome (st T) Unit :=
  if v.device_changes_ = true then
    if v.host_changes_ = true then .aborted .assertion_failed (v, w)
    else
      match v.memory_ with
      | .valid m =>
        match m.copy_to_host v.data_ w with
        | .ok h w1 => .ok () ({ v with data_ := h, device_changes_ := false }, w1)
        | .thrown e w1 => .thrown e (v, w1)
        | .aborted f w1 => .aborted f (v, w1)
      | _ => .aborted .invalid_pointer (v, w)
  else .ok () (v, w)

/-- Lines 585-595 of `vector::update_device`: allocate a buffer for the host data,
invalidate the proxy, record the device and clear `host_changes_`.  When the
allocation throws, the members keep the values they had. -/
def install_memory {T : Type} (d : device) (v : vector T) (w : world) : outcome (st T) Unit :=
  match memory1d.create d v.data_ w with
  | .ok m1 w1 =>
    .ok () ({ v with memory_ := .valid m1, proxy_invalid_ := true,
                     device_ptr_ := some d, host_changes_ := false }, w1)
  | .thrown e w1 => .thrown e (v, w1)
  | .aborted f w1 => .aborted f (v, w1)

/-- The function `vector::update_device` (vector.h, lines 573-597).  `delete memory_`
frees a live buffer and leaves the pointer dangling until `new` has returned. -/
def update_device {T : Type} (d : device) (v : vector T) (w : world) : outcome (st T) Unit :=
  if v.host_changes_ = true ∨ some d ≠ v.device_ptr_ then
    if v.device_changes_ = true then .aborted .assertion_failed (v, w)
    else
      match v.memory_ with
      | .null => install_memory d v w
      | .dangling => .aborted .invalid_pointer (v, w)
      | .valid m =>
        if m.size ≠ v.data_.length ∨ some d ≠ v.device_ptr_ then
          install_memory d { v with memory_ := .dangling }
            { w with log := w.log ++ [.free m.address] }
        else
          match m.copy_to_device v.data_ w with
          | .ok m1 w1 =>
            .ok () ({ v with memory_ := .valid m1, device_ptr_ := some d,
                             host_changes_ := false }, w1)
          | .thrown e w1 => .thrown e (v, w1)
          | .aborted f w1 => .aborted f (v, w1)
  else .ok () (v, w)

/-- Effect of `delete p` on a pointer member whose object lives at device address
`address a`: a live object is released and the member keeps its, now dangling,
value; deleting the null pointer does nothing. -/
def pointer.delete {α : Type} (address : α → Nat) (p : pointer α) (w : world) :
    outcome world (pointer α) :=
  match p with
  | .null => .ok .null w
  | .valid a => .ok .dangling { w with log := w.log ++ [.free (address a)] }
  | .dangling => .aborted .invalid_pointer w

/-- Modelled from the spec: the Shared Device Handle `shared_device_pointer<device_type>`
(shared_device_pointer.h is not part of the sources), identified by the device
address it refers to. -/
abbrev shared_device_pointer := Nat

/-- The function `vector::get_host_based_device_copy` (vector.h, lines 525-529). -/
def get_host_based_device_copy {T : Type} (d : device) (v : vector T) (w : world) :
    outcome (st T) deviceT.vector :=
  (update_device d v w).bind fun _ s =>
    match s.1.memory_ with
    | .valid m => .ok { size := s.1.data_.length, device_pointer := m.address } s
    | _ => .aborted .invalid_pointer s

/-- Lines 539-543 of `vector::get_device_based_device_copy`: rebuild the proxy when
it is marked invalid. -/
def rebuild_proxy {T : Type} (d : device) (returnee : deviceT.vector) (s : st T) :
    outcome (st T) Unit :=
  if s.1.proxy_invalid_ = true then
    match s.1.device_proxy_.delete memory1d.address s.2 with
    | .ok p w1 =>
      match memory1d.create d [returnee] w1 with
      | .ok m1 w2 =>
        .ok () ({ s.1 with device_proxy_ := .valid m1, proxy_invalid_ := false }, w2)
      | .thrown e w2 => .thrown e ({ s.1 with device_proxy_ := p }, w2)
      | .aborted f w2 => .aborted f ({ s.1 with device_proxy_ := p }, w2)
    | .thrown e w1 => .thrown e (s.1, w1)
    | .aborted f w1 => .aborted f (s.1, w1)
  else .ok () s

/-- The function `vector::get_device_based_device_copy` (vector.h, lines 535-546). -/
def get_device_based_device_copy {T : Type} (d : device) (v : vector T) (w : world) :
    outcome (st T) shared_device_pointer :=
  (get_host_based_device_copy d v w).bind fun returnee s =>
    (rebuild_proxy d returnee s).bind fun _ s1 =>
      match s1.1.device_proxy_ with
      | .valid p => .ok p.address s1
      | _ => .aborted .invalid_pointer s1

/-- The function `vector::dirty` (vector.h, lines 551-555); both parameters are unused. -/
def dirty {T : Type} (_d : device) (_device_copy : shared_device_pointer)
    (v : vector T) (w : world) : outcome (st T) Unit :=
  .ok () ({ v with device_changes_ := true }, w)

/-- Modelled from the spec: what accelerator code does to the mirror when it stores
`x` in element `i` of the descriptor it was passed (the kernels themselves are in
.cu files that are not part of the sources). -/
def device_store {T : Type} (i : Nat) (x : T) (v : vector T) : vector T :=
  match v.memory_ with
  | .valid m => { v with memory_ := .valid { m with cells := m.cells.set i x } }
  | _ => v

/-! ### Constructors (vector.h, lines 192-211) -/

/-- The constructor `vector()`. -/
def vector.new {T : Type} : vector T :=
  { data_ := [], host_changes_ := true, device_changes_ := false, proxy_invalid_ := false,
    memory_ := .null, device_proxy_ := .null, device_ptr_ := none }

/-- The constructor `vector(size_type num, const T& val)`. -/
def vector.new_fill {T : Type} (num : Nat) (val : T) : vector T :=
  { data_ := List.replicate num val, host_changes_ := true, device_changes_ := false,
    proxy_invalid_ := false, memory_ := .null, device_proxy_ := .null, device_ptr_ := none }

/-- The constructor `vector(input_iterator start, input_iterator end)`, with `xs` the
elements of the range. -/
def vector.new_range {T : Type} (xs : List T) : vector T :=
  { data_ := xs, host_changes_ := true, device_changes_ := false, proxy_invalid_ := false,
    memory_ := .null, device_proxy_ := .null, device_ptr_ := none }

/-- The constructor `vector(const vector& c)` as it is meant: `c.update_host()`, then the
data of `c`.  The body as it is written ends with the statement `data_(c);`, which is
ill formed (see `copy_constructor_body`), so that no program that is compiled calls
this constructor; the function is what the body does once that statement is
repaired to `data_ = c.data_;`, and the transition systems below take it as one
more way for a container to come into being.  The value of the outcome is `c`
after its sync. -/
def vector.new_copy {T : Type} (c : vector T) (w : world) : outcome (st T) (vector T) :=
  match update_host c w with
  | .ok _ s =>
    .ok s.1 ({ data_ := s.1.data_, host_changes_ := true, device_changes_ := false,
               proxy_invalid_ := false, memory_ := .null, device_proxy_ := .null,
               device_ptr_ := none }, s.2)
  | .thrown e s => .thrown e s
  | .aborted f s => .aborted f s

/-! ### Element access -/

/-- The conversion `element_proxy::operator T()` (vector.h, lines 80-83) of the proxy
that `operator[](index)` (lines 226-228) returns. -/
def element_proxy.read {T : Type} (at_ : Nat) (v : vector T) (w : world) : outcome (st T) T :=
  (update_host v w).bind fun _ s =>
    match s.1.data_[at_]? with
    | some x => .ok x s
    | none => .aborted .out_of_bounds s

/-- The assignment `element_proxy::operator=(const T&)` (vector.h, lines 94-99). -/
def element_proxy.assign {T : Type} (at_ : Nat) (rhs : T) (v : vector T) (w : world) :
    outcome (st T) Unit :=
  (update_host v w).bind fun _ s =>
    if at_ < s.1.data_.length then
      .ok () ({ s.1 with host_changes_ := true, data_ := s.1.data_.set at_ rhs }, s.2)
    else .aborted .out_of_bounds ({ s.1 with host_changes_ := true }, s.2)

/-- The operator `operator[](size_type) const` (vector.h, lines 233-236). -/
def operator_index_const {T : Type} (index : Nat) (v : vector T) (w : world) :
    outcome (st T) T :=
  (update_host v w).bind fun _ s =>
    match s.1.data_[index]? with
    | some x => .ok x s
    | none => .aborted .out_of_bounds s

/-- The operator `operator=(const vector& c2)` (vector.h, lines 241-250).  The value of
the outcome is `c2` after its `update_host`. -/
def operator_assign {T : Type} (c2 : vector T) (v : vector T) (w : world) :
    outcome (st T) (vector T) :=
  match update_host c2 w with
  | .ok _ s =>
    .ok s.1 ({ v with data_ := s.1.data_, host_changes_ := true, device_changes_ := false }, s.2)
  | .thrown e s => .thrown e (v, s.2)
  | .aborted f s => .aborted f (v, s.2)

/-- The function `assign(size_type num, const T& val)` (vector.h, lines 256-262), for a
call that overwrites: the limit `max_size()` is not looked at here (beyond it
`data_.assign` throws before either flag is assigned and the container is as
before). -/
def assign {T : Type} (num : Nat) (val : T) (v : vector T) (w : world) : outcome (st T) Unit :=
  .ok () ({ v with data_ := List.replicate num val, host_changes_ := true,
                   device_changes_ := false }, w)

/-- The function `assign(input_iterator start, input_iterator end)` (vector.h, lines
267-274), with `xs` the elements of the range, for a call that overwrites (see
`assign`). -/
def assign_range {T : Type} (xs : List T) (v : vector T) (w : world) : outcome (st T) Unit :=
  .ok () ({ v with data_ := xs, host_changes_ := true, device_changes_ := false }, w)

/-- The function `at(size_type) const` (vector.h, lines 287-290). -/
def at_const {T : Type} (loc : Nat) (v : vector T) (w : world) : outcome (st T) T :=
  (update_host v w).bind fun _ s =>
    match s.1.data_[loc]? with
    | some x => .ok x s
    | none => .thrown .out_of_range s

/-- The function `back() const` (vector.h, lines 302-305). -/
def back_const {T : Type} (v : vector T) (w : world) : outcome (st T) T :=
  (update_host v w).bind fun _ s =>
    match s.1.data_.getLast? with
    | some x => .ok x s
    | none => .aborted .out_of_bounds s

/-- The function `begin()` (vector.h, lines 310-314); an iterator is the position it
points to. -/
def begin_ {T : Type} (v : vector T) (w : world) : outcome (st T) Nat :=
  (update_host v w).bind fun _ s => .ok 0 ({ s.1 with host_changes_ := true }, s.2)

/-- The function `begin() const` (vector.h, lines 319-321). -/
def begin_const {T : Type} (v : vector T) (w : world) : outcome (st T) Nat :=
  .ok 0 (v, w)

/-- The function `clear()` (vector.h, lines 333-337). -/
def clear {T : Type} (v : vector T) (w : world) : outcome (st T) Unit :=
  .ok () ({ v with data_ := [], host_changes_ := true, device_changes_ := false }, w)

/-- The function `end()` (vector.h, lines 349-353). -/
def end_ {T : Type} (v : vector T) (w : world) : outcome (st T) Nat :=
  (update_host v w).bind fun _ s =>
    .ok s.1.data_.length ({ s.1 with host_changes_ := true }, s.2)

/-- The function `end() const` (vector.h, lines 358-361). -/
def end_const {T : Type} (v : vector T) (w : world) : outcome (st T) Nat :=
  (update_host v w).bind fun _ s => .ok s.1.data_.length s

/-- The function `erase(iterator loc)` (vector.h, lines 366-370). -/
def erase {T : Type} (loc : Nat) (v : vector T) (w : world) : outcome (st T) Nat :=
  (update_host v w).bind fun _ s =>
    if loc < s.1.data_.length then
      .ok loc ({ s.1 with host_changes_ := true, data_ := s.1.data_.eraseIdx loc }, s.2)
    else .aborted .out_of_bounds ({ s.1 with host_changes_ := true }, s.2)

/-- The function `erase(iterator start, iterator end)` (vector.h, lines 375-379). -/
def erase_range {T : Type} (start stop : Nat) (v : vector T) (w : world) :
    outcome (st T) Nat :=
  (update_host v w).bind fun _ s =>
    if start ≤ stop ∧ stop ≤ s.1.data_.length then
      .ok start ({ s.1 with host_changes_ := true,
                            data_ := s.1.data_.take start ++ s.1.data_.drop stop }, s.2)
    else .aborted .out_of_bounds ({ s.1 with host_changes_ := true }, s.2)

/-- The function `front() const` (vector.h, lines 391-394). -/
def front_const {T : Type} (v : vector T) (w : world) : outcome (st T) T :=
  (update_host v w).bind fun _ s =>
    match s.1.data_.head? with
    | some x => .ok x s
    | none => .aborted .out_of_bounds s

/-- The value of `std::vector<T>::max_size()`, the largest number of elements `data_`
can hold: `2^61 - 1`, the value of a 64-bit libstdc++ for elements of four bytes.  A
member function of `std::vector` that would make `data_` longer throws
`std::length_error` and leaves `data_` as it was.  No proof below looks at the
number.  An allocation of the host that fails (`std::bad_alloc`) is not part of the
model. -/
def max_size : Nat := 2305843009213693951

/-- The function `insert(iterator loc, const T& val)` (vector.h, lines 399-403). -/
def insert {T : Type} (loc : Nat) (val : T) (v : vector T) (w : world) : outcome (st T) Nat :=
  (update_host v w).bind fun _ s =>
    if loc ≤ s.1.data_.length then
      if s.1.data_.length + 1 ≤ max_size then
        .ok loc ({ s.1 with host_changes_ := true,
                            data_ := s.1.data_.take loc ++ val :: s.1.data_.drop loc }, s.2)
      else .thrown .length_error ({ s.1 with host_changes_ := true }, s.2)
    else .aborted .out_of_bounds ({ s.1 with host_changes_ := true }, s.2)

/-- The function `insert(iterator loc, size_type num, const T& val)` (vector.h, lines
408-412). -/
def insert_n {T : Type} (loc num : Nat) (val : T) (v : vector T) (w : world) :
    outcome (st T) Unit :=
  (update_host v w).bind fun _ s =>
    if loc ≤ s.1.data_.length then
      if s.1.data_.length + num ≤ max_size then
        .ok () ({ s.1 with host_changes_ := true,
                           data_ := s.1.data_.take loc ++ List.replicate num val
                                      ++ s.1.data_.drop loc }, s.2)
      else .thrown .length_error ({ s.1 with host_changes_ := true }, s.2)
    else .aborted .out_of_bounds ({ s.1 with host_changes_ := true }, s.2)

/-- The function `insert(iterator loc, input_iterator start, input_iterator end)`
(vector.h, lines 417-422), with `xs` the elements of the range. -/
def insert_range {T : Type} (loc : Nat) (xs : List T) (v : vector T) (w : world) :
    outcome (st T) Unit :=
  (update_host v w).bind fun _ s =>
    if loc ≤ s.1.data_.length then
      if s.1.data_.length + xs.length ≤ max_size then
        .ok () ({ s.1 with host_changes_ := true,
                           data_ := s.1.data_.take loc ++ xs ++ s.1.data_.drop loc }, s.2)
      else .thrown .length_error ({ s.1 with host_changes_ := true }, s.2)
    else .aborted .out_of_bounds ({ s.1 with host_changes_ := true }, s.2)

/-- The function `pop_back()` (vector.h, lines 434-438). -/
def pop_back {T : Type} (v : vector T) (w : world) : outcome (st T) Unit :=
  (update_host v w).bind fun _ s =>
    if s.1.data_.length = 0 then .aborted .out_of_bounds s
    else .ok () ({ s.1 with data_ := s.1.data_.dropLast, host_changes_ := true }, s.2)

/-- The function `push_back(const T& val)` (vector.h, lines 443-447): when
`data_.push_back` throws, `host_changes_ = true` is not reached. -/
def push_back {T : Type} (val : T) (v : vector T) (w : world) : outcome (st T) Unit :=
  (update_host v w).bind fun _ s =>
    if s.1.data_.length + 1 ≤ max_size then
      .ok () ({ s.1 with data_ := s.1.data_ ++ [val], host_changes_ := true }, s.2)
    else .thrown .length_error s

/-- The function `rbegin() const` (vector.h, lines 461-464); a reverse iterator is
the position its base points to. -/
def rbegin_const {T : Type} (v : vector T) (w : world) : outcome (st T) Nat :=
  (update_host v w).bind fun _ s => .ok s.1.data_.length s

/-- The function `rend() const` (vector.h, lines 478-481). -/
def rend_const {T : Type} (v : vector T) (w : world) : outcome (st T) Nat :=
  (update_host v w).bind fun _ s => .ok 0 s

/-- The function `resize(size_type num, const T& val)` (vector.h, lines 493-497): when
`data_.resize` throws, `host_changes_ = true` is not reached. -/
def resize {T : Type} (num : Nat) (val : T) (v : vector T) (w : world) : outcome (st T) Unit :=
  (update_host v w).bind fun _ s =>
    if num ≤ max_size then
      .ok () ({ s.1 with data_ := s.1.data_.take num
                                    ++ List.replicate (num - s.1.data_.length) val,
                         host_changes_ := true }, s.2)
    else .thrown .length_error s

/-- The function `size() const` (vector.h, lines 502-504). -/
def size {T : Type} (v : vector T) : Nat := v.data_.length

/-- What a `const_iterator` at position `pos` shows when it is dereferenced: it is a
plain `std::vector` iterator into `data_`. -/
def const_iterator_deref {T : Type} (v : vector T) (pos : Nat) : Option T := v.data_[pos]?

/-! ### Coherence states -/

/-- Coherence state `Synced`: neither flag is set. -/
def Synced {T : Type} (v : vector T) : Prop :=
  v.host_changes_ = false ∧ v.device_changes_ = false

/-- Coherence state `HostDirty`: the host holds changes the device has not seen. -/
def HostDirty {T : Type} (v : vector T) : Prop :=
  v.host_changes_ = true ∧ v.device_changes_ = false

/-- Coherence state `DeviceDirty`: the device holds changes the host has not seen. -/
def DeviceDirty {T : Type} (v : vector T) : Prop :=
  v.device_changes_ = true ∧ v.host_changes_ = false

/-- The coherence invariant: the two flags are not both set. -/
def coherent {T : Type} (v : vector T) : Prop :=
  ¬ (v.host_changes_ = true ∧ v.device_changes_ = true)

/-- The device buffer is there and holds exactly the host elements. -/
def mirrored {T : Type} (v : vector T) : Prop :=
  ∃ m, v.memory_ = .valid m ∧ m.cells = v.data_

/-- Length of the device buffer, when there is a live one. -/
def mirror_length {T : Type} (v : vector T) : Option Nat :=
  match v.memory_ with
  | .valid m => some m.size
  | _ => none

/-! ### The trace of a call -/

/-- Forget the value of an outcome. -/
def outcome.discard {σ α : Type} : outcome σ α → outcome σ Unit
  | .ok _ s => .ok () s
  | .thrown e s => .thrown e s
  | .aborted f s => .aborted f s

/-- The primitive calls that a run starting in world `w` added to the trace. -/
def performed {T α : Type} (w : world) (o : outcome (st T) α) : List event :=
  o.state.2.log.drop w.log.length

/-- Is the event a device allocation? -/
def event.is_alloc : event → Bool
  | .alloc _ _ _ => true
  | _ => false

/-- Is the event a host-to-device copy? -/
def event.is_copy_to_device : event → Bool
  | .copy_to_device _ => true
  | _ => false

/-- Is the event a device-to-host copy? -/
def event.is_copy_to_host : event → Bool
  | .copy_to_host _ => true
  | _ => false

/-- Does `update_device d` on `v` in world `w` call a device allocation or a
host-to-device copy? -/
def allocates_or_copies {T : Type} (d : device) (v : vector T) (w : world) : Bool :=
  (performed w (update_device d v w)).any fun e => e.is_alloc || e.is_copy_to_device

/-- The trigger of `update_device` in the words of the specification: the state is
`HostDirty`, or the container was not last mirrored on `d`, or the length of the
mirror differs from the length of the host buffer. -/
def trigger_in_spec {T : Type} (d : device) (v : vector T) : Prop :=
  HostDirty v ∨ some d ≠ v.device_ptr_ ∨ mirror_length v ≠ some v.data_.length

/-! ### The public operations as a transition system -/

/-- A call of a public member function, with its arguments. -/
inductive op (T : Type) where
  | read (index : Nat)
  | read_const (index : Nat)
  | write (index : Nat) (x : T)
  | push_back (val : T)
  | pop_back
  | resize (num : Nat) (val : T)
  | insert (loc : Nat) (val : T)
  | insert_n (loc num : Nat) (val : T)
  | insert_range (loc : Nat) (xs : List T)
  | erase (loc : Nat)
  | erase_range (start stop : Nat)
  | assign (num : Nat) (val : T)
  | assign_range (xs : List T)
  | clear
  | operator_assign (c2 : vector T)
  | begin_
  | end_
  | begin_const
  | end_const
  | update_host
  | update_device (d : device)
  | get_host_based_device_copy (d : device)
  | get_device_based_device_copy (d : device)
  | dirty (d : device) (device_copy : shared_device_pointer)

/-- Run one call on the container. -/
def op.run {T : Type} (o : op T) (v : vector T) (w : world) : outcome (st T) Unit :=
  match o with
  | .read i => (cupp.element_proxy.read i v w).discard
  | .read_const i => (cupp.operator_index_const i v w).discard
  | .write i x => cupp.element_proxy.assign i x v w
  | .push_back x => cupp.push_back x v w
  | .pop_back => cupp.pop_back v w
  | .resize n x => cupp.resize n x v w
  | .insert l x => (cupp.insert l x v w).discard
  | .insert_n l n x => cupp.insert_n l n x v w
  | .insert_range l xs => cupp.insert_range l xs v w
  | .erase l => (cupp.erase l v w).discard
  | .erase_range a b => (cupp.erase_range a b v w).discard
  | .assign n x => cupp.assign n x v w
  | .assign_range xs => cupp.assign_range xs v w
  | .clear => cupp.clear v w
  | .operator_assign c2 => (cupp.operator_assign c2 v w).discard
  | .begin_ => (cupp.begin_ v w).discard
  | .end_ => (cupp.end_ v w).discard
  | .begin_const => (cupp.begin_const v w).discard
  | .end_const => (cupp.end_const v w).discard
  | .update_host => cupp.update_host v w
  | .update_device d => cupp.update_device d v w
  | .get_host_based_device_copy d => (cupp.get_host_based_device_copy d v w).discard
  | .get_device_based_device_copy d => (cupp.get_device_based_device_copy d v w).discard
  | .dirty d h => cupp.dirty d h v w

/-- The call is `dirty` on a container whose host changes have not been
materialised. -/
def op.dirty_on_host_changes {T : Type} (o : op T) (v : vector T) : Prop :=
  match o with
  | .dirty _ _ => v.host_changes_ = true
  | _ => False

/-- States a container can be in: it starts in a constructor, each further call
returns normally or throws, and in between a kernel may store into the mirror.  With
`guarded`, `dirty` is only called on a container without pending host changes, as
the kernel call does right after it has materialised the argument. -/
inductive reachable {T : Type} (guarded : Bool) : st T → Prop where
  | new (w : world) : reachable guarded (vector.new, w)
  | new_fill (num : Nat) (val : T) (w : world) : reachable guarded (vector.new_fill num val, w)
  | new_range (xs : List T) (w : world) : reachable guarded (vector.new_range xs, w)
  | new_copy (c c1 : vector T) (w : world) (s : st T) :
      vector.new_copy c w = .ok c1 s → reachable guarded s
  | returned (o : op T) (s s1 : st T) :
      reachable guarded s → (guarded = true → ¬ o.dirty_on_host_changes s.1) →
      o.run s.1 s.2 = .ok () s1 → reachable guarded s1
  | threw (o : op T) (e : error) (s s1 : st T) :
      reachable guarded s → (guarded = true → ¬ o.dirty_on_host_changes s.1) →
      o.run s.1 s.2 = .thrown e s1 → reachable guarded s1
  | kernel_store (i : Nat) (x : T) (s : st T) :
      reachable guarded s → reachable guarded (device_store i x s.1, s.2)

/-! ### Host writes and mutating accesses -/

/-- A host write: element assignment, `push_back`, `resize` or `assign`. -/
inductive host_write (T : Type) where
  | element (index : Nat) (x : T)
  | push_back (val : T)
  | resize (num : Nat) (val : T)
  | assign (num : Nat) (val : T)
  | assign_range (xs : List T)

/-- Run one host write on the container. -/
def host_write.run {T : Type} (a : host_write T) (v : vector T) (w : world) :
    outcome (st T) Unit :=
  match a with
  | .element i x => cupp.element_proxy.assign i x v w
  | .push_back x => cupp.push_back x v w
  | .resize n x => cupp.resize n x v w
  | .assign n x => cupp.assign n x v w
  | .assign_range xs => cupp.assign_range xs v w

/-- What the write does to a `std::vector` holding `h`. -/
def host_write.effect {T : Type} (a : host_write T) (h : List T) : List T :=
  match a with
  | .element i x => h.set i x
  | .push_back x => h ++ [x]
  | .resize n x => h.take n ++ List.replicate (n - h.length) x
  | .assign n x => List.replicate n x
  | .assign_range xs => xs

/-- Run a sequence of host writes, first to last. -/
def run_writes {T : Type} : List (host_write T) → vector T → world → outcome (st T) Unit
  | [], v, w => .ok () (v, w)
  | a :: rest, v, w => (a.run v w).bind fun _ s => run_writes rest s.1 s.2

/-- A mutating access that syncs before it changes the host buffer. -/
inductive mutator (T : Type) where
  | element (index : Nat) (x : T)
  | push_back (val : T)
  | pop_back
  | resize (num : Nat) (val : T)
  | insert (loc : Nat) (val : T)
  | insert_n (loc num : Nat) (val : T)
  | insert_range (loc : Nat) (xs : List T)
  | erase (loc : Nat)
  | erase_range (start stop : Nat)
  | begin_
  | end_

/-- Run one mutating access on the container. -/
def mutator.run {T : Type} (m : mutator T) (v : vector T) (w : world) : outcome (st T) Unit :=
  match m with
  | .element i x => cupp.element_proxy.assign i x v w
  | .push_back x => cupp.push_back x v w
  | .pop_back => cupp.pop_back v w
  | .resize n x => cupp.resize n x v w
  | .insert l x => (cupp.insert l x v w).discard
  | .insert_n l n x => cupp.insert_n l n x v w
  | .insert_range l xs => cupp.insert_range l xs v w
  | .erase l => (cupp.erase l v w).discard
  | .erase_range a b => (cupp.erase_range a b v w).discard
  | .begin_ => (cupp.begin_ v w).discard
  | .end_ => (cupp.end_ v w).discard

/-- What the access does to a `std::vector` holding `h`. -/
def mutator.effect {T : Type} (m : mutator T) (h : List T) : List T :=
  match m with
  | .element i x => h.set i x
  | .push_back x => h ++ [x]
  | .pop_back => h.dropLast
  | .resize n x => h.take n ++ List.replicate (n - h.length) x
  | .insert l x => h.take l ++ x :: h.drop l
  | .insert_n l n x => h.take l ++ List.replicate n x ++ h.drop l
  | .insert_range l xs => h.take l ++ xs ++ h.drop l
  | .erase l => h.eraseIdx l
  | .erase_range a b => h.take a ++ h.drop b
  | .begin_ => h
  | .end_ => h

/-- A world in which nothing has happened yet and no primitive fails. -/
def world.fresh : world := { next_address := 0, failures := [], log := [] }

/-- The state after `vector()`, `update_device(7)` and `dirty(7, 0)` in a fresh world. -/
def materialised_then_dirty : st Int :=
  ({ data_ := [], host_changes_ := false, device_changes_ := true, proxy_invalid_ := true,
     memory_ := .valid { dev := 7, address := 0, cells := [] }, device_proxy_ := .null,
     device_ptr_ := some 7 },
   { next_address := 1, failures := [], log := [.alloc 7 0 0, .copy_to_device 0] })

/-- End-to-end scenario, step 1: the container held 5 and the host wrote 42. -/
def scenario_host_dirty : st Int :=
  ({ data_ := [42], host_changes_ := true, device_changes_ := false, proxy_invalid_ := false,
     memory_ := .null, device_proxy_ := .null, device_ptr_ := none },
   world.fresh)

/-- End-to-end scenario, step 2: materialised on device `d` for a kernel call. -/
def scenario_synced (d : device) : st Int :=
  ({ data_ := [42], host_changes_ := false, device_changes_ := false, proxy_invalid_ := false,
     memory_ := .valid { dev := d, address := 0, cells := [42] },
     device_proxy_ := .valid { dev := d, address := 1,
                               cells := [{ size := 1, device_pointer := 0 }] },
     device_ptr_ := some d },
   { next_address := 2, failures := [],
     log := [.alloc d 0 1, .copy_to_device 0, .alloc d 1 1, .copy_to_device 1] })

/-- End-to-end scenario, step 3: the kernel stored 43 and the call marked the
container dirty. -/
def scenario_device_dirty (d : device) : st Int :=
  ({ data_ := [42], host_changes_ := false, device_changes_ := true, proxy_invalid_ := false,
     memory_ := .valid { dev := d, address := 0, cells := [43] },
     device_proxy_ := .valid { dev := d, address := 1,
                               cells := [{ size := 1, device_pointer := 0 }] },
     device_ptr_ := some d },
   { next_address := 2, failures := [],
     log := [.alloc d 0 1, .copy_to_device 0, .alloc d 1 1, .copy_to_device 1] })

/-- End-to-end scenario, step 4: the host has read the element back. -/
def scenario_read_back (d : device) : st Int :=
  ({ data_ := [43], host_changes_ := false, device_changes_ := false, proxy_invalid_ := false,
     memory_ := .valid { dev := d, address := 0, cells := [43] },
     device_proxy_ := .valid { dev := d, address := 1,
                               cells := [{ size := 1, device_pointer := 0 }] },
     device_ptr_ := some d },
   { next_address := 2, failures := [],
     log := [.alloc d 0 1, .copy_to_device 0, .alloc d 1 1, .copy_to_device 1,
             .copy_to_host 0] })

/-- The one-element container holding 5 after `v[0] = 42` and `push_back(9)`. -/
def round_trip_written : st Int :=
  ({ data_ := [42, 9], host_changes_ := true, device_changes_ := false,
     proxy_invalid_ := false, memory_ := .null, device_proxy_ := .null, device_ptr_ := none },
   world.fresh)

/-- The container `round_trip_written` after `update_device(7)`. -/
def round_trip_materialised : st Int :=
  ({ data_ := [42, 9], host_changes_ := false, device_changes_ := false,
     proxy_invalid_ := true, memory_ := .valid { dev := 7, address := 0, cells := [42, 9] },
     device_proxy_ := .null, device_ptr_ := some 7 },
   { next_address := 1, failures := [], log := [.alloc 7 0 2, .copy_to_device 0] })

/-- The length invariant: without pending host changes the device buffer is there
and has the length of the host buffer. -/
def length_invariant {T : Type} (v : vector T) : Prop :=
  v.host_changes_ = false → ∃ m, v.memory_ = .valid m ∧ m.size = v.data_.length

/-- The proxy invariant: a proxy that is not marked invalid either does not exist
yet, together with the buffer, or holds the descriptor of the buffer. -/
def proxy_invariant {T : Type} (v : vector T) : Prop :=
  v.proxy_invalid_ = false →
    (v.memory_ = .null ∧ v.device_proxy_ = .null) ∨
    ∃ m p, v.memory_ = .valid m ∧ v.device_proxy_ = .valid p ∧
      p.cells = [{ size := m.size, device_pointer := m.address }]

/-- The representation invariant of the container. -/
def well_formed {T : Type} (v : vector T) : Prop :=
  length_invariant v ∧ proxy_invariant v

/-- States a container is in when every call so far has returned normally: it starts
in a constructor, public member functions are called in any order, and in between a
kernel may store into the mirror. -/
inductive reaches {T : Type} : st T → Prop where
  | new (w : world) : reaches (vector.new, w)
  | new_fill (num : Nat) (val : T) (w : world) : reaches (vector.new_fill num val, w)
  | new_range (xs : List T) (w : world) : reaches (vector.new_range xs, w)
  | new_copy (c c1 : vector T) (w : world) (s : st T) :
      vector.new_copy c w = .ok c1 s → reaches s
  | returned (o : op T) (s s1 : st T) :
      reaches s → o.run s.1 s.2 = .ok () s1 → reaches s1
  | kernel_store (i : Nat) (x : T) (s : st T) :
      reaches s → reaches (device_store i x s.1, s.2)

/-! ### The kernel call (cupp/kernel.h) -/

/-- Modelled from the spec: the `boost::any` that `setup_argument` returns, the opaque
per-argument token of a call (kernel_launcher_impl.h is not part of the sources):
nothing, or a `device_reference<device_type>` on device `d` to the shared handle of
the argument. -/
inductive boost_any where
  | empty
  | device_reference (d : device) (handle : shared_device_pointer)
  deriving DecidableEq, Repr

/-- A step of a kernel call, as recorded in the trace of the call. -/
inductive step where
  | configure_call
  | setup_argument (i : Nat)
  | launch
  | dirty (i : Nat) (token : boost_any)
  deriving DecidableEq, Repr

/-- A host argument of a kernel call: a value of a trivial type, or a container. -/
inductive argument (T : Type) where
  | pod (x : Int)
  | container (v : vector T)
  deriving DecidableEq, Repr

/-- Modelled from the spec: the launcher `kernel_launcher_base` behind `kb_`
(kernel_impl/kernel_launcher_base.h is not part of the sources); of the entry point
it binds, the model keeps which parameters are taken by reference, so that the
argument is bound as a shared handle instead of a descriptor by value. -/
structure kernel_launcher_base where
  by_reference : List Bool
  deriving DecidableEq, Repr

/-- The data members of `cupp::kernel` (kernel.h, lines 187-206). -/
structure kernel where
  number_of_parameters_ : Int
  kb_ : kernel_launcher_base
  dirty : List Bool
  returnee_vec_ : List boost_any
  deriving DecidableEq, Repr

/-- State on which a kernel call runs: the kernel object, the host arguments
`p1 .. pN` of the call, the device world, and the trace of the steps made. -/
structure call_state (T : Type) where
  k : kernel
  args : List (argument T)
  w : world
  steps : List step
  deriving DecidableEq, Repr

/-- The world after a device call that leaves no entry in the memory trace. -/
def world.next (w : world) : world := { w with failures := w.failures.tail }

/-- The function `kernel::check_number_of_parameters` (kernel.h, lines 210-214). -/
def check_number_of_parameters {T : Type} (number : Int) (st : call_state T) :
    outcome (call_state T) Unit :=
  if st.k.number_of_parameters_ ≠ number then
    .thrown (.kernel_number_of_parameters_mismatch st.k.number_of_parameters_ number) st
  else .ok () st

/-- Modelled from the spec: `kb_->configure_call()`, which applies the launch geometry
(step 2 of the call; the spec gives it no failure). -/
def configure_call {T : Type} (st : call_state T) : outcome (call_state T) Unit :=
  .ok () { st with steps := st.steps ++ [.configure_call] }

/-- Modelled from the spec: `kb_->setup_argument(d, boost::any(&p), i)` for the argument
`p` at position `i` (step 3 of the call): a container is materialised on `d`, as its
shared handle when the parameter is taken by reference and as a descriptor by value
otherwise, a value of a trivial type is passed through; the value is the token of
the argument.  A failure of the materialisation is the failure of the step. -/
def setup_argument {T : Type} (d : device) (i : Nat) (st : call_state T) :
    outcome (call_state T) boost_any :=
  match st.args[i - 1]? with
  | none => .aborted .out_of_bounds { st with steps := st.steps ++ [.setup_argument i] }
  | some (.pod _) => .ok .empty { st with steps := st.steps ++ [.setup_argument i] }
  | some (.container v) =>
    if st.k.kb_.by_reference[i - 1]? = some true then
      match get_device_based_device_copy d v st.w with
      | .ok h s =>
        .ok (.device_reference d h)
          { st with args := st.args.set (i - 1) (.container s.1), w := s.2,
                    steps := st.steps ++ [.setup_argument i] }
      | .thrown e s =>
        .thrown e
          { st with args := st.args.set (i - 1) (.container s.1), w := s.2,
                    steps := st.steps ++ [.setup_argument i] }
      | .aborted f s =>
        .aborted f
          { st with args := st.args.set (i - 1) (.container s.1), w := s.2,
                    steps := st.steps ++ [.setup_argument i] }
    else
      match get_host_based_device_copy d v st.w with
      | .ok _ s =>
        .ok .empty
          { st with args := st.args.set (i - 1) (.container s.1), w := s.2,
                    steps := st.steps ++ [.setup_argument i] }
      | .thrown e s =>
        .thrown e
          { st with args := st.args.set (i - 1) (.container s.1), w := s.2,
                    steps := st.steps ++ [.setup_argument i] }
      | .aborted f s =>
        .aborted f
          { st with args := st.args.set (i - 1) (.container s.1), w := s.2,
                    steps := st.steps ++ [.setup_argument i] }

/-- Modelled from the spec: `kb_->launch()` (step 4 of the call), which fails with a
launch error when the device reports one.  What the entry point stores into the
buffers is not part of the call model (see `device_store`). -/
def launch {T : Type} (st : call_state T) : outcome (call_state T) Unit :=
  if st.w.fails = true then
    .thrown .launch_error { st with w := st.w.next, steps := st.steps ++ [.launch] }
  else .ok () { st with w := st.w.next, steps := st.steps ++ [.launch] }

/-- The function `kernel::handle_call_traits` (kernel.h, lines 217-230) for the argument
at position `i`.  `kernel_call_traits::dirty` (kernel_call_traits.h is not part of
the sources) is modelled from the spec as the hook of the type of the argument:
`vector::dirty` for a container; for a trivial type the model keeps the value. -/
def handle_call_traits {T : Type} (i : Nat) (st : call_state T) :
    outcome (call_state T) Unit :=
  match st.k.dirty[i - 1]? with
  | none => .aborted .out_of_bounds st
  | some false => .ok () st
  | some true =>
    match st.k.returnee_vec_[i - 1]? with
    | none => .aborted .out_of_bounds st
    | some .empty => .thrown .bad_any_cast st
    | some (.device_reference dd h) =>
      match st.args[i - 1]? with
      | none =>
        .aborted .out_of_bounds
          { st with steps := st.steps ++ [.dirty i (.device_reference dd h)] }
      | some (.pod _) =>
        .ok () { st with steps := st.steps ++ [.dirty i (.device_reference dd h)] }
      | some (.container v) =>
        match cupp.dirty dd h v st.w with
        | .ok _ s =>
          .ok ()
            { st with args := st.args.set (i - 1) (.container s.1), w := s.2,
                      steps := st.steps ++ [.dirty i (.device_reference dd h)] }
        | .thrown e s =>
          .thrown e
            { st with args := st.args.set (i - 1) (.container s.1), w := s.2,
                      steps := st.steps ++ [.dirty i (.device_reference dd h)] }
        | .aborted f s =>
          .aborted f
            { st with args := st.args.set (i - 1) (.container s.1), w := s.2,
                      steps := st.steps ++ [.dirty i (.device_reference dd h)] }

/-- The statements `returnee_vec_.push_back(kb_->setup_argument(d, boost::any(&p), i))`
of `operator()` for the positions `i, i + 1, .., i + n - 1`, in this order. -/
def setup_arguments {T : Type} (d : device) :
    Nat → Nat → call_state T → outcome (call_state T) Unit
  | _, 0, st => .ok () st
  | i, n + 1, st =>
    (setup_argument d i st).bind fun token s =>
      setup_arguments d (i + 1) n
        { s with k := { s.k with returnee_vec_ := s.k.returnee_vec_ ++ [token] } }

/-- The statements `handle_call_traits(p, i)` of `operator()` for the positions
`i, i + 1, .., i + n - 1`, in this order. -/
def handle_arguments {T : Type} : Nat → Nat → call_state T → outcome (call_state T) Unit
  | _, 0, st => .ok () st
  | i, n + 1, st => (handle_call_traits i st).bind fun _ s => handle_arguments (i + 1) n s

/-- The call operator `kernel::operator()` (kernel.h, lines 234-364): its seven
overloads, for 0 to 6 arguments, are the same sequence of statements for the number
`N` of arguments of the call; the overload without arguments has no
`returnee_vec_.clear()`. -/
def operator_call {T : Type} (d : device) (st : call_state T) : outcome (call_state T) Unit :=
  (check_number_of_parameters (st.args.length : Int) st).bind fun _ s1 =>
    (configure_call s1).bind fun _ s2 =>
      (setup_arguments d 1 st.args.length s2).bind fun _ s3 =>
        (launch s3).bind fun _ s4 =>
          (handle_arguments 1 st.args.length s4).bind fun _ s5 =>
            .ok () (if st.args.length = 0 then s5
                    else { s5 with k := { s5.k with returnee_vec_ := [] } })

/-- The overload of `kernel::operator()` for three arguments as it is written
(kernel.h, lines 275-292). -/
def operator_call_3 {T : Type} (d : device) (st : call_state T) :
    outcome (call_state T) Unit :=
  (check_number_of_parameters 3 st).bind fun _ s =>
    (configure_call s).bind fun _ s =>
      (setup_argument d 1 s).bind fun t1 s =>
        (setup_argument d 2
            { s with k := { s.k with returnee_vec_ := s.k.returnee_vec_ ++ [t1] } }).bind
          fun t2 s =>
        (setup_argument d 3
            { s with k := { s.k with returnee_vec_ := s.k.returnee_vec_ ++ [t2] } }).bind
          fun t3 s =>
        (launch { s with k := { s.k with returnee_vec_ := s.k.returnee_vec_ ++ [t3] } }).bind
          fun _ s =>
        (handle_call_traits 1 s).bind fun _ s =>
          (handle_call_traits 2 s).bind fun _ s =>
            (handle_call_traits 3 s).bind fun _ s =>
              .ok () { s with k := { s.k with returnee_vec_ := [] } }

/-! ### Relations between the arguments before and after a call -/

/-- The container `v1` is `v` after calls that at most materialised it: the host
buffer and `device_changes_` are the same and `host_changes_` has not been set. -/
def vector.materialised_from {T : Type} (v1 v : vector T) : Prop :=
  v1.data_ = v.data_ ∧ v1.device_changes_ = v.device_changes_ ∧
    (v1.host_changes_ = true → v.host_changes_ = true)

/-- The argument `b` is `a`, at most materialised. -/
def argument.materialised_from {T : Type} (b a : argument T) : Prop :=
  match a, b with
  | .pod x, .pod y => y = x
  | .container v, .container v1 => v1.materialised_from v
  | _, _ => False

/-- Position by position, the arguments `bs` are the arguments `as`, at most
materialised. -/
def arguments_materialised_from {T : Type} (bs as : List (argument T)) : Prop :=
  bs.length = as.length ∧
    ∀ (j : Nat) (a : argument T), as[j]? = some a →
      ∃ b : argument T, bs[j]? = some b ∧ b.materialised_from a

/-- The container `v1` is `v` bound on device `d` with token `token`: it is
materialised there, and the token is the handle of its proxy when the parameter is
taken by reference and empty otherwise. -/
def vector.bound {T : Type} (d : device) (by_reference : Bool) (token : boost_any)
    (v1 v : vector T) : Prop :=
  v1.materialised_from v ∧ v1.host_changes_ = false ∧ v1.device_ptr_ = some d ∧
    (well_formed v → well_formed v1) ∧
    (by_reference = true →
      ∃ p, v1.device_proxy_ = .valid p ∧ token = .device_reference d p.address) ∧
    (by_reference = false → token = .empty)

/-- The argument `b` is `a` bound on device `d` with token `token`. -/
def argument.bound {T : Type} (d : device) (by_reference : Bool) (token : boost_any)
    (b a : argument T) : Prop :=
  match a, b with
  | .pod x, .pod y => y = x ∧ token = .empty
  | .container v, .container v1 => v1.bound d by_reference token v
  | _, _ => False

/-- The argument after its dirty hook has run: a container has `device_changes_` set. -/
def argument.marked {T : Type} : argument T → argument T
  | .pod x => .pod x
  | .container v => .container { v with device_changes_ := true }

/-- The dirty steps that `handle_call_traits` makes for the positions
`i, .., i + n - 1` of a kernel whose dirty table and tokens allow every one of them:
one for each position whose entry in the dirty table is true, with the token stored
for that position. -/
def dirty_steps (k : kernel) (i n : Nat) : List step :=
  (List.range' i n).filterMap fun j =>
    match k.dirty[j - 1]?, k.returnee_vec_[j - 1]? with
    | some true, some token => some (.dirty j token)
    | _, _ => none

/-! ### Concrete calls -/

/-- A kernel of arity 3 whose second parameter is the one marked dirty, all three
taken by reference, before any call. -/
def arity_three_kernel : kernel :=
  { number_of_parameters_ := 3, kb_ := { by_reference := [true, true, true] },
    dirty := [false, true, false], returnee_vec_ := [] }

/-- A call of `arity_three_kernel` with the arguments `args` in a fresh world. -/
def arity_three_call (args : List (argument Int)) : call_state Int :=
  { k := arity_three_kernel, args := args, w := world.fresh, steps := [] }

/-- A kernel of arity 1 whose parameter is a reference marked dirty, before any call. -/
def arity_one_kernel : kernel :=
  { number_of_parameters_ := 1, kb_ := { by_reference := [true] }, dirty := [true],
    returnee_vec_ := [] }

/-- A call of `arity_one_kernel` with the container `vector(1, 5)` in a world whose
fifth device call, the launch, fails. -/
def launch_fails : call_state Int :=
  { k := arity_one_kernel, args := [.container (vector.new_fill 1 5)],
    w := { next_address := 0, failures := [false, false, false, false, true], log := [] },
    steps := [] }

/-- The next call of the kernel object that `launch_fails` leaves behind, on device 7,
with the container `vector(1, 6)`. -/
def call_after_failure : call_state Int :=
  { k := (operator_call 7 launch_fails).state.k,
    args := [.container (vector.new_fill 1 6)],
    w := (operator_call 7 launch_fails).state.w, steps := [] }

/-- Three containers, `vector(1, 1)`, `vector(1, 2)` and `vector(1, 3)`, as the
arguments of a call. -/
def three_containers : List (argument Int) :=
  [.container (vector.new_fill 1 1), .container (vector.new_fill 1 2),
   .container (vector.new_fill 1 3)]

/-! ### The type binding (kernel_type_binding.h, vector.h lines 638-649)

The binding is a computation of the compiler on C++ types.  A type is given by
its unqualified object type, its cv-qualifiers and whether it is a reference to that
qualified type; a class template is a function that selects, for its argument, the
most specialised partial specialisation that matches and gives the member typedef
`type` of it.  The instantiation has no type when two partial specialisations
match and neither is more specialised than the other, or when a member typedef
that is named does not exist. -/

/-- An object type without qualifiers: a type known by its name (`int`, a user
class), or an instance of one of the two container templates for the element type
`T`. -/
inductive base_type where
  | named (name : String)
  | cupp_vector (T : base_type)
  | deviceT_vector (T : base_type)
  deriving DecidableEq, Repr

/-- A C++ type as the templates see it: `base`, `const base`, `volatile base`,
`const volatile base`, or an lvalue reference to one of these (a reference itself has
no cv-qualifiers). -/
structure cpp_type where
  base : base_type
  is_const : Bool
  is_volatile : Bool
  is_reference : Bool
  deriving DecidableEq, Repr

/-- The unqualified type `b`. -/
def cpp_type.plain (b : base_type) : cpp_type :=
  { base := b, is_const := false, is_volatile := false, is_reference := false }

/-- The number of qualifiers of a type. -/
def cpp_type.qualifiers (t : cpp_type) : Nat :=
  t.is_reference.toNat + t.is_const.toNat + t.is_volatile.toNat

/-- The trait `boost::remove_reference<T>::type` of Boost.TypeTraits. -/
def remove_reference (t : cpp_type) : cpp_type := { t with is_reference := false }

/-- The trait `boost::remove_const<T>::type` of Boost.TypeTraits: the top-level `const`
is removed; a reference has none. -/
def remove_const (t : cpp_type) : cpp_type :=
  if t.is_reference then t else { t with is_const := false }

/-- The trait `boost::remove_volatile<T>::type` of Boost.TypeTraits: the top-level
`volatile` is removed; a reference has none. -/
def remove_volatile (t : cpp_type) : cpp_type :=
  if t.is_reference then t else { t with is_volatile := false }

/-- The declarations of the program that the binding looks at: which of the named
types `boost::is_pod` holds for, and the member typedefs `host_type` and
`device_type` of the classes that declare them. -/
structure declarations where
  pod : String → Bool
  host_type : base_type → Option cpp_type
  device_type : base_type → Option cpp_type

/-- The trait `boost::is_pod<T>::value` for an unqualified type: the two containers have
constructors and are not plain old data. -/
def is_pod (decl : declarations) : base_type → Bool
  | .named name => decl.pod name
  | .cupp_vector _ => false
  | .deviceT_vector _ => false

/-- Result of instantiating a binding template for a type. -/
inductive instantiation where
  | type (t : cpp_type)
  | ambiguous
  | no_member
  deriving DecidableEq, Repr

/-- The member `get_type<POD, T>::host_type` (kernel_type_binding.h, lines 21-34): `T`
itself in the specialisation for plain old data, `T::host_type` otherwise.  The
generic template declares both typedefs, and instantiating it needs both
`T::host_type` and `T::device_type`. -/
def get_type.host_type (decl : declarations) (POD : Bool) (T : base_type) : instantiation :=
  if POD then .type (.plain T)
  else
    match decl.host_type T, decl.device_type T with
    | some h, some _ => .type h
    | _, _ => .no_member

/-- The member `get_type<POD, T>::device_type` (kernel_type_binding.h, lines 21-34): `T`
itself in the specialisation for plain old data, `T::device_type` otherwise.  The
generic template declares both typedefs, and instantiating it needs both
`T::host_type` and `T::device_type`. -/
def get_type.device_type (decl : declarations) (POD : Bool) (T : base_type) : instantiation :=
  if POD then .type (.plain T)
  else
    match decl.host_type T, decl.device_type T with
    | some _, some h => .type h
    | _, _ => .no_member

/-- The trait `kernel_host_type<device_type>::type` (kernel_type_binding.h, lines 50-75,
and the specialisation for `cupp::deviceT::vector<T>`, vector.h, lines 638-643).  A
reference matches the specialisation for `device_type&` only.  A type that is both
`const` and `volatile` matches the specialisation for `device_type const` and the
one for `device_type volatile`, of which neither is more specialised than the
other: the instantiation is ambiguous. -/
def kernel_host_type (decl : declarations) (t : cpp_type) : instantiation :=
  if t.is_reference = true then
    kernel_host_type decl (remove_reference { t with is_reference := false })
  else if t.is_const = true then
    if t.is_volatile = true then .ambiguous
    else kernel_host_type decl (remove_const { t with is_const := false })
  else if t.is_volatile = true then
    kernel_host_type decl (remove_volatile { t with is_volatile := false })
  else
    match t.base with
    | .deviceT_vector T => .type (.plain (.cupp_vector T))
    | b => get_type.host_type decl (is_pod decl b) b
termination_by t.qualifiers
decreasing_by
  all_goals simp_wf
  all_goals simp_all [cpp_type.qualifiers, remove_reference, remove_const, remove_volatile]

/-- The trait `kernel_device_type<host_type>::type` (kernel_type_binding.h, lines
89-110, and the specialisation for `cupp::vector<T>`, vector.h, lines 645-649), with
the same selection of the specialisation as `kernel_host_type`. -/
def kernel_device_type (decl : declarations) (t : cpp_type) : instantiation :=
  if t.is_reference = true then
    kernel_device_type decl (remove_reference { t with is_reference := false })
  else if t.is_const = true then
    if t.is_volatile = true then .ambiguous
    else kernel_device_type decl (remove_const { t with is_const := false })
  else if t.is_volatile = true then
    kernel_device_type decl (remove_volatile { t with is_volatile := false })
  else
    match t.base with
    | .cupp_vector T => .type (.plain (.deviceT_vector T))
    | b => get_type.device_type decl (is_pod decl b) b
termination_by t.qualifiers
decreasing_by
  all_goals simp_wf
  all_goals simp_all [cpp_type.qualifiers, remove_reference, remove_const, remove_volatile]

/-- Declarations in which `int` is the only plain old data type and no class declares
the member typedefs. -/
def declares_int : declarations :=
  { pod := fun name => name == "int", host_type := fun _ => none,
    device_type := fun _ => none }

/-- The type `int`. -/
def int_type : cpp_type := .plain (.named "int")

/-- The type `const volatile int`. -/
def const_volatile_int : cpp_type :=
  { base := .named "int", is_const := true, is_volatile := true, is_reference := false }

/-- The type `const int&`. -/
def const_int_reference : cpp_type :=
  { base := .named "int", is_const := true, is_volatile := false, is_reference := true }

/-- The type `const cupp::vector<int>&`. -/
def const_vector_reference : cpp_type :=
  { base := .cupp_vector (.named "int"), is_const := true, is_volatile := false,
    is_reference := true }

/-! ### Further notions about the container -/

/-- The state of a container that has just been constructed: pending host changes, no
pending device changes, no device buffer, no proxy, and the proxy not marked
invalid. -/
def initial_state {T : Type} (v : vector T) : Prop :=
  HostDirty v ∧ v.memory_ = .null ∧ v.device_proxy_ = .null ∧ v.proxy_invalid_ = false

/-- The pointers that the materialisation dereferences are not null where it
dereferences them: without pending host changes there is a device buffer, and next
to a device buffer a proxy that is not marked invalid exists. -/
def pointers_present {T : Type} (v : vector T) : Prop :=
  (v.host_changes_ = false → v.memory_ ≠ .null) ∧
  (v.proxy_invalid_ = false → v.memory_ ≠ .null → ∃ p, v.device_proxy_ = .valid p)

/-- The container `v1` has the device buffer pointer, the proxy pointer and the proxy
flag of `v`, and no pending host changes less than `v`. -/
def vector.keeps_pointers {T : Type} (v1 v : vector T) : Prop :=
  v1.memory_ = v.memory_ ∧ v1.proxy_invalid_ = v.proxy_invalid_ ∧
    v1.device_proxy_ = v.device_proxy_ ∧ (v1.host_changes_ = false → v.host_changes_ = false)

/-! ### Further concrete states -/

/-- The Synced container of the scenario after a kernel that was given its descriptor
through a parameter that is not marked dirty has stored 43 in element 0 of the
mirror: no `dirty` call follows, and the flags do not show the store. -/
def stored_without_dirty : st Int :=
  (device_store 0 43 (scenario_synced 7).1, (scenario_synced 7).2)

/-- The container `round_trip_materialised`, mirrored on device 7, after
`update_device(8)` has thrown because the allocation on device 8 failed:
`delete memory_` has run, `memory_ = new ...` has not. -/
def failed_reallocation : st Int :=
  ({ data_ := [42, 9], host_changes_ := false, device_changes_ := false,
     proxy_invalid_ := true, memory_ := .dangling, device_proxy_ := .null,
     device_ptr_ := some 7 },
   { next_address := 1, failures := [],
     log := [.alloc 7 0 2, .copy_to_device 0, .free 0, .alloc 8 1 2] })

/-! ### The copy constructor as it is written (vector.h, lines 197-200)

The three other constructors have an empty body.  The body of the copy constructor
has two statements, `c.update_host();` and `data_(c);`.  Whether such a statement is
well formed is decided when the constructor is instantiated, that is when a program
copies a container: the function must be a member of the class of the object. -/

/-- The member functions that `std::vector<T>` declares (ISO C++ 2003, 23.2.4).  There is
no function call operator among them. -/
def std_vector_members : List String :=
  ["assign", "at", "back", "begin", "capacity", "clear", "empty", "end", "erase", "front",
   "get_allocator", "insert", "max_size", "operator=", "operator[]", "pop_back",
   "push_back", "rbegin", "rend", "reserve", "resize", "size", "swap"]

/-- The member functions that `cupp::vector<T>` declares (vector.h, lines 226-597). -/
def cupp_vector_members : List String :=
  ["operator[]", "operator=", "assign", "at", "back", "begin", "capacity", "clear", "empty",
   "end", "erase", "front", "insert", "max_size", "pop_back", "push_back", "rbegin", "rend",
   "reserve", "resize", "size", "swap", "get_host_based_device_copy",
   "get_device_based_device_copy", "dirty", "update_host", "update_device"]

/-- A statement that calls a member function on an object: `members` are the member
functions of the class of the object, `function` is the one that is called.  An
object applied to arguments like a function, `object(arguments)`, calls its member
`operator()`. -/
structure call_statement where
  members : List String
  function : String
  deriving DecidableEq, Repr

/-- The statement is well formed when the class declares the function. -/
def call_statement.well_formed (s : call_statement) : Bool := s.members.contains s.function

/-- The body of `vector(const vector& c)` (vector.h, lines 198-199): `c.update_host();`,
on the `cupp::vector<T>` `c`, and `data_(c);`, which applies the member `data_`, a
`std::vector<T>`, to `c`. -/
def copy_constructor_body : List call_statement :=
  [{ members := cupp_vector_members, function := "update_host" },
   { members := std_vector_members, function := "operator()" }]

/-- A constructor can be instantiated when every statement of its body is well
formed. -/
def instantiable (body : List call_statement) : Bool :=
  body.all fun s => s.well_formed


variable {T : Type}

/-! ### Basic facts about outcomes and the two sync functions -/

@[simp]
theorem discard_state {σ α : Type} (x : outcome σ α) : x.discard.state = x.state := by
  cases x <;> rfl

theorem discard_eq_ok {σ α : Type} (x : outcome σ α) (s : σ) :
    x.discard = .ok () s ↔ ∃ a, x = .ok a s := by
  cases x <;> simp [outcome.discard]

theorem discard_eq_thrown {σ α : Type} (x : outcome σ α) (e : error) (s : σ) :
    x.discard = .thrown e s ↔ x = .thrown e s := by
  cases x <;> simp [outcome.discard]

theorem bind_eq_ok {σ α β : Type} (x : outcome σ α) (f : α → σ → outcome σ β) (b : β) (s : σ) :
    x.bind f = .ok b s ↔ ∃ a s1, x = .ok a s1 ∧ f a s1 = .ok b s := by
  cases x with
  | ok a0 s0 =>
    constructor
    · intro h
      exact ⟨a0, s0, rfl, h⟩
    · rintro ⟨a, s1, h1, h2⟩
      cases h1
      exact h2
  | thrown e s0 => simp [outcome.bind]
  | aborted g s0 => simp [outcome.bind]

/-- A property of the final state of `x.bind f` follows from the same property of
the final state of `x` and of every continuation that runs. -/
theorem bind_state_ind {σ α β : Type} (P : σ → Prop) (x : outcome σ α)
    (f : α → σ → outcome σ β) (hx : P x.state)
    (hf : ∀ a s, x = .ok a s → P (f a s).state) : P (x.bind f).state := by
  cases x with
  | ok a s => exact hf a s rfl
  | thrown e s => exact hx
  | aborted g s => exact hx

theorem update_host_host_flag (v : vector T) (w : world) :
    (update_host v w).state.1.host_changes_ = v.host_changes_ := by
  unfold update_host
  repeat' split
  all_goals simp [outcome.state]

theorem update_host_device_flag (v : vector T) (w : world) :
    (update_host v w).state.1.device_changes_ = true → v.device_changes_ = true := by
  unfold update_host
  repeat' split
  all_goals simp_all [outcome.state]

theorem update_host_ok_device_flag (v : vector T) (w : world) (a : Unit) (s : st T)
    (h : update_host v w = .ok a s) : s.1.device_changes_ = false := by
  unfold update_host at h
  repeat' split at h
  all_goals simp_all
  all_goals (try (obtain ⟨rfl, rfl⟩ := h; simp_all))

theorem update_host_of_clean (v : vector T) (w : world) (h : v.device_changes_ = false) :
    update_host v w = .ok () (v, w) := by
  simp [update_host, h]

theorem update_device_flags (d : device) (v : vector T) (w : world) :
    (update_device d v w).state.1.device_changes_ = v.device_changes_ ∧
    ((update_device d v w).state.1.host_changes_ = true → v.host_changes_ = true) := by
  unfold update_device install_memory
  repeat' split
  all_goals simp_all [outcome.state]

theorem coherent_update_host (v : vector T) (w : world) (hc : coherent v) :
    coherent (update_host v w).state.1 := by
  intro h
  exact hc ⟨by rw [← update_host_host_flag v w]; exact h.1, update_host_device_flag v w h.2⟩

theorem coherent_update_device (d : device) (v : vector T) (w : world) (hc : coherent v) :
    coherent (update_device d v w).state.1 := by
  intro h
  have hf := update_device_flags d v w
  exact hc ⟨hf.2 h.1, by rw [← hf.1]; exact h.2⟩

/-- A member function that syncs first and whose rest does not set `device_changes_`
keeps the coherence invariant. -/
theorem coherent_sync_then {α : Type} (v : vector T) (w : world)
    (f : Unit → st T → outcome (st T) α) (hc : coherent v)
    (hf : ∀ s, s.1.device_changes_ = false → (f () s).state.1.device_changes_ = false) :
    coherent ((update_host v w).bind f).state.1 := by
  refine bind_state_ind (fun s : st T => coherent s.1) _ _ ?_ ?_
  · exact coherent_update_host v w hc
  · intro a s hs h
    have h1 := hf s (update_host_ok_device_flag v w a s hs)
    rw [h1] at h
    exact absurd h.2 (by simp)

theorem coherent_get_host_based_device_copy (d : device) (v : vector T) (w : world)
    (hc : coherent v) : coherent (get_host_based_device_copy d v w).state.1 := by
  unfold get_host_based_device_copy
  refine bind_state_ind (fun s : st T => coherent s.1) _ _ ?_ ?_
  · exact coherent_update_device d v w hc
  · intro a s hs
    have h1 : s = (update_device d v w).state := by rw [hs]; rfl
    have h2 := coherent_update_device d v w hc
    rw [← h1] at h2
    split <;> exact h2

theorem rebuild_proxy_flags (d : device) (r : deviceT.vector) (s : st T) :
    (rebuild_proxy d r s).state.1.host_changes_ = s.1.host_changes_ ∧
    (rebuild_proxy d r s).state.1.device_changes_ = s.1.device_changes_ := by
  unfold rebuild_proxy
  repeat' split
  all_goals simp_all [outcome.state]

theorem coherent_get_device_based_device_copy (d : device) (v : vector T) (w : world)
    (hc : coherent v) : coherent (get_device_based_device_copy d v w).state.1 := by
  unfold get_device_based_device_copy
  refine bind_state_ind (fun s : st T => coherent s.1) _ _ ?_ ?_
  · exact coherent_get_host_based_device_copy d v w hc
  · intro r s hs
    have h1 : s = (get_host_based_device_copy d v w).state := by rw [hs]; rfl
    have h2 := coherent_get_host_based_device_copy d v w hc
    rw [← h1] at h2
    have h3 : coherent (rebuild_proxy d r s).state.1 := by
      intro h
      have hf := rebuild_proxy_flags d r s
      exact h2 ⟨by rw [← hf.1]; exact h.1, by rw [← hf.2]; exact h.2⟩
    refine bind_state_ind (fun s : st T => coherent s.1) _ _ ?_ ?_
    · exact h3
    · intro a s1 hs1
      have h4 : s1 = (rebuild_proxy d r s).state := by rw [hs1]; rfl
      rw [← h4] at h3
      split <;> exact h3

/-- Every public call keeps the coherence invariant, `dirty` provided that it is not
called on pending host changes. -/
theorem coherent_run (o : op T) (v : vector T) (w : world) (hc : coherent v)
    (hg : ¬ o.dirty_on_host_changes v) : coherent (o.run v w).state.1 := by
  cases o
  case update_host => exact coherent_update_host v w hc
  case update_device d => exact coherent_update_device d v w hc
  case get_host_based_device_copy d =>
    simpa [op.run] using coherent_get_host_based_device_copy d v w hc
  case get_device_based_device_copy d =>
    simpa [op.run] using coherent_get_device_based_device_copy d v w hc
  case dirty d h =>
    simp only [op.dirty_on_host_changes] at hg
    simp [op.run, dirty, coherent, outcome.state, hg]
  case operator_assign c2 =>
    simp only [op.run, discard_state, operator_assign]
    split <;> simp_all [coherent, outcome.state]
  case begin_const => simpa [op.run, begin_const, outcome.state] using hc
  all_goals
    simp only [op.run, discard_state, element_proxy.read, operator_index_const,
      element_proxy.assign, push_back, pop_back, resize, insert, insert_n, insert_range,
      erase, erase_range, assign, assign_range, clear, begin_, end_, end_const]
  case assign | assign_range | clear => simp [coherent, outcome.state]
  all_goals
    apply coherent_sync_then v w _ hc
    intro s hs
    (repeat' split) <;> simp [outcome.state, hs]

/-! ### C1: the coherence invariant -/

theorem coherent_device_store (i : Nat) (x : T) (v : vector T) (hc : coherent v) :
    coherent (device_store i x v) := by
  unfold device_store
  split
  · exact hc
  · exact hc

theorem coherent_new_copy (c c1 : vector T) (w : world) (s : st T)
    (h : vector.new_copy c w = .ok c1 s) : coherent s.1 := by
  unfold vector.new_copy at h
  split at h
  · cases h
    simp [coherent]
  · cases h
  · cases h

/-- C1, as stated, fails: `dirty` is a public member function, and called right after
the default constructor it leaves `host_changes_` and `device_changes_` both set. -/
theorem coherence_fails_after_unguarded_dirty :
    reachable false
      (({ data_ := [], host_changes_ := true, device_changes_ := true, proxy_invalid_ := false,
          memory_ := .null, device_proxy_ := .null, device_ptr_ := none } : vector Int),
        world.fresh) ∧
    ¬ coherent
      ({ data_ := [], host_changes_ := true, device_changes_ := true, proxy_invalid_ := false,
         memory_ := .null, device_proxy_ := .null, device_ptr_ := none } : vector Int) :=
  ⟨reachable.returned (.dirty 0 0) (vector.new, world.fresh) _ (reachable.new world.fresh)
      (fun h => by cases h) rfl,
   fun h => h ⟨rfl, rfl⟩⟩

/-- C1, amended: in every state reachable from a constructor by public calls that
return normally or throw (and by kernel stores into the mirror), where `dirty` is
only called on a container whose `host_changes_` is false, `host_changes_` and
`device_changes_` are not both true. -/
theorem coherence_invariant (s : st T) (h : reachable true s) : coherent s.1 := by
  induction h with
  | new w => simp [coherent, vector.new]
  | new_fill num val w => simp [coherent, vector.new_fill]
  | new_range xs w => simp [coherent, vector.new_range]
  | new_copy c c1 w s h => exact coherent_new_copy c c1 w s h
  | returned o s s1 _ hg hrun ih =>
    have h1 := coherent_run o s.1 s.2 ih (hg rfl)
    rw [hrun] at h1
    exact h1
  | threw o e s s1 _ hg hrun ih =>
    have h1 := coherent_run o s.1 s.2 ih (hg rfl)
    rw [hrun] at h1
    exact h1
  | kernel_store i x s _ ih => exact coherent_device_store i x s.1 ih

/-- The invariant at the state reached by `vector()`, `update_device(7)`, `dirty(7, 0)`. -/
theorem coherence_invariant_witness :
    reachable true materialised_then_dirty ∧ coherent materialised_then_dirty.1 :=
  have hr : reachable true materialised_then_dirty :=
    reachable.returned (.dirty 7 0) _ _
      (reachable.returned (.update_device 7) (vector.new, world.fresh) _
        (reachable.new world.fresh) (fun _ h => by cases h) rfl)
      (fun _ h => by simp [op.dirty_on_host_changes] at h) rfl
  ⟨hr, coherence_invariant materialised_then_dirty hr⟩

/-! ### C2: the end-to-end scenario -/

/-- C2: from a one-element container holding 5, writing 42 at index 0 leaves the state
HostDirty; `get_device_based_device_copy(d)`, for any device `d`, allocates, copies
host to device and leaves the state Synced; after the kernel stored 43 and `dirty`
was called the state is DeviceDirty; the host read of index 0 then returns 43 through
one device-to-host copy and leaves the state Synced. -/
theorem end_to_end_scenario (d : device) :
    element_proxy.assign 0 42 (vector.new_fill 1 (5 : Int)) world.fresh
        = .ok () scenario_host_dirty ∧
      HostDirty scenario_host_dirty.1 ∧
    get_device_based_device_copy d scenario_host_dirty.1 scenario_host_dirty.2
        = .ok 1 (scenario_synced d) ∧
      Synced (scenario_synced d).1 ∧ mirrored (scenario_synced d).1 ∧
      performed scenario_host_dirty.2
          (get_device_based_device_copy d scenario_host_dirty.1 scenario_host_dirty.2)
        = [.alloc d 0 1, .copy_to_device 0, .alloc d 1 1, .copy_to_device 1] ∧
    dirty d 1 (device_store 0 43 (scenario_synced d).1) (scenario_synced d).2
        = .ok () (scenario_device_dirty d) ∧
      DeviceDirty (scenario_device_dirty d).1 ∧
    element_proxy.read 0 (scenario_device_dirty d).1 (scenario_device_dirty d).2
        = .ok 43 (scenario_read_back d) ∧
      Synced (scenario_read_back d).1 ∧
      performed (scenario_device_dirty d).2
          (element_proxy.read 0 (scenario_device_dirty d).1 (scenario_device_dirty d).2)
        = [.copy_to_host 0] :=
  ⟨rfl, ⟨rfl, rfl⟩, rfl, ⟨rfl, rfl⟩, ⟨_, rfl, rfl⟩, rfl, rfl, ⟨rfl, rfl⟩, rfl, ⟨rfl, rfl⟩, rfl⟩

/-! ### C4: the host read sync -/

/-- C4: on a DeviceDirty container whose device buffer is there and has the length of
the host buffer, `update_host` makes one device-to-host copy; when the copy succeeds
the host buffer is replaced by the contents of the device buffer, both flags are
false, and the device buffer, the recorded device and the proxy flag are unchanged;
when the copy fails with an error the container is unchanged. -/
theorem update_host_syncs (v : vector T) (w : world) (m : memory1d T)
    (hd : DeviceDirty v) (hm : v.memory_ = .valid m) (hl : m.size = v.data_.length) :
    (w.fails = false →
      update_host v w =
        .ok () ({ v with data_ := m.cells, device_changes_ := false },
                w.step (.copy_to_host m.address))) ∧
    (w.fails = true →
      update_host v w = .thrown .cuda_runtime_error (v, w.step (.copy_to_host m.address))) ∧
    Synced ({ v with data_ := m.cells, device_changes_ := false }) ∧
    mirrored ({ v with data_ := m.cells, device_changes_ := false }) := by
  obtain ⟨hd1, hd2⟩ := hd
  refine ⟨fun hw => ?_, fun hw => ?_, ⟨hd2, rfl⟩, ⟨m, hm, rfl⟩⟩
  · simp [update_host, memory1d.copy_to_host, hd1, hd2, hm, hl, hw]
  · simp [update_host, memory1d.copy_to_host, hd1, hd2, hm, hl, hw]

/-- The sync of C4 at the DeviceDirty container of the end-to-end scenario. -/
theorem update_host_syncs_witness :
    DeviceDirty (scenario_device_dirty 7).1 ∧
    update_host (scenario_device_dirty 7).1 (scenario_device_dirty 7).2
      = .ok () (scenario_read_back 7) :=
  ⟨⟨rfl, rfl⟩,
   (update_host_syncs (scenario_device_dirty 7).1 (scenario_device_dirty 7).2
      { dev := 7, address := 0, cells := [43] } ⟨rfl, rfl⟩ rfl rfl).1 rfl⟩

/-! ### C5: the host read accessors -/

/-- C5 fails for `begin() const`: on the DeviceDirty container of the scenario (host
buffer 42, device buffer 43) it returns an iterator without any sync, the container
stays DeviceDirty and the iterator shows the stale 42, whereas `end() const` on the
same container copies device to host, leaves it Synced and the host buffer shows 43. -/
theorem begin_const_skips_sync :
    DeviceDirty (scenario_device_dirty 7).1 ∧
    begin_const (scenario_device_dirty 7).1 (scenario_device_dirty 7).2
      = .ok 0 (scenario_device_dirty 7) ∧
    const_iterator_deref (scenario_device_dirty 7).1 0 = some 42 ∧
    performed (scenario_device_dirty 7).2
      (begin_const (scenario_device_dirty 7).1 (scenario_device_dirty 7).2) = [] ∧
    end_const (scenario_device_dirty 7).1 (scenario_device_dirty 7).2
      = .ok 1 (scenario_read_back 7) ∧
    Synced (scenario_read_back 7).1 ∧
    const_iterator_deref (scenario_read_back 7).1 0 = some 43 :=
  ⟨⟨rfl, rfl⟩, rfl, rfl, rfl, rfl, ⟨rfl, rfl⟩, rfl⟩

/-! ### C3: the coherence round trip -/

theorem update_device_data (d : device) (v : vector T) (w : world) :
    (update_device d v w).state.1.data_ = v.data_ := by
  unfold update_device install_memory
  repeat' split
  all_goals simp_all [outcome.state]

/-- A host write that returns normally has applied its effect to the synced host
buffer and leaves `device_changes_` false; on a container without device changes it
calls no device primitive. -/
theorem host_write_run_ok (a : host_write T) (v : vector T) (w : world) (s : st T)
    (h : a.run v w = .ok () s) :
    s.1.data_ = a.effect (update_host v w).state.1.data_ ∧ s.1.device_changes_ = false ∧
      (v.device_changes_ = false → s.2 = w) := by
  cases a
  case assign n x =>
    simp only [host_write.run, assign, outcome.ok.injEq, true_and] at h
    subst h
    simp [host_write.effect]
  case assign_range xs =>
    simp only [host_write.run, assign_range, outcome.ok.injEq, true_and] at h
    subst h
    simp [host_write.effect]
  all_goals
    simp only [host_write.run, element_proxy.assign, push_back, resize] at h
    rw [bind_eq_ok] at h
    obtain ⟨u, s1, h1, h2⟩ := h
    have hf := update_host_ok_device_flag v w u s1 h1
    have hw : v.device_changes_ = false → s1.2 = w := by
      intro hv
      rw [update_host_of_clean v w hv] at h1
      cases h1
      rfl
    rw [h1]
    simp only [outcome.state]
    (try split at h2)
    all_goals cases h2
    all_goals exact ⟨rfl, hf, hw⟩

theorem run_writes_clean (ws : List (host_write T)) :
    ∀ (v : vector T) (w : world) (s : st T), v.device_changes_ = false →
      run_writes ws v w = .ok () s →
      s.1.data_ = ws.foldl (fun h a => a.effect h) v.data_ ∧ s.1.device_changes_ = false ∧
        s.2 = w := by
  induction ws with
  | nil =>
    intro v w s hv h
    simp only [run_writes, outcome.ok.injEq, true_and] at h
    subst h
    simp [hv]
  | cons a rest ih =>
    intro v w s hv h
    simp only [run_writes] at h
    rw [bind_eq_ok] at h
    obtain ⟨u, s1, h1, h2⟩ := h
    have ha := host_write_run_ok a v w s1 h1
    have hr := ih s1.1 s1.2 s ha.2.1 h2
    rw [update_host_of_clean v w hv] at ha
    simp only [outcome.state] at ha
    refine ⟨?_, hr.2.1, ?_⟩
    · rw [hr.1, ha.1]; rfl
    · rw [hr.2.2, ha.2.2 hv]

theorem run_writes_data (ws : List (host_write T)) (v : vector T) (w : world) (s : st T)
    (hv : v.device_changes_ = false ∨ ws ≠ []) (h : run_writes ws v w = .ok () s) :
    s.1.data_ = ws.foldl (fun h a => a.effect h) (update_host v w).state.1.data_ ∧
      s.1.device_changes_ = false := by
  cases ws with
  | nil =>
    have hv1 : v.device_changes_ = false := by
      rcases hv with hv | hv
      · exact hv
      · exact absurd rfl hv
    have hr := run_writes_clean [] v w s hv1 h
    rw [update_host_of_clean v w hv1]
    exact ⟨hr.1, hr.2.1⟩
  | cons a rest =>
    simp only [run_writes] at h
    rw [bind_eq_ok] at h
    obtain ⟨u, s1, h1, h2⟩ := h
    have ha := host_write_run_ok a v w s1 h1
    have hr := run_writes_clean rest s1.1 s1.2 s ha.2.1 h2
    refine ⟨?_, hr.2.1⟩
    rw [hr.1, ha.1]; rfl

/-- C3: `update_device` never changes the host element buffer; and after any sequence
of host writes (element assignment, `push_back`, `resize`, `assign`) on any container
(a container with pending device changes provided the sequence is not empty),
followed by a normal return of `update_device(d)`, the host buffer holds the values
the writes produced, and a host read of any index in range, through
`operator[] const` or through the element proxy, returns that value and changes
neither the container nor the device trace. -/
theorem coherence_round_trip :
    (∀ (d : device) (v : vector T) (w : world),
      (update_device d v w).state.1.data_ = v.data_) ∧
    (∀ (ws : List (host_write T)) (v : vector T) (w : world) (d : device) (s1 s2 : st T),
      (v.device_changes_ = false ∨ ws ≠ []) →
      run_writes ws v w = .ok () s1 →
      update_device d s1.1 s1.2 = .ok () s2 →
      s2.1.data_ = ws.foldl (fun h a => a.effect h) (update_host v w).state.1.data_ ∧
      ∀ (i : Nat) (x : T),
        (ws.foldl (fun h a => a.effect h) (update_host v w).state.1.data_)[i]? = some x →
        operator_index_const i s2.1 s2.2 = .ok x s2 ∧
        element_proxy.read i s2.1 s2.2 = .ok x s2) := by
  refine ⟨update_device_data, ?_⟩
  intro ws v w d s1 s2 hv h1 h2
  have hw := run_writes_data ws v w s1 hv h1
  have hd := update_device_data d s1.1 s1.2
  have hf := (update_device_flags d s1.1 s1.2).1
  rw [h2] at hd hf
  simp only [outcome.state] at hd hf
  have hdata : s2.1.data_ = ws.foldl (fun h a => a.effect h) (update_host v w).state.1.data_ := by
    rw [hd, hw.1]
  refine ⟨hdata, ?_⟩
  intro i x hx
  have hclean : s2.1.device_changes_ = false := by rw [hf, hw.2]
  rw [← hdata] at hx
  simp [operator_index_const, element_proxy.read, update_host_of_clean s2.1 s2.2 hclean,
    outcome.bind, hx]

/-- The round trip of C3 on the one-element container holding 5: after the writes
`v[0] = 42` and `push_back(9)` and a materialisation on device 7, reading index 1
returns 9. -/
theorem coherence_round_trip_witness :
    run_writes [.element 0 42, .push_back 9] (vector.new_fill 1 (5 : Int)) world.fresh
        = .ok () round_trip_written ∧
      update_device 7 round_trip_written.1 round_trip_written.2
        = .ok () round_trip_materialised ∧
      operator_index_const 1 round_trip_materialised.1 round_trip_materialised.2
        = .ok 9 round_trip_materialised :=
  ⟨rfl, rfl,
   ((coherence_round_trip.2 [.element 0 42, .push_back 9] (vector.new_fill 1 (5 : Int))
      world.fresh 7 round_trip_written round_trip_materialised (Or.inl rfl) rfl rfl).2
      1 9 rfl).1⟩

/-! ### C6: host mutating access -/

theorem update_device_idle (d : device) (v : vector T) (w : world)
    (h : ¬ (v.host_changes_ = true ∨ some d ≠ v.device_ptr_)) :
    update_device d v w = .ok () (v, w) := by
  unfold update_device
  rw [if_neg h]

theorem update_device_assertion (d : device) (v : vector T) (w : world)
    (ht : v.host_changes_ = true ∨ some d ≠ v.device_ptr_) (hd : v.device_changes_ = true) :
    update_device d v w = .aborted .assertion_failed (v, w) := by
  unfold update_device
  rw [if_pos ht, if_pos hd]

theorem update_device_null (d : device) (v : vector T) (w : world)
    (ht : v.host_changes_ = true ∨ some d ≠ v.device_ptr_) (hd : v.device_changes_ = false)
    (hm : v.memory_ = .null) : update_device d v w = install_memory d v w := by
  unfold update_device
  rw [if_pos ht, if_neg (by simp [hd])]
  simp [hm]

theorem update_device_dangling (d : device) (v : vector T) (w : world)
    (ht : v.host_changes_ = true ∨ some d ≠ v.device_ptr_) (hd : v.device_changes_ = false)
    (hm : v.memory_ = .dangling) :
    update_device d v w = .aborted .invalid_pointer (v, w) := by
  unfold update_device
  rw [if_pos ht, if_neg (by simp [hd])]
  simp [hm]

theorem update_device_replace (d : device) (v : vector T) (w : world) (m : memory1d T)
    (ht : v.host_changes_ = true ∨ some d ≠ v.device_ptr_) (hd : v.device_changes_ = false)
    (hm : v.memory_ = .valid m) (hr : m.size ≠ v.data_.length ∨ some d ≠ v.device_ptr_) :
    update_device d v w =
      install_memory d { v with memory_ := .dangling }
        { w with log := w.log ++ [.free m.address] } := by
  unfold update_device
  rw [if_pos ht, if_neg (by simp [hd])]
  simp only [hm]
  rw [if_pos hr]

theorem update_device_in_place (d : device) (v : vector T) (w : world) (m : memory1d T)
    (ht : v.host_changes_ = true ∨ some d ≠ v.device_ptr_) (hd : v.device_changes_ = false)
    (hm : v.memory_ = .valid m) (hr : ¬ (m.size ≠ v.data_.length ∨ some d ≠ v.device_ptr_)) :
    update_device d v w =
      if w.fails = true then
        .thrown .cuda_runtime_error (v, w.step (.copy_to_device m.address))
      else
        .ok () ({ v with memory_ := .valid { m with cells := v.data_ }, device_ptr_ := some d,
                         host_changes_ := false }, w.step (.copy_to_device m.address)) := by
  have hs : m.size = v.data_.length := by
    by_contra hne
    exact hr (Or.inl hne)
  unfold update_device
  rw [if_pos ht, if_neg (by simp [hd])]
  simp only [hm]
  rw [if_neg hr]
  unfold memory1d.copy_to_device
  rw [if_neg (by omega)]
  by_cases hf : w.fails = true
  · simp [hf]
  · simp [hf, hs]

theorem install_memory_eq (d : device) (v : vector T) (w : world) :
    install_memory d v w =
      if w.fails = true then
        .thrown .cuda_runtime_error (v, w.step (.alloc d w.next_address v.data_.length))
      else if w.failures.tail.headD false = true then
        .thrown .cuda_runtime_error
          (v, { next_address := w.next_address + 1, failures := w.failures.tail.tail,
                log := w.log ++ [.alloc d w.next_address v.data_.length,
                                 .copy_to_device w.next_address] })
      else
        .ok () ({ v with memory_ := .valid { dev := d, address := w.next_address,
                                             cells := v.data_ },
                         proxy_invalid_ := true, device_ptr_ := some d,
                         host_changes_ := false },
                { next_address := w.next_address + 1, failures := w.failures.tail.tail,
                  log := w.log ++ [.alloc d w.next_address v.data_.length,
                                   .copy_to_device w.next_address] }) := by
  unfold install_memory memory1d.create world.fails world.step
  dsimp only
  split_ifs <;> simp

/-! ### C7: the buffer rule of `update_device` -/

/-- C7: when `update_device(d)` is triggered (`host_changes_` is set or `d` is not the
recorded device) and returns normally, then, if the container has no device buffer,
or the size of the buffer differs from the host length, or `d` is not the recorded
device, the old buffer (if any) has been released, a newly allocated buffer with the
host length and the host contents is installed and `proxy_invalid_` is true;
otherwise the existing buffer, at the same address and with the same size, has
received the host data by one host-to-device copy and `proxy_invalid_` is unchanged.
The call returns normally when the container has no pending device changes, no
primitive fails and `memory_` is not a deleted buffer. -/
theorem update_device_buffer_rule (d : device) (v : vector T) (w : world)
    (ht : v.host_changes_ = true ∨ some d ≠ v.device_ptr_) :
    (v.device_changes_ = false → v.memory_ ≠ .dangling → w.failures = [] →
      ∃ s, update_device d v w = .ok () s) ∧
    ∀ s, update_device d v w = .ok () s →
      ((v.memory_ = .null ∨ mirror_length v ≠ some v.data_.length ∨ some d ≠ v.device_ptr_) →
        ∃ m1, s.1.memory_ = .valid m1 ∧ m1.cells = v.data_ ∧ m1.size = v.data_.length ∧
          m1.address = w.next_address ∧ s.1.proxy_invalid_ = true ∧
          performed w (update_device d v w) =
            (match v.memory_ with
              | .valid m => [.free m.address]
              | _ => []) ++
            [.alloc d w.next_address v.data_.length, .copy_to_device w.next_address]) ∧
      (¬ (v.memory_ = .null ∨ mirror_length v ≠ some v.data_.length ∨
            some d ≠ v.device_ptr_) →
        ∃ m m1, v.memory_ = .valid m ∧ s.1.memory_ = .valid m1 ∧ m1.address = m.address ∧
          m1.size = m.size ∧ m1.cells = v.data_ ∧ s.1.proxy_invalid_ = v.proxy_invalid_ ∧
          performed w (update_device d v w) = [.copy_to_device m.address]) := by
  by_cases hd1 : v.device_changes_ = true
  · rw [update_device_assertion d v w ht hd1]
    refine ⟨fun h => ?_, ?_⟩
    · rw [hd1] at h
      cases h
    · intro s h
      cases h
  have hd : v.device_changes_ = false := by simpa using hd1
  cases hm : v.memory_ with
  | null =>
    have heq := update_device_null d v w ht hd hm
    refine ⟨fun _ _ hw => ?_, ?_⟩
    · rw [heq, install_memory_eq]
      simp [world.fails, hw]
    · intro s h
      rw [h]
      rw [heq, install_memory_eq] at h
      split at h
      · cases h
      · split at h
        · cases h
        · cases h
          simp [performed, outcome.state, memory1d.size]
  | dangling =>
    rw [update_device_dangling d v w ht hd hm]
    refine ⟨fun _ h _ => absurd rfl h, ?_⟩
    intro s h
    cases h
  | valid m =>
    by_cases hr : m.size ≠ v.data_.length ∨ some d ≠ v.device_ptr_
    · have heq := update_device_replace d v w m ht hd hm hr
      refine ⟨fun _ _ hw => ?_, ?_⟩
      · rw [heq, install_memory_eq]
        simp [world.fails, hw]
      · intro s h
        rw [h]
        rw [heq, install_memory_eq] at h
        have h3 : mirror_length v ≠ some v.data_.length ∨ some d ≠ v.device_ptr_ := by
          simp only [mirror_length, hm, ne_eq, Option.some.injEq]
          exact hr
        split at h
        · cases h
        · split at h
          · cases h
          · cases h
            refine ⟨fun _ => ?_, fun h4 => absurd (Or.inr h3) h4⟩
            simp [performed, outcome.state, memory1d.size]
    · have heq := update_device_in_place d v w m ht hd hm hr
      have h3 : ¬ (pointer.valid m = pointer.null ∨ mirror_length v ≠ some v.data_.length ∨
          some d ≠ v.device_ptr_) := by
        simp only [mirror_length, hm, ne_eq, Option.some.injEq]
        rintro (h4 | h4)
        · cases h4
        · exact hr h4
      refine ⟨fun _ _ hw => ?_, ?_⟩
      · rw [heq]
        simp [world.fails, hw]
      · intro s h
        rw [h]
        rw [heq] at h
        split at h
        · cases h
        · cases h
          refine ⟨fun h4 => absurd h4 h3, fun _ => ?_⟩
          simp [performed, outcome.state, world.step, memory1d.size]
          by_contra h5
          exact hr (Or.inl (fun h6 => h5 h6.symm))

/-- The buffer rule of C7 on the HostDirty container of the scenario, which has no
device buffer yet: `update_device(7)` returns normally. -/
theorem update_device_buffer_rule_witness :
    (scenario_host_dirty.1.host_changes_ = true ∨
        some 7 ≠ scenario_host_dirty.1.device_ptr_) ∧
      ∃ s, update_device 7 scenario_host_dirty.1 scenario_host_dirty.2 = .ok () s :=
  ⟨Or.inl rfl,
   (update_device_buffer_rule 7 scenario_host_dirty.1 scenario_host_dirty.2
      (Or.inl rfl)).1 rfl (fun h => by cases h) rfl⟩

/-! ### C8: the postcondition of `update_device` -/

/-- C8 fails as stated: the container `stored_without_dirty` is reached through calls
that return normally and a store of a kernel into the mirror; it is Synced, with
device 7 recorded, host buffer `[42]` and device buffer `[43]`.  `update_device(7)` is
not triggered, returns normally and changes nothing: the device buffer does not
hold the host elements afterwards. -/
theorem update_device_trusts_flags :
    reaches stored_without_dirty ∧ ¬ DeviceDirty stored_without_dirty.1 ∧
    update_device 7 stored_without_dirty.1 stored_without_dirty.2
      = .ok () stored_without_dirty ∧
    Synced stored_without_dirty.1 ∧ stored_without_dirty.1.device_ptr_ = some 7 ∧
    stored_without_dirty.1.data_ = [42] ∧
    stored_without_dirty.1.memory_ = .valid { dev := 7, address := 0, cells := [43] } ∧
    ¬ mirrored stored_without_dirty.1 :=
  ⟨reaches.kernel_store 0 43 (scenario_synced 7)
      (reaches.returned (.get_device_based_device_copy 7) scenario_host_dirty _
        (reaches.new_range [42] world.fresh) rfl),
   (fun h => by cases h.1), rfl, ⟨rfl, rfl⟩, rfl, rfl, rfl,
   (fun ⟨m, hm, hc⟩ => by
      cases hm
      cases hc)⟩

/-- C8, amended: on a container that is not DeviceDirty, whenever `update_device(d)`
returns normally the recorded device is `d`, both flags are false and the host
buffer is the one before the call; when the call was triggered (`host_changes_` was
true or `d` was not the recorded device) the device buffer holds exactly the host
elements; when it was not, the call has changed nothing, in the container or on the
device, so that the device buffer holds the host elements if it did before. -/
theorem update_device_postcondition (d : device) (v : vector T) (w : world) (s : st T)
    (hn : ¬ DeviceDirty v) (h : update_device d v w = .ok () s) :
    s.1.device_ptr_ = some d ∧ Synced s.1 ∧ s.1.data_ = v.data_ ∧
    ((v.host_changes_ = true ∨ some d ≠ v.device_ptr_) → mirrored s.1) ∧
    (¬ (v.host_changes_ = true ∨ some d ≠ v.device_ptr_) → s = (v, w)) ∧
    (mirrored v → mirrored s.1) := by
  have hd : v.device_changes_ = false := by
    cases hdc : v.device_changes_
    · rfl
    · cases hhc : v.host_changes_
      · exact absurd ⟨hdc, hhc⟩ hn
      · rw [update_device_assertion d v w (Or.inl hhc) hdc] at h
        cases h
  by_cases ht : v.host_changes_ = true ∨ some d ≠ v.device_ptr_
  · have hmir : s.1.device_ptr_ = some d ∧ Synced s.1 ∧ s.1.data_ = v.data_ ∧ mirrored s.1 := by
      cases hm : v.memory_ with
      | null =>
        rw [update_device_null d v w ht hd hm, install_memory_eq] at h
        split at h
        · cases h
        · split at h
          · cases h
          · cases h
            exact ⟨rfl, ⟨rfl, hd⟩, rfl, ⟨_, rfl, rfl⟩⟩
      | dangling =>
        rw [update_device_dangling d v w ht hd hm] at h
        cases h
      | valid m =>
        by_cases hr : m.size ≠ v.data_.length ∨ some d ≠ v.device_ptr_
        · rw [update_device_replace d v w m ht hd hm hr, install_memory_eq] at h
          split at h
          · cases h
          · split at h
            · cases h
            · cases h
              exact ⟨rfl, ⟨rfl, hd⟩, rfl, ⟨_, rfl, rfl⟩⟩
        · rw [update_device_in_place d v w m ht hd hm hr] at h
          split at h
          · cases h
          · cases h
            exact ⟨rfl, ⟨rfl, hd⟩, rfl, ⟨_, rfl, rfl⟩⟩
    exact ⟨hmir.1, hmir.2.1, hmir.2.2.1, fun _ => hmir.2.2.2, fun hnt => absurd ht hnt,
      fun _ => hmir.2.2.2⟩
  · rw [update_device_idle d v w ht] at h
    cases h
    have h1 : v.host_changes_ = false := by
      cases hh : v.host_changes_
      · rfl
      · exact absurd (Or.inl hh) ht
    have h2 : v.device_ptr_ = some d := by
      by_contra h3
      exact ht (Or.inr (fun h4 => h3 h4.symm))
    exact ⟨h2, ⟨h1, hd⟩, rfl, fun htr => absurd htr ht, fun _ => rfl, fun hm => hm⟩

/-- The postcondition of C8 on the HostDirty container of the round trip: the call is
triggered, and the buffer on device 7 holds the host elements afterwards. -/
theorem update_device_postcondition_witness :
    ¬ DeviceDirty round_trip_written.1 ∧
    update_device 7 round_trip_written.1 round_trip_written.2
      = .ok () round_trip_materialised ∧
    round_trip_materialised.1.device_ptr_ = some 7 ∧ Synced round_trip_materialised.1 ∧
    mirrored round_trip_materialised.1 :=
  have h := update_device_postcondition 7 round_trip_written.1 round_trip_written.2
    round_trip_materialised (fun hd => by cases hd.1) rfl
  ⟨(fun hd => by cases hd.1), rfl, h.1, h.2.1, h.2.2.2.1 (Or.inl rfl)⟩

/-! ### C9: the trigger of `update_device` -/

/-- C9, as stated, fails: on the DeviceDirty container of the scenario, mirrored on
device 7, `update_device(8)` is called for a device the container was not last
mirrored on, and it stops at the assertion without any allocation or copy. -/
theorem trigger_fails_on_device_dirty :
    trigger_in_spec 8 (scenario_device_dirty 7).1 ∧
    update_device 8 (scenario_device_dirty 7).1 (scenario_device_dirty 7).2
      = .aborted .assertion_failed (scenario_device_dirty 7) ∧
    allocates_or_copies 8 (scenario_device_dirty 7).1 (scenario_device_dirty 7).2 = false :=
  ⟨Or.inr (Or.inl (by decide)), rfl, rfl⟩

theorem allocates_or_copies_iff (d : device) (v : vector T) (w : world)
    (hd : v.device_changes_ = false) (hp : v.memory_ ≠ .dangling) :
    allocates_or_copies d v w = true ↔ (v.host_changes_ = true ∨ some d ≠ v.device_ptr_) := by
  by_cases ht : v.host_changes_ = true ∨ some d ≠ v.device_ptr_
  · simp only [ht, iff_true]
    unfold allocates_or_copies performed
    cases hm : v.memory_ with
    | null =>
      rw [update_device_null d v w ht hd hm, install_memory_eq]
      split_ifs <;>
        simp [outcome.state, world.step, event.is_alloc, event.is_copy_to_device]
    | dangling => exact absurd hm hp
    | valid m =>
      by_cases hr : m.size ≠ v.data_.length ∨ some d ≠ v.device_ptr_
      · rw [update_device_replace d v w m ht hd hm hr, install_memory_eq]
        split_ifs <;>
          simp [outcome.state, world.step, event.is_alloc, event.is_copy_to_device]
      · rw [update_device_in_place d v w m ht hd hm hr]
        split_ifs <;>
          simp [outcome.state, world.step, event.is_alloc, event.is_copy_to_device]
  · simp only [ht, iff_false]
    unfold allocates_or_copies performed
    rw [update_device_idle d v w ht]
    simp [outcome.state]

/-- C9, amended: on a container without pending device changes (whose buffer pointer
was not left deleted by a failed allocation), `update_device(d)` calls a device
allocation or a host-to-device copy if and only if `host_changes_` is true or `d`
is not the recorded device; the length of the buffer is not part of the trigger,
but when the length invariant holds (with `host_changes_` false the buffer is there
and has the host length) this is the same as the condition of the specification:
HostDirty, or `d` not the recorded device, or a length that differs. -/
theorem update_device_trigger (d : device) (v : vector T) (w : world)
    (hd : v.device_changes_ = false) (hp : v.memory_ ≠ .dangling) :
    (allocates_or_copies d v w = true ↔
      (v.host_changes_ = true ∨ some d ≠ v.device_ptr_)) ∧
    ((v.host_changes_ = false → mirror_length v = some v.data_.length) →
      (allocates_or_copies d v w = true ↔ trigger_in_spec d v)) := by
  refine ⟨allocates_or_copies_iff d v w hd hp, fun hl => ?_⟩
  rw [allocates_or_copies_iff d v w hd hp]
  unfold trigger_in_spec HostDirty
  constructor
  · rintro (h | h)
    · exact Or.inl ⟨h, hd⟩
    · exact Or.inr (Or.inl h)
  · rintro (h | h | h)
    · exact Or.inl h.1
    · exact Or.inr h
    · left
      cases hh : v.host_changes_
      · exact absurd (hl hh) h
      · rfl

/-- The trigger of C9 on the Synced container of the scenario: for its own device 7
nothing is allocated or copied, for device 8 something is. -/
theorem update_device_trigger_witness :
    (scenario_synced 7).1.device_changes_ = false ∧
    (scenario_synced 7).1.memory_ ≠ .dangling ∧
    allocates_or_copies 7 (scenario_synced 7).1 (scenario_synced 7).2 = false ∧
    allocates_or_copies 8 (scenario_synced 7).1 (scenario_synced 7).2 = true :=
  ⟨rfl, (fun h => by cases h), rfl,
   (update_device_trigger 8 (scenario_synced 7).1 (scenario_synced 7).2 rfl
      (fun h => by cases h)).1.2 (Or.inr (by decide))⟩

/-! ### C10: `update_device` on a DeviceDirty container -/

/-- C10, as stated, fails: on the DeviceDirty container of the scenario,
`update_device(7)` for the recorded device returns normally and changes nothing. -/
theorem update_device_returns_on_device_dirty :
    DeviceDirty (scenario_device_dirty 7).1 ∧
    update_device 7 (scenario_device_dirty 7).1 (scenario_device_dirty 7).2
      = .ok () (scenario_device_dirty 7) :=
  ⟨⟨rfl, rfl⟩, rfl⟩

/-- C10, amended: on a DeviceDirty container, `update_device(d)` for a device other
than the recorded one stops at the failed assertion, with the container and the
device trace as they were; for the recorded device it returns normally and leaves
the container and the device trace unchanged. -/
theorem update_device_on_device_dirty (d : device) (v : vector T) (w : world)
    (hd : DeviceDirty v) :
    (some d ≠ v.device_ptr_ → update_device d v w = .aborted .assertion_failed (v, w)) ∧
    (some d = v.device_ptr_ → update_device d v w = .ok () (v, w)) := by
  obtain ⟨hd1, hd2⟩ := hd
  constructor
  · intro h
    exact update_device_assertion d v w (Or.inr h) hd1
  · intro h
    apply update_device_idle
    rintro (h1 | h1)
    · rw [hd2] at h1
      cases h1
    · exact h1 h

/-- The assertion of C10 on the DeviceDirty container of the scenario, asked to
materialise on device 8. -/
theorem update_device_on_device_dirty_witness :
    DeviceDirty (scenario_device_dirty 7).1 ∧
    update_device 8 (scenario_device_dirty 7).1 (scenario_device_dirty 7).2
      = .aborted .assertion_failed (scenario_device_dirty 7) :=
  ⟨⟨rfl, rfl⟩,
   (update_device_on_device_dirty 8 (scenario_device_dirty 7).1 (scenario_device_dirty 7).2
      ⟨rfl, rfl⟩).1 (by decide)⟩

/-! ### C11: no redundant copy -/

theorem update_device_ok_settled (d : device) (v : vector T) (w : world) (s : st T)
    (h : update_device d v w = .ok () s) :
    s.1.host_changes_ = false ∧ s.1.device_ptr_ = some d := by
  by_cases ht : v.host_changes_ = true ∨ some d ≠ v.device_ptr_
  · by_cases hd : v.device_changes_ = true
    · rw [update_device_assertion d v w ht hd] at h
      cases h
    · have hd1 : v.device_changes_ = false := by simpa using hd
      cases hm : v.memory_ with
      | null =>
        rw [update_device_null d v w ht hd1 hm, install_memory_eq] at h
        split at h
        · cases h
        · split at h
          · cases h
          · cases h
            exact ⟨rfl, rfl⟩
      | dangling =>
        rw [update_device_dangling d v w ht hd1 hm] at h
        cases h
      | valid m =>
        by_cases hr : m.size ≠ v.data_.length ∨ some d ≠ v.device_ptr_
        · rw [update_device_replace d v w m ht hd1 hm hr, install_memory_eq] at h
          split at h
          · cases h
          · split at h
            · cases h
            · cases h
              exact ⟨rfl, rfl⟩
        · rw [update_device_in_place d v w m ht hd1 hm hr] at h
          split at h
          · cases h
          · cases h
            exact ⟨rfl, rfl⟩
  · rw [update_device_idle d v w ht] at h
    cases h
    constructor
    · cases hh : v.host_changes_
      · rfl
      · exact absurd (Or.inl hh) ht
    · by_contra h3
      exact ht (Or.inr (fun h4 => h3 h4.symm))

/-- What a normally returning `update_device` has called: nothing, one copy in
place, or one allocation with its copy, after the release of the old buffer if there
was one. -/
theorem update_device_ok_performed (d : device) (v : vector T) (w : world) (s : st T)
    (h : update_device d v w = .ok () s) :
    performed w (update_device d v w) = [] ∨
    (∃ a, performed w (update_device d v w) = [.copy_to_device a]) ∨
    (∃ a n, performed w (update_device d v w) = [.alloc d a n, .copy_to_device a]) ∨
    (∃ b a n, performed w (update_device d v w)
      = [.free b, .alloc d a n, .copy_to_device a]) := by
  rw [h]
  by_cases ht : v.host_changes_ = true ∨ some d ≠ v.device_ptr_
  · by_cases hd : v.device_changes_ = true
    · rw [update_device_assertion d v w ht hd] at h
      cases h
    · have hd1 : v.device_changes_ = false := by simpa using hd
      cases hm : v.memory_ with
      | null =>
        rw [update_device_null d v w ht hd1 hm, install_memory_eq] at h
        split at h
        · cases h
        · split at h
          · cases h
          · cases h
            right; right; left
            exact ⟨w.next_address, v.data_.length, by simp [performed, outcome.state]⟩
      | dangling =>
        rw [update_device_dangling d v w ht hd1 hm] at h
        cases h
      | valid m =>
        by_cases hr : m.size ≠ v.data_.length ∨ some d ≠ v.device_ptr_
        · rw [update_device_replace d v w m ht hd1 hm hr, install_memory_eq] at h
          split at h
          · cases h
          · split at h
            · cases h
            · cases h
              right; right; right
              exact ⟨m.address, w.next_address, v.data_.length, by simp [performed, outcome.state]⟩
        · rw [update_device_in_place d v w m ht hd1 hm hr] at h
          split at h
          · cases h
          · cases h
            right; left
            exact ⟨m.address, by simp [performed, outcome.state, world.step]⟩
  · rw [update_device_idle d v w ht] at h
    cases h
    left
    simp [performed, outcome.state]

/-- C11: when `update_device(d)` has returned normally, a second `update_device(d)`
right after it returns normally too, calls no device primitive and leaves the whole
container and the device world as they are; the two calls together make at most one
allocation and at most one host-to-device copy. -/
theorem no_redundant_copy (d : device) (v : vector T) (w : world) (s1 : st T)
    (h : update_device d v w = .ok () s1) :
    update_device d s1.1 s1.2 = .ok () s1 ∧
    performed s1.2 (update_device d s1.1 s1.2) = [] ∧
    (performed w (update_device d v w) ++ performed s1.2 (update_device d s1.1 s1.2)).countP
        event.is_alloc ≤ 1 ∧
    (performed w (update_device d v w) ++ performed s1.2 (update_device d s1.1 s1.2)).countP
        event.is_copy_to_device ≤ 1 := by
  have hs := update_device_ok_settled d v w s1 h
  have hidle : update_device d s1.1 s1.2 = .ok () s1 := by
    apply update_device_idle
    rintro (h1 | h1)
    · rw [hs.1] at h1
      cases h1
    · exact h1 hs.2.symm
  have hnone : performed s1.2 (update_device d s1.1 s1.2) = [] := by
    rw [hidle]
    simp [performed, outcome.state]
  refine ⟨hidle, hnone, ?_, ?_⟩
  · rw [hnone]
    rcases update_device_ok_performed d v w s1 h with hp | ⟨a, hp⟩ | ⟨a, n, hp⟩ | ⟨b, a, n, hp⟩
    all_goals rw [hp]
    all_goals simp [List.countP_cons, event.is_alloc]
  · rw [hnone]
    rcases update_device_ok_performed d v w s1 h with hp | ⟨a, hp⟩ | ⟨a, n, hp⟩ | ⟨b, a, n, hp⟩
    all_goals rw [hp]
    all_goals simp [List.countP_cons, event.is_copy_to_device]

/-- The two calls of C11 on the HostDirty container of the round trip: the first
allocates and copies, the second does nothing. -/
theorem no_redundant_copy_witness :
    update_device 7 round_trip_written.1 round_trip_written.2
      = .ok () round_trip_materialised ∧
    update_device 7 round_trip_materialised.1 round_trip_materialised.2
      = .ok () round_trip_materialised :=
  ⟨rfl, (no_redundant_copy 7 round_trip_written.1 round_trip_written.2
      round_trip_materialised rfl).1⟩

/-! ### C15: the effect and the frame of `dirty` -/

/-- C15: `dirty(d, handle)` returns normally on every container, sets
`device_changes_` and leaves the host buffer, `host_changes_`, `proxy_invalid_`, the
device buffer, the proxy, the recorded device and the device world unchanged; on a
Synced container the result is DeviceDirty. -/
theorem dirty_effect (d : device) (handle : shared_device_pointer) (v : vector T)
    (w : world) :
    dirty d handle v w = .ok () ({ v with device_changes_ := true }, w) ∧
    (dirty d handle v w).state.1.device_changes_ = true ∧
    (dirty d handle v w).state.1.data_ = v.data_ ∧
    (dirty d handle v w).state.1.host_changes_ = v.host_changes_ ∧
    (dirty d handle v w).state.1.proxy_invalid_ = v.proxy_invalid_ ∧
    (dirty d handle v w).state.1.memory_ = v.memory_ ∧
    (dirty d handle v w).state.1.device_proxy_ = v.device_proxy_ ∧
    (dirty d handle v w).state.1.device_ptr_ = v.device_ptr_ ∧
    (dirty d handle v w).state.2 = w ∧
    (Synced v → DeviceDirty (dirty d handle v w).state.1) :=
  ⟨rfl, rfl, rfl, rfl, rfl, rfl, rfl, rfl, rfl, fun hs => ⟨rfl, hs.1⟩⟩

/-- The effect of C15 on the Synced container of the scenario. -/
theorem dirty_effect_witness :
    Synced (scenario_synced 7).1 ∧
    DeviceDirty (dirty 7 1 (scenario_synced 7).1 (scenario_synced 7).2).state.1 :=
  ⟨⟨rfl, rfl⟩,
   (dirty_effect 7 1 (scenario_synced 7).1 (scenario_synced 7).2).2.2.2.2.2.2.2.2.2
      ⟨rfl, rfl⟩⟩

/-! ### C12: the length invariant -/

theorem well_formed_of_host_write (v : vector T) (h : List T) (hwf : well_formed v) :
    well_formed { v with data_ := h, host_changes_ := true } :=
  ⟨(fun hh => by cases hh), hwf.2⟩

theorem copy_to_host_eq_ok (m : memory1d T) (host h : List T) (w w1 : world)
    (hc : m.copy_to_host host w = .ok h w1) :
    ¬ host.length < m.size ∧ h = m.cells ++ host.drop m.size := by
  unfold memory1d.copy_to_host at hc
  split at hc
  · cases hc
  · split at hc
    · cases hc
    · cases hc
      exact ⟨by assumption, rfl⟩

theorem well_formed_update_host (v : vector T) (w : world) (u : Unit) (s : st T)
    (hwf : well_formed v) (h : update_host v w = .ok u s) : well_formed s.1 := by
  unfold update_host at h
  split at h
  · split at h
    · cases h
    · rename_i hhc
      have hhc1 : v.host_changes_ = false := by simpa using hhc
      obtain ⟨m0, hm0, hsize⟩ := hwf.1 hhc1
      split at h
      · rename_i m hm
        rw [hm0] at hm
        cases hm
        split at h
        · rename_i hcopy
          cases h
          obtain ⟨_, hdata⟩ := copy_to_host_eq_ok _ _ _ _ _ hcopy
          refine ⟨fun _ => ⟨m0, hm0, ?_⟩, hwf.2⟩
          simp only [hdata, memory1d.size, List.length_append, List.length_drop] at hsize ⊢
          omega
        · cases h
        · cases h
      · cases h
  · cases h
    exact hwf

theorem well_formed_sync_then {α : Type} (v : vector T) (w : world)
    (f : Unit → st T → outcome (st T) α) (a : α) (s : st T) (hwf : well_formed v)
    (hf : ∀ s0 s, well_formed s0.1 → f () s0 = .ok a s → well_formed s.1)
    (h : (update_host v w).bind f = .ok a s) : well_formed s.1 := by
  rw [bind_eq_ok] at h
  obtain ⟨u, s0, h0, h1⟩ := h
  exact hf s0 s (well_formed_update_host v w u s0 hwf h0) h1

theorem well_formed_update_device (d : device) (v : vector T) (w : world) (s : st T)
    (hwf : well_formed v) (h : update_device d v w = .ok () s) : well_formed s.1 := by
  by_cases ht : v.host_changes_ = true ∨ some d ≠ v.device_ptr_
  · by_cases hd : v.device_changes_ = true
    · rw [update_device_assertion d v w ht hd] at h
      cases h
    · have hd1 : v.device_changes_ = false := by simpa using hd
      cases hm : v.memory_ with
      | null =>
        rw [update_device_null d v w ht hd1 hm, install_memory_eq] at h
        split at h
        · cases h
        · split at h
          · cases h
          · cases h
            exact ⟨fun _ => ⟨_, rfl, rfl⟩, fun hh => by cases hh⟩
      | dangling =>
        rw [update_device_dangling d v w ht hd1 hm] at h
        cases h
      | valid m =>
        by_cases hr : m.size ≠ v.data_.length ∨ some d ≠ v.device_ptr_
        · rw [update_device_replace d v w m ht hd1 hm hr, install_memory_eq] at h
          split at h
          · cases h
          · split at h
            · cases h
            · cases h
              exact ⟨fun _ => ⟨_, rfl, rfl⟩, fun hh => by cases hh⟩
        · rw [update_device_in_place d v w m ht hd1 hm hr] at h
          have hsize : m.size = v.data_.length := by
            by_contra hne
            exact hr (Or.inl hne)
          split at h
          · cases h
          · cases h
            refine ⟨fun _ => ⟨_, rfl, rfl⟩, fun hp => ?_⟩
            rcases hwf.2 hp with ⟨hnull, _⟩ | ⟨m1, p, hm1, hp1, hcells⟩
            · rw [hm] at hnull
              cases hnull
            · rw [hm] at hm1
              cases hm1
              right
              refine ⟨_, p, rfl, hp1, ?_⟩
              rw [hcells]
              simp only [memory1d.size] at hsize ⊢
              rw [hsize]
  · rw [update_device_idle d v w ht] at h
    cases h
    exact hwf

theorem well_formed_get_host_based_device_copy (d : device) (v : vector T) (w : world)
    (r : deviceT.vector) (s : st T) (hwf : well_formed v)
    (h : get_host_based_device_copy d v w = .ok r s) :
    well_formed s.1 ∧ update_device d v w = .ok () s ∧
      ∃ m, s.1.memory_ = .valid m ∧ m.size = s.1.data_.length ∧
        r = { size := s.1.data_.length, device_pointer := m.address } := by
  unfold get_host_based_device_copy at h
  rw [bind_eq_ok] at h
  obtain ⟨u, s1, h1, h2⟩ := h
  have hwf1 := well_formed_update_device d v w s1 hwf h1
  have hset := update_device_ok_settled d v w s1 h1
  obtain ⟨m0, hm0, hsize⟩ := hwf1.1 hset.1
  rw [hm0] at h2
  cases h2
  exact ⟨hwf1, h1, m0, hm0, hsize, rfl⟩

theorem create_eq_ok {α : Type} (d : device) (host : List α) (w w1 : world)
    (m : memory1d α) (h : memory1d.create d host w = .ok m w1) :
    m = { dev := d, address := w.next_address, cells := host } := by
  unfold memory1d.create at h
  dsimp only at h
  split at h
  · cases h
  · split at h
    · cases h
    · cases h
      rfl

theorem well_formed_rebuild_proxy (d : device) (r : deviceT.vector) (s0 s : st T)
    (m : memory1d T) (hwf : well_formed s0.1) (hm : s0.1.memory_ = .valid m)
    (hr : r = { size := m.size, device_pointer := m.address })
    (h : rebuild_proxy d r s0 = .ok () s) :
    well_formed s.1 ∧ s.1.proxy_invalid_ = false ∧ s.1.memory_ = s0.1.memory_ ∧
      s.1.data_ = s0.1.data_ := by
  unfold rebuild_proxy at h
  split at h
  · split at h
    · split at h
      · rename_i hc
        cases h
        have hm1 := create_eq_ok _ _ _ _ _ hc
        refine ⟨⟨hwf.1, fun _ => Or.inr ⟨m, _, hm, rfl, ?_⟩⟩, rfl, rfl, rfl⟩
        rw [hm1, hr]
      · cases h
      · cases h
    · cases h
    · cases h
  · rename_i hp
    cases h
    exact ⟨hwf, by simpa using hp, rfl, rfl⟩

theorem well_formed_get_device_based_device_copy (d : device) (v : vector T) (w : world)
    (hd : shared_device_pointer) (s : st T) (hwf : well_formed v)
    (h : get_device_based_device_copy d v w = .ok hd s) : well_formed s.1 := by
  unfold get_device_based_device_copy at h
  rw [bind_eq_ok] at h
  obtain ⟨r, s1, h1, h2⟩ := h
  obtain ⟨hwf1, _, m, hm, hsize, hr⟩ := well_formed_get_host_based_device_copy d v w r s1 hwf h1
  rw [bind_eq_ok] at h2
  obtain ⟨u, s2, h3, h4⟩ := h2
  have hwf2 := (well_formed_rebuild_proxy d r s1 s2 m hwf1 hm (by rw [hr, hsize]) h3).1
  split at h4
  · cases h4
    exact hwf2
  · cases h4

theorem well_formed_device_store (i : Nat) (x : T) (v : vector T) (hwf : well_formed v) :
    well_formed (device_store i x v) := by
  unfold device_store
  split
  · rename_i m hm
    constructor
    · intro hh
      obtain ⟨m0, hm0, hsize⟩ := hwf.1 hh
      rw [hm] at hm0
      cases hm0
      exact ⟨_, rfl, by simpa [memory1d.size] using hsize⟩
    · intro hp
      rcases hwf.2 hp with ⟨hnull, _⟩ | ⟨m1, p, hm1, hp1, hcells⟩
      · rw [hm] at hnull
        cases hnull
      · rw [hm] at hm1
        cases hm1
        right
        exact ⟨_, p, rfl, hp1, by simpa [memory1d.size] using hcells⟩
  · exact hwf

theorem well_formed_new_copy (c c1 : vector T) (w : world) (s : st T)
    (h : vector.new_copy c w = .ok c1 s) : well_formed s.1 := by
  unfold vector.new_copy at h
  split at h
  · cases h
    exact ⟨(fun hh => by cases hh), fun _ => Or.inl ⟨rfl, rfl⟩⟩
  · cases h
  · cases h

/-- Every public call that returns normally keeps the container well formed. -/
theorem well_formed_run (o : op T) (v : vector T) (w : world) (s : st T)
    (hwf : well_formed v) (h : o.run v w = .ok () s) : well_formed s.1 := by
  cases o
  case update_host => exact well_formed_update_host v w () s hwf h
  case update_device d => exact well_formed_update_device d v w s hwf h
  case get_host_based_device_copy d =>
    simp only [op.run, discard_eq_ok] at h
    obtain ⟨r, h⟩ := h
    exact (well_formed_get_host_based_device_copy d v w r s hwf h).1
  case get_device_based_device_copy d =>
    simp only [op.run, discard_eq_ok] at h
    obtain ⟨r, h⟩ := h
    exact well_formed_get_device_based_device_copy d v w r s hwf h
  case dirty d hd =>
    simp only [op.run, dirty] at h
    cases h
    exact hwf
  case operator_assign c2 =>
    simp only [op.run, discard_eq_ok, operator_assign] at h
    obtain ⟨r, h⟩ := h
    split at h
    · cases h
      exact ⟨(fun hh => by cases hh), hwf.2⟩
    · cases h
    · cases h
  case begin_const =>
    simp only [op.run, discard_eq_ok, begin_const] at h
    obtain ⟨r, h⟩ := h
    cases h
    exact hwf
  case assign n x =>
    simp only [op.run, assign] at h
    cases h
    exact ⟨(fun hh => by cases hh), hwf.2⟩
  case assign_range xs =>
    simp only [op.run, assign_range] at h
    cases h
    exact ⟨(fun hh => by cases hh), hwf.2⟩
  case clear =>
    simp only [op.run, clear] at h
    cases h
    exact ⟨(fun hh => by cases hh), hwf.2⟩
  case read | read_const | insert | erase | erase_range | begin_ | end_ | end_const =>
    simp only [op.run, discard_eq_ok, element_proxy.read, operator_index_const, insert,
      erase, erase_range, begin_, end_, end_const] at h
    obtain ⟨r, h⟩ := h
    refine well_formed_sync_then v w _ r s hwf ?_ h
    intro s0 s2 hwf0 h0
    (repeat' split at h0)
    all_goals cases h0
    all_goals first
      | exact hwf0
      | exact ⟨(fun hh => by cases hh), hwf0.2⟩
  all_goals
    simp only [op.run, element_proxy.assign, push_back, pop_back, resize, insert_n,
      insert_range] at h
    refine well_formed_sync_then v w _ () s hwf ?_ h
    intro s0 s2 hwf0 h0
    (repeat' split at h0)
    all_goals cases h0
    all_goals exact ⟨(fun hh => by cases hh), hwf0.2⟩

/-- Every state reached through normally returning calls is well formed. -/
theorem reaches_well_formed (s : st T) (h : reaches s) : well_formed s.1 := by
  induction h with
  | new w => exact ⟨(fun hh => by cases hh), fun _ => Or.inl ⟨rfl, rfl⟩⟩
  | new_fill num val w => exact ⟨(fun hh => by cases hh), fun _ => Or.inl ⟨rfl, rfl⟩⟩
  | new_range xs w => exact ⟨(fun hh => by cases hh), fun _ => Or.inl ⟨rfl, rfl⟩⟩
  | new_copy c c1 w s h => exact well_formed_new_copy c c1 w s h
  | returned o s s1 _ hrun ih => exact well_formed_run o s.1 s.2 s1 ih hrun
  | kernel_store i x s _ ih => exact well_formed_device_store i x s.1 ih

/-- The length invariant where it holds: in every state reached from a constructor
through public calls that return
normally (the host operations, `update_host`, `update_device`, the two
`get_*_device_copy`, `dirty`) and kernel stores into the mirror, whenever
`host_changes_` is false the device buffer is there and its size is the number of
elements of the host buffer. -/
theorem length_invariant_reached (s : st T) (h : reaches s)
    (hh : s.1.host_changes_ = false) :
    ∃ m, s.1.memory_ = .valid m ∧ m.size = s.1.data_.length :=
  (reaches_well_formed s h).1 hh

/-- The length invariant at the container of the round trip, after two writes and a
materialisation on device 7. -/
theorem length_invariant_reached_example :
    reaches round_trip_materialised ∧
    round_trip_materialised.1.host_changes_ = false ∧
    ∃ m, round_trip_materialised.1.memory_ = .valid m ∧
      m.size = round_trip_materialised.1.data_.length :=
  have hr : reaches round_trip_materialised :=
    reaches.returned (.update_device 7) round_trip_written _
      (reaches.returned (.push_back 9)
        (({ data_ := [42], host_changes_ := true, device_changes_ := false,
            proxy_invalid_ := false, memory_ := .null, device_proxy_ := .null,
            device_ptr_ := none } : vector Int), world.fresh) _
        (reaches.returned (.write 0 42) (vector.new_fill 1 5, world.fresh) _
          (reaches.new_fill 1 5 world.fresh) rfl) rfl) rfl
  ⟨hr, rfl, length_invariant_reached round_trip_materialised hr rfl⟩

/-- C12 fails after a materialisation that throws: the container of the round trip is
mirrored on device 7, without pending host changes; `update_device(8)` deletes the
buffer (`delete memory_`, line 581) and then the allocation on device 8 fails, so
that `memory_ = new ...` throws and `memory_` keeps the deleted pointer.  The state
is reached from a constructor through `update_device` alone, `host_changes_` is
false, and there is no device buffer. -/
theorem length_invariant_lost_by_failed_reallocation :
    reachable true failed_reallocation ∧
    update_device 7 round_trip_written.1
        { round_trip_written.2 with failures := [false, false, true] }
      = .ok () (round_trip_materialised.1,
          { round_trip_materialised.2 with failures := [true] }) ∧
    update_device 8 round_trip_materialised.1
        { round_trip_materialised.2 with failures := [true] }
      = .thrown .cuda_runtime_error failed_reallocation ∧
    failed_reallocation.1.host_changes_ = false ∧
    failed_reallocation.1.memory_ = .dangling ∧
    failed_reallocation.1.data_.length = 2 ∧
    ¬ length_invariant failed_reallocation.1 :=
  ⟨reachable.threw (.update_device 8) .cuda_runtime_error
      (round_trip_materialised.1, { round_trip_materialised.2 with failures := [true] }) _
      (reachable.returned (.update_device 7)
        (round_trip_written.1, { round_trip_written.2 with failures := [false, false, true] })
        _ (reachable.new_range [42, 9] _) (fun _ h => h) rfl)
      (fun _ h => h) rfl,
   rfl, rfl, rfl, rfl, rfl,
   (fun h => by
      obtain ⟨m, hm, _⟩ := h rfl
      cases hm)⟩

/-! ### C13 and C14: the descriptor and its shared handle -/

theorem create_world_eq_ok {α : Type} (d : device) (host : List α) (w w1 : world)
    (m : memory1d α) (h : memory1d.create d host w = .ok m w1) :
    w1 = { next_address := w.next_address + 1, failures := w.failures.tail.tail,
           log := w.log ++ [.alloc d w.next_address host.length,
                            .copy_to_device w.next_address] } := by
  unfold memory1d.create at h
  dsimp only at h
  split at h
  · cases h
  · split at h
    · cases h
    · cases h
      simp [world.step]

/-- The three ways in which `update_device` returns normally. -/
theorem update_device_ok_cases (d : device) (v : vector T) (w : world) (s : st T)
    (h : update_device d v w = .ok () s) :
    (¬ (v.host_changes_ = true ∨ some d ≠ v.device_ptr_) ∧ s = (v, w)) ∨
    ((v.memory_ = .null ∨ mirror_length v ≠ some v.data_.length ∨ some d ≠ v.device_ptr_) ∧
      s.1 = { v with memory_ := .valid { dev := d, address := w.next_address,
                                         cells := v.data_ },
                     proxy_invalid_ := true, device_ptr_ := some d,
                     host_changes_ := false } ∧
      s.2.next_address = w.next_address + 1) ∨
    (∃ m, v.memory_ = .valid m ∧ m.size = v.data_.length ∧ some d = v.device_ptr_ ∧
      v.host_changes_ = true ∧
      s = ({ v with memory_ := .valid { m with cells := v.data_ }, device_ptr_ := some d,
                    host_changes_ := false }, w.step (.copy_to_device m.address))) := by
  by_cases ht : v.host_changes_ = true ∨ some d ≠ v.device_ptr_
  · by_cases hd : v.device_changes_ = true
    · rw [update_device_assertion d v w ht hd] at h
      cases h
    · have hd1 : v.device_changes_ = false := by simpa using hd
      cases hm : v.memory_ with
      | null =>
        rw [update_device_null d v w ht hd1 hm, install_memory_eq] at h
        split at h
        · cases h
        · split at h
          · cases h
          · cases h
            right; left
            exact ⟨Or.inl rfl, rfl, rfl⟩
      | dangling =>
        rw [update_device_dangling d v w ht hd1 hm] at h
        cases h
      | valid m =>
        by_cases hr : m.size ≠ v.data_.length ∨ some d ≠ v.device_ptr_
        · rw [update_device_replace d v w m ht hd1 hm hr, install_memory_eq] at h
          split at h
          · cases h
          · split at h
            · cases h
            · cases h
              right; left
              refine ⟨Or.inr ?_, rfl, rfl⟩
              simp only [mirror_length, hm, ne_eq, Option.some.injEq]
              exact hr
        · rw [update_device_in_place d v w m ht hd1 hm hr] at h
          have hsize : m.size = v.data_.length := by
            by_contra hne
            exact hr (Or.inl hne)
          have hdev : some d = v.device_ptr_ := by
            by_contra hne
            exact hr (Or.inr hne)
          have hhost : v.host_changes_ = true := by
            rcases ht with ht | ht
            · exact ht
            · exact absurd hdev ht
          split at h
          · cases h
          · cases h
            right; right
            exact ⟨m, rfl, hsize, hdev, hhost, rfl⟩
  · rw [update_device_idle d v w ht] at h
    cases h
    left
    exact ⟨ht, rfl⟩

theorem get_host_based_eq_ok (d : device) (v : vector T) (w : world) (r : deviceT.vector)
    (s : st T) (h : get_host_based_device_copy d v w = .ok r s) :
    update_device d v w = .ok () s ∧
      ∃ m, s.1.memory_ = .valid m ∧
        r = { size := s.1.data_.length, device_pointer := m.address } := by
  unfold get_host_based_device_copy at h
  rw [bind_eq_ok] at h
  obtain ⟨u, s1, h1, h2⟩ := h
  split at h2
  · rename_i m hm
    cases h2
    exact ⟨h1, m, hm, rfl⟩
  · cases h2

/-- C13: when `get_host_based_device_copy(d)` returns normally, the descriptor it
returns is the pair of the current host length and the address of the device buffer
that the container holds after the materialisation, and the host buffer is
untouched; if, on a container that satisfies the length invariant, the length of the
buffer of the previous materialisation differs from the host length, the buffer is a
newly allocated one of the new host length and `proxy_invalid_` is set. -/
theorem descriptor_derivation (d : device) (v : vector T) (w : world) (r : deviceT.vector)
    (s : st T) (h : get_host_based_device_copy d v w = .ok r s) :
    r.size = v.data_.length ∧ s.1.data_ = v.data_ ∧
    ∃ m, s.1.memory_ = .valid m ∧ r.device_pointer = m.address ∧
      (length_invariant v → mirror_length v ≠ some v.data_.length →
        m.size = v.data_.length ∧ m.address = w.next_address ∧
          s.1.proxy_invalid_ = true) := by
  obtain ⟨h1, m, hm, hr⟩ := get_host_based_eq_ok d v w r s h
  have hdata : s.1.data_ = v.data_ := by
    have := update_device_data d v w
    rw [h1] at this
    exact this
  refine ⟨by rw [hr, hdata], hdata, m, hm, by rw [hr], ?_⟩
  intro hli hlen
  have hhost : v.host_changes_ = true := by
    cases hh : v.host_changes_
    · obtain ⟨m0, hm0, hsize⟩ := hli hh
      exact absurd (by simp [mirror_length, hm0, hsize]) hlen
    · rfl
  rcases update_device_ok_cases d v w s h1 with ⟨hidle, _⟩ | ⟨_, hs, _⟩ | ⟨m1, hm1, hsize, _, _, _⟩
  · exact absurd (Or.inl hhost) hidle
  · rw [hs] at hm
    cases hm
    rw [hs]
    exact ⟨rfl, rfl, rfl⟩
  · exact absurd (by simp [mirror_length, hm1, hsize]) hlen

/-- The descriptor of C13 for the container of the round trip, whose host length has
grown to 2 since it was created. -/
theorem descriptor_derivation_witness :
    get_host_based_device_copy 7 round_trip_written.1 round_trip_written.2
      = .ok { size := 2, device_pointer := 0 } round_trip_materialised ∧
    round_trip_materialised.1.proxy_invalid_ = true :=
  ⟨rfl,
   match descriptor_derivation 7 round_trip_written.1 round_trip_written.2
      { size := 2, device_pointer := 0 } round_trip_materialised rfl with
   | ⟨_, _, _, hm, _, hnew⟩ =>
     (hnew (fun hh => by cases hh) (by decide)).2.2⟩

theorem update_device_device_proxy (d : device) (v : vector T) (w : world) :
    (update_device d v w).state.1.device_proxy_ = v.device_proxy_ := by
  unfold update_device install_memory
  repeat' split
  all_goals simp_all [outcome.state]

/-- What `rebuild_proxy` does when it returns normally. -/
theorem rebuild_proxy_eq_ok (d : device) (r : deviceT.vector) (s0 s : st T)
    (h : rebuild_proxy d r s0 = .ok () s) :
    (s0.1.proxy_invalid_ = true →
      s0.1.device_proxy_ ≠ .dangling ∧
      s.1 = { s0.1 with device_proxy_ := .valid { dev := d, address := s0.2.next_address,
                                                  cells := [r] },
                        proxy_invalid_ := false } ∧
      s.2.log = s0.2.log ++
        (match s0.1.device_proxy_ with
          | .valid q => [.free q.address]
          | _ => []) ++
        [.alloc d s0.2.next_address 1, .copy_to_device s0.2.next_address]) ∧
    (s0.1.proxy_invalid_ = false → s = s0) := by
  unfold rebuild_proxy at h
  split at h
  · rename_i hp
    refine ⟨fun _ => ?_, fun hq => by rw [hp] at hq; cases hq⟩
    split at h
    · rename_i p w1 hdel
      split at h
      · rename_i m1 w2 hc
        cases h
        have hm1 := create_eq_ok _ _ _ _ _ hc
        have hw2 := create_world_eq_ok _ _ _ _ _ hc
        cases hq : s0.1.device_proxy_ with
        | null =>
          rw [hq] at hdel
          simp only [pointer.delete, outcome.ok.injEq] at hdel
          obtain ⟨_, hw1⟩ := hdel
          subst hw1
          refine ⟨(fun hx => by cases hx), ?_, ?_⟩
          · rw [hm1]
          · rw [hw2]
            simp
        | valid q =>
          rw [hq] at hdel
          simp only [pointer.delete, outcome.ok.injEq] at hdel
          obtain ⟨_, hw1⟩ := hdel
          subst hw1
          refine ⟨(fun hx => by cases hx), ?_, ?_⟩
          · rw [hm1]
          · rw [hw2]
            simp
        | dangling =>
          rw [hq] at hdel
          simp [pointer.delete] at hdel
      · cases h
      · cases h
    · cases h
    · cases h
  · rename_i hp
    cases h
    refine ⟨fun hq => absurd hq hp, fun _ => rfl⟩

/-- C14: when `get_device_based_device_copy(d)` returns normally on a well-formed
container, then, with the state after its materialisation step
`get_host_based_device_copy(d)`: if `proxy_invalid_` is set there, the old proxy (if
any) is released and a freshly allocated one-element proxy holding the descriptor
just derived is installed and returned; if it is not set, nothing further happens and
the existing proxy is returned; in both cases `proxy_invalid_` is false on return and
the descriptor stored in the returned proxy is the current pair of host length and
buffer address. -/
theorem shared_handle_rebuild (d : device) (v : vector T) (w : world)
    (hd : shared_device_pointer) (s : st T) (hwf : well_formed v)
    (h : get_device_based_device_copy d v w = .ok hd s) :
    ∃ r s1, get_host_based_device_copy d v w = .ok r s1 ∧
      (s1.1.proxy_invalid_ = true →
        s.1.device_proxy_ = .valid { dev := d, address := s1.2.next_address, cells := [r] } ∧
        hd = s1.2.next_address ∧
        s.2.log = s1.2.log ++
          (match s1.1.device_proxy_ with
            | .valid q => [.free q.address]
            | _ => []) ++
          [.alloc d s1.2.next_address 1, .copy_to_device s1.2.next_address]) ∧
      (s1.1.proxy_invalid_ = false → s = s1 ∧ s.1.device_proxy_ = v.device_proxy_) ∧
      s.1.proxy_invalid_ = false ∧
      ∃ m p, s.1.memory_ = .valid m ∧ s.1.device_proxy_ = .valid p ∧ hd = p.address ∧
        p.cells = [{ size := s.1.data_.length, device_pointer := m.address }] := by
  unfold get_device_based_device_copy at h
  rw [bind_eq_ok] at h
  obtain ⟨r, s1, h1, h2⟩ := h
  obtain ⟨hwf1, hud, m, hm, hsize, hr⟩ :=
    well_formed_get_host_based_device_copy d v w r s1 hwf h1
  rw [bind_eq_ok] at h2
  obtain ⟨u, s2, h3, h4⟩ := h2
  obtain ⟨hbuild, hkeep⟩ := rebuild_proxy_eq_ok d r s1 s2 h3
  obtain ⟨hwf2, hpi, hmem, hdata⟩ :=
    well_formed_rebuild_proxy d r s1 s2 m hwf1 hm (by rw [hr, hsize]) h3
  have hproxy1 : s1.1.device_proxy_ = v.device_proxy_ := by
    have := update_device_device_proxy d v w
    rw [hud] at this
    exact this
  split at h4
  · rename_i p hp
    cases h4
    refine ⟨r, s1, h1, ?_, ?_, hpi, ?_⟩
    · intro hinv
      obtain ⟨_, hs2, hlog⟩ := hbuild hinv
      have hp2 := hp
      rw [hs2] at hp2
      cases hp2
      rw [hs2]
      exact ⟨rfl, rfl, hlog⟩
    · intro hinv
      have hs := hkeep hinv
      rw [hs]
      exact ⟨rfl, hproxy1⟩
    · rcases hwf2.2 hpi with ⟨hnull, _⟩ | ⟨m1, p1, hm1, hp1, hcells⟩
      · rw [hmem, hm] at hnull
        cases hnull
      · rw [hp] at hp1
        cases hp1
        rw [hmem, hm] at hm1
        cases hm1
        refine ⟨m, p, by rw [hmem, hm], hp, rfl, ?_⟩
        rw [hcells, hdata, hsize]
  · cases h4

/-- The handle of C14 for the HostDirty container of the scenario: the proxy is built
at address 1 and holds the descriptor of length 1 at address 0. -/
theorem shared_handle_rebuild_witness :
    well_formed scenario_host_dirty.1 ∧
    get_device_based_device_copy 7 scenario_host_dirty.1 scenario_host_dirty.2
      = .ok 1 (scenario_synced 7) ∧
    (scenario_synced 7).1.proxy_invalid_ = false :=
  have hwf : well_formed scenario_host_dirty.1 :=
    ⟨(fun hh => by cases hh), fun _ => Or.inl ⟨rfl, rfl⟩⟩
  ⟨hwf, rfl,
   match shared_handle_rebuild 7 scenario_host_dirty.1 scenario_host_dirty.2 1
      (scenario_synced 7) hwf rfl with
   | ⟨_, _, _, _, _, hpi, _⟩ => hpi⟩

/-! ### Facts about outcomes, errors and frames used for the kernel call -/

theorem bind_eq_thrown {σ α β : Type} (x : outcome σ α) (f : α → σ → outcome σ β)
    (e : error) (s : σ) :
    x.bind f = .thrown e s ↔
      x = .thrown e s ∨ ∃ a s1, x = .ok a s1 ∧ f a s1 = .thrown e s := by
  cases x with
  | ok a0 s0 =>
    constructor
    · intro h
      exact Or.inr ⟨a0, s0, rfl, h⟩
    · rintro (h | ⟨a, s1, h1, h2⟩)
      · cases h
      · cases h1
        exact h2
  | thrown e0 s0 => simp [outcome.bind]
  | aborted g s0 => simp [outcome.bind]

theorem create_thrown_error {α : Type} (d : device) (host : List α) (w w1 : world)
    (e : error) (h : memory1d.create d host w = .thrown e w1) :
    e = .cuda_runtime_error := by
  unfold memory1d.create at h
  dsimp only at h
  split at h
  · cases h
    rfl
  · split at h
    · cases h
      rfl
    · cases h

theorem update_device_thrown_error (d : device) (v : vector T) (w : world) (e : error)
    (s : st T) (h : update_device d v w = .thrown e s) : e = .cuda_runtime_error := by
  by_cases ht : v.host_changes_ = true ∨ some d ≠ v.device_ptr_
  · by_cases hd : v.device_changes_ = true
    · rw [update_device_assertion d v w ht hd] at h
      cases h
    · have hd1 : v.device_changes_ = false := by simpa using hd
      cases hm : v.memory_ with
      | null =>
        rw [update_device_null d v w ht hd1 hm, install_memory_eq] at h
        split at h
        · cases h
          rfl
        · split at h
          · cases h
            rfl
          · cases h
      | dangling =>
        rw [update_device_dangling d v w ht hd1 hm] at h
        cases h
      | valid m =>
        by_cases hr : m.size ≠ v.data_.length ∨ some d ≠ v.device_ptr_
        · rw [update_device_replace d v w m ht hd1 hm hr, install_memory_eq] at h
          split at h
          · cases h
            rfl
          · split at h
            · cases h
              rfl
            · cases h
        · rw [update_device_in_place d v w m ht hd1 hm hr] at h
          split at h
          · cases h
            rfl
          · cases h
  · rw [update_device_idle d v w ht] at h
    cases h

/-- A throwing `update_device` leaves the host buffer, the two flags, the recorded
device, the proxy flag and the proxy as they were. -/
theorem update_device_thrown_frame (d : device) (v : vector T) (w : world) (e : error)
    (s : st T) (h : update_device d v w = .thrown e s) :
    s.1.data_ = v.data_ ∧ s.1.host_changes_ = v.host_changes_ ∧
      s.1.device_changes_ = v.device_changes_ ∧ s.1.device_ptr_ = v.device_ptr_ ∧
      s.1.proxy_invalid_ = v.proxy_invalid_ ∧ s.1.device_proxy_ = v.device_proxy_ := by
  unfold update_device install_memory at h
  repeat' split at h
  all_goals cases h
  all_goals exact ⟨rfl, rfl, rfl, rfl, rfl, rfl⟩

theorem get_host_based_thrown_error (d : device) (v : vector T) (w : world) (e : error)
    (s : st T) (h : get_host_based_device_copy d v w = .thrown e s) :
    e = .cuda_runtime_error := by
  unfold get_host_based_device_copy at h
  rw [bind_eq_thrown] at h
  rcases h with h | ⟨u, s1, _, h2⟩
  · exact update_device_thrown_error d v w e s h
  · split at h2 <;> cases h2

theorem rebuild_proxy_thrown_error (d : device) (r : deviceT.vector) (s0 s : st T)
    (e : error) (h : rebuild_proxy d r s0 = .thrown e s) : e = .cuda_runtime_error := by
  unfold rebuild_proxy at h
  split at h
  · split at h
    · split at h
      · cases h
      · rename_i hc
        cases h
        exact create_thrown_error _ _ _ _ _ hc
      · cases h
    · rename_i hdel
      unfold pointer.delete at hdel
      split at hdel <;> cases hdel
    · cases h
  · cases h

theorem get_device_based_thrown_error (d : device) (v : vector T) (w : world) (e : error)
    (s : st T) (h : get_device_based_device_copy d v w = .thrown e s) :
    e = .cuda_runtime_error := by
  unfold get_device_based_device_copy at h
  rw [bind_eq_thrown] at h
  rcases h with h | ⟨r, s1, _, h2⟩
  · exact get_host_based_thrown_error d v w e s h
  · rw [bind_eq_thrown] at h2
    rcases h2 with h2 | ⟨u, s2, _, h3⟩
    · exact rebuild_proxy_thrown_error d r s1 s e h2
    · split at h3 <;> cases h3

theorem materialised_from_refl (v : vector T) : v.materialised_from v :=
  ⟨rfl, rfl, fun h => h⟩

theorem materialised_from_trans (v2 v1 v : vector T) (h2 : v2.materialised_from v1)
    (h1 : v1.materialised_from v) : v2.materialised_from v :=
  ⟨h2.1.trans h1.1, h2.2.1.trans h1.2.1, fun h => h1.2.2 (h2.2.2 h)⟩

theorem update_device_materialised (d : device) (v : vector T) (w : world) :
    (update_device d v w).state.1.materialised_from v :=
  ⟨update_device_data d v w, (update_device_flags d v w).1, (update_device_flags d v w).2⟩

theorem get_host_based_materialised (d : device) (v : vector T) (w : world) :
    (get_host_based_device_copy d v w).state.1.materialised_from v := by
  unfold get_host_based_device_copy
  refine bind_state_ind (fun s : st T => s.1.materialised_from v) _ _ ?_ ?_
  · exact update_device_materialised d v w
  · intro a s hs
    have h1 : s = (update_device d v w).state := by rw [hs]; rfl
    have h2 := update_device_materialised d v w
    rw [← h1] at h2
    split <;> exact h2

theorem rebuild_proxy_materialised (d : device) (r : deviceT.vector) (s : st T) :
    (rebuild_proxy d r s).state.1.materialised_from s.1 := by
  unfold rebuild_proxy
  repeat' split
  all_goals exact ⟨rfl, rfl, fun h => h⟩

theorem get_device_based_materialised (d : device) (v : vector T) (w : world) :
    (get_device_based_device_copy d v w).state.1.materialised_from v := by
  unfold get_device_based_device_copy
  refine bind_state_ind (fun s : st T => s.1.materialised_from v) _ _ ?_ ?_
  · exact get_host_based_materialised d v w
  · intro r s hs
    have h1 : s = (get_host_based_device_copy d v w).state := by rw [hs]; rfl
    have h2 := get_host_based_materialised d v w
    rw [← h1] at h2
    have h3 : (rebuild_proxy d r s).state.1.materialised_from v :=
      materialised_from_trans _ _ _ (rebuild_proxy_materialised d r s) h2
    refine bind_state_ind (fun s : st T => s.1.materialised_from v) _ _ h3 ?_
    intro a s1 hs1
    have h4 : s1 = (rebuild_proxy d r s).state := by rw [hs1]; rfl
    rw [← h4] at h3
    split <;> exact h3

/-! ### One argument: `setup_argument` and `handle_call_traits` -/

theorem get_host_based_ok_bound (d : device) (v : vector T) (w : world)
    (r : deviceT.vector) (s : st T) (h : get_host_based_device_copy d v w = .ok r s) :
    s.1.bound d false .empty v := by
  have hm := get_host_based_materialised d v w
  rw [h] at hm
  obtain ⟨hud, _⟩ := get_host_based_eq_ok d v w r s h
  have hs := update_device_ok_settled d v w s hud
  refine ⟨hm, hs.1, hs.2, fun hwf => ?_, (fun hb => by cases hb), fun _ => rfl⟩
  exact (well_formed_get_host_based_device_copy d v w r s hwf h).1

theorem get_device_based_ok_bound (d : device) (v : vector T) (w : world)
    (hd : shared_device_pointer) (s : st T)
    (h : get_device_based_device_copy d v w = .ok hd s) :
    s.1.bound d true (.device_reference d hd) v := by
  have hm := get_device_based_materialised d v w
  rw [h] at hm
  have hwf := fun hw => well_formed_get_device_based_device_copy d v w hd s hw h
  unfold get_device_based_device_copy at h
  rw [bind_eq_ok] at h
  obtain ⟨r, s1, h1, h2⟩ := h
  have hb := get_host_based_ok_bound d v w r s1 h1
  rw [bind_eq_ok] at h2
  obtain ⟨u, s2, h3, h4⟩ := h2
  obtain ⟨hbuild, hkeep⟩ := rebuild_proxy_eq_ok d r s1 s2 h3
  have hsame : s2.1.host_changes_ = s1.1.host_changes_ ∧ s2.1.device_ptr_ = s1.1.device_ptr_ := by
    cases hp : s1.1.proxy_invalid_
    · rw [hkeep hp]
      exact ⟨rfl, rfl⟩
    · rw [(hbuild hp).2.1]
      exact ⟨rfl, rfl⟩
  split at h4
  · rename_i p hp
    cases h4
    refine ⟨hm, ?_, ?_, hwf, fun _ => ⟨p, hp, rfl⟩, fun hb2 => by cases hb2⟩
    · rw [hsame.1]
      exact hb.2.1
    · rw [hsame.2]
      exact hb.2.2.1
  · cases h4

/-- What `setup_argument` leaves in place, whatever its outcome: the kernel object, the
arguments at the other positions, and the argument itself up to a materialisation;
the trace is extended by the step. -/
theorem setup_argument_frame (d : device) (i : Nat) (st : call_state T) :
    (setup_argument d i st).state.k = st.k ∧
    (setup_argument d i st).state.steps = st.steps ++ [.setup_argument i] ∧
    (setup_argument d i st).state.args.length = st.args.length ∧
    (∀ j, j ≠ i - 1 → (setup_argument d i st).state.args[j]? = st.args[j]?) ∧
    (∀ a, st.args[i - 1]? = some a →
      ∃ b, (setup_argument d i st).state.args[i - 1]? = some b ∧ b.materialised_from a) := by
  unfold setup_argument
  split
  · rename_i hnone
    refine ⟨rfl, rfl, rfl, fun _ _ => rfl, fun a ha => ?_⟩
    rw [hnone] at ha
    cases ha
  · rename_i x hpod
    refine ⟨rfl, rfl, rfl, fun _ _ => rfl, fun a ha => ?_⟩
    rw [hpod] at ha
    cases ha
    exact ⟨_, hpod, rfl⟩
  · rename_i v hv
    have hlt : i - 1 < st.args.length := by
      by_contra hge
      rw [List.getElem?_eq_none (by omega)] at hv
      cases hv
    split
    · have hm := get_device_based_materialised d v st.w
      split
      all_goals
        rename_i heq
        rw [heq] at hm
        refine ⟨rfl, rfl, by simp [outcome.state], fun j hj => ?_, fun a ha => ?_⟩
        · simp only [outcome.state]
          rw [List.getElem?_set_ne (fun h => hj h.symm)]
        · rw [hv] at ha
          cases ha
          simp only [outcome.state]
          rw [List.getElem?_set_self hlt]
          exact ⟨_, rfl, hm⟩
    · have hm := get_host_based_materialised d v st.w
      split
      all_goals
        rename_i heq
        rw [heq] at hm
        refine ⟨rfl, rfl, by simp [outcome.state], fun j hj => ?_, fun a ha => ?_⟩
        · simp only [outcome.state]
          rw [List.getElem?_set_ne (fun h => hj h.symm)]
        · rw [hv] at ha
          cases ha
          simp only [outcome.state]
          rw [List.getElem?_set_self hlt]
          exact ⟨_, rfl, hm⟩

theorem setup_argument_thrown_error (d : device) (i : Nat) (st s : call_state T)
    (e : error) (h : setup_argument d i st = .thrown e s) : e = .cuda_runtime_error := by
  unfold setup_argument at h
  split at h
  · cases h
  · cases h
  · split at h
    · split at h
      · cases h
      · rename_i heq
        cases h
        exact get_device_based_thrown_error _ _ _ _ _ heq
      · cases h
    · split at h
      · cases h
      · rename_i heq
        cases h
        exact get_host_based_thrown_error _ _ _ _ _ heq
      · cases h

/-- A normally returning `setup_argument` has bound its argument and returns the token
of the binding. -/
theorem setup_argument_ok_bound (d : device) (i : Nat) (st s : call_state T)
    (token : boost_any) (h : setup_argument d i st = .ok token s) :
    ∃ a b, st.args[i - 1]? = some a ∧ s.args[i - 1]? = some b ∧
      b.bound d (decide (st.k.kb_.by_reference[i - 1]? = some true)) token a := by
  unfold setup_argument at h
  split at h
  · cases h
  · rename_i x hpod
    cases h
    exact ⟨_, _, hpod, hpod, rfl, rfl⟩
  · rename_i v hv
    have hlt : i - 1 < st.args.length := by
      by_contra hge
      rw [List.getElem?_eq_none (by omega)] at hv
      cases hv
    split at h
    · rename_i href
      split at h
      · rename_i hd s1 heq
        cases h
        refine ⟨_, _, hv, List.getElem?_set_self hlt, ?_⟩
        have hb := get_device_based_ok_bound d v st.w hd s1 heq
        simpa [argument.bound, href] using hb
      · cases h
      · cases h
    · rename_i href
      split at h
      · rename_i r s1 heq
        cases h
        refine ⟨_, _, hv, List.getElem?_set_self hlt, ?_⟩
        have hb := get_host_based_ok_bound d v st.w r s1 heq
        simpa [argument.bound, href] using hb
      · cases h
      · cases h

/-- What `handle_call_traits` does when it returns normally: nothing for a position
whose entry in the dirty table is false; for an entry that is true, one dirty step
with the token stored at the position, and the argument is marked. -/
theorem handle_call_traits_ok (i : Nat) (st s : call_state T)
    (h : handle_call_traits i st = .ok () s) :
    s.k = st.k ∧ s.w = st.w ∧ s.args.length = st.args.length ∧
    (∀ j, j ≠ i - 1 → s.args[j]? = st.args[j]?) ∧
    ((st.k.dirty[i - 1]? = some false ∧ s = st) ∨
     (st.k.dirty[i - 1]? = some true ∧
      ∃ token a, st.k.returnee_vec_[i - 1]? = some token ∧
        s.steps = st.steps ++ [.dirty i token] ∧
        st.args[i - 1]? = some a ∧ s.args[i - 1]? = some a.marked)) := by
  unfold handle_call_traits at h
  split at h
  · cases h
  · rename_i hfalse
    cases h
    exact ⟨rfl, rfl, rfl, fun _ _ => rfl, Or.inl ⟨hfalse, rfl⟩⟩
  · rename_i htrue
    split at h
    · cases h
    · cases h
    · rename_i dd hd htok
      split at h
      · cases h
      · rename_i x hpod
        cases h
        exact ⟨rfl, rfl, rfl, fun _ _ => rfl,
          Or.inr ⟨htrue, _, _, htok, rfl, hpod, hpod⟩⟩
      · rename_i v hv
        have hlt : i - 1 < st.args.length := by
          by_contra hge
          rw [List.getElem?_eq_none (by omega)] at hv
          cases hv
        simp only [dirty] at h
        cases h
        refine ⟨rfl, rfl, by simp, fun j hj => ?_, Or.inr ⟨htrue, _, _, htok, rfl, hv, ?_⟩⟩
        · exact List.getElem?_set_ne (fun h => hj h.symm)
        · exact List.getElem?_set_self hlt

theorem handle_call_traits_thrown (i : Nat) (st s : call_state T) (e : error)
    (h : handle_call_traits i st = .thrown e s) : e = .bad_any_cast := by
  unfold handle_call_traits at h
  repeat' split at h
  all_goals first
    | (rename_i heq; simp [dirty] at heq; done)
    | (cases h; rfl)
    | cases h

/-! ### All arguments: the two loops of `operator()` -/

theorem argument_materialised_from_refl (a : argument T) : a.materialised_from a := by
  cases a with
  | pod x => rfl
  | container v => exact materialised_from_refl v

theorem argument_materialised_from_trans (c b a : argument T)
    (h2 : c.materialised_from b) (h1 : b.materialised_from a) : c.materialised_from a := by
  cases a <;> cases b <;> cases c <;>
    simp only [argument.materialised_from] at h1 h2 ⊢
  · exact h2.trans h1
  · exact materialised_from_trans _ _ _ h2 h1

theorem arguments_materialised_from_refl (as : List (argument T)) :
    arguments_materialised_from as as :=
  ⟨rfl, fun _ a ha => ⟨a, ha, argument_materialised_from_refl a⟩⟩

theorem arguments_materialised_from_trans (cs bs as : List (argument T))
    (h2 : arguments_materialised_from cs bs) (h1 : arguments_materialised_from bs as) :
    arguments_materialised_from cs as := by
  refine ⟨h2.1.trans h1.1, fun j a ha => ?_⟩
  obtain ⟨b, hb, hba⟩ := h1.2 j a ha
  obtain ⟨c, hc, hcb⟩ := h2.2 j b hb
  exact ⟨c, hc, argument_materialised_from_trans c b a hcb hba⟩

theorem setup_argument_materialised (d : device) (i : Nat) (st : call_state T) :
    arguments_materialised_from (setup_argument d i st).state.args st.args := by
  obtain ⟨_, _, hlen, hother, hself⟩ := setup_argument_frame d i st
  refine ⟨hlen, fun j a ha => ?_⟩
  by_cases hj : j = i - 1
  · subst hj
    exact hself a ha
  · rw [← hother j hj] at ha
    exact ⟨a, ha, argument_materialised_from_refl a⟩

/-- What the binding loop leaves in place, whatever its outcome: the kernel object but
for the tokens it appends, and the arguments up to materialisation; its trace is one
`setup_argument` step for each position it has come to, in increasing order: all of
them after a normal return, and, after an error, those up to the position that
failed. -/
theorem setup_arguments_frame (d : device) (n : Nat) :
    ∀ (p : Nat) (st : call_state T),
      (setup_arguments d (p + 1) n st).state.k.number_of_parameters_
          = st.k.number_of_parameters_ ∧
      (setup_arguments d (p + 1) n st).state.k.kb_ = st.k.kb_ ∧
      (setup_arguments d (p + 1) n st).state.k.dirty = st.k.dirty ∧
      arguments_materialised_from (setup_arguments d (p + 1) n st).state.args st.args ∧
      ∃ (m : Nat) (toks : List boost_any), m ≤ n ∧
        (setup_arguments d (p + 1) n st).state.steps
          = st.steps ++ (List.range' (p + 1) m).map step.setup_argument ∧
        (setup_arguments d (p + 1) n st).state.k.returnee_vec_
          = st.k.returnee_vec_ ++ toks ∧
        (∀ s, setup_arguments d (p + 1) n st = .ok () s → m = n ∧ toks.length = n) ∧
        (∀ e s, setup_arguments d (p + 1) n st = .thrown e s →
          e = .cuda_runtime_error ∧ 1 ≤ m ∧ toks.length + 1 = m) := by
  induction n with
  | zero =>
    intro p st
    refine ⟨rfl, rfl, rfl, arguments_materialised_from_refl _, 0, [], Nat.le_refl _, ?_, ?_,
      fun _ _ => ⟨rfl, rfl⟩, fun e s h => ?_⟩
    · simp [setup_arguments, outcome.state]
    · simp [setup_arguments, outcome.state]
    · simp [setup_arguments] at h
  | succ n ih =>
    intro p st
    obtain ⟨hk, hsteps, _, _, _⟩ := setup_argument_frame d (p + 1) st
    have hmat := setup_argument_materialised d (p + 1) st
    cases hsa : setup_argument d (p + 1) st with
    | ok token s1 =>
      rw [hsa] at hk hsteps hmat
      simp only [outcome.state] at hk hsteps hmat
      have hrec : setup_arguments d (p + 1) (n + 1) st
          = setup_arguments d (p + 1 + 1) n
              { s1 with k := { s1.k with returnee_vec_ := s1.k.returnee_vec_ ++ [token] } } := by
        simp [setup_arguments, hsa, outcome.bind]
      rw [hrec]
      obtain ⟨h1, h2, h3, h4, m, toks, hm, h5, h6, h7, h8⟩ := ih (p + 1)
        { s1 with k := { s1.k with returnee_vec_ := s1.k.returnee_vec_ ++ [token] } }
      refine ⟨by rw [h1, hk], by rw [h2, hk], by rw [h3, hk],
        arguments_materialised_from_trans _ _ _ h4 hmat, m + 1, token :: toks, by omega,
        ?_, ?_, fun s hs => ?_, fun e s hs => ?_⟩
      · rw [h5, hsteps, List.range'_succ]
        simp
      · rw [h6, hk]
        simp
      · obtain ⟨hmn, hlen⟩ := h7 s hs
        exact ⟨by omega, by simp [hlen]⟩
      · obtain ⟨he, hm1, hlen⟩ := h8 e s hs
        exact ⟨he, by omega, by simp [hlen]⟩
    | thrown e0 s1 =>
      rw [hsa] at hk hsteps hmat
      simp only [outcome.state] at hk hsteps hmat
      have hrec : setup_arguments d (p + 1) (n + 1) st = .thrown e0 s1 := by
        simp [setup_arguments, hsa, outcome.bind]
      rw [hrec]
      refine ⟨by simp [outcome.state, hk], by simp [outcome.state, hk],
        by simp [outcome.state, hk], hmat, 1, [], by omega, ?_, ?_,
        (fun s hs => by cases hs), fun e s hs => ?_⟩
      · simp [outcome.state, hsteps]
      · simp [outcome.state, hk]
      · cases hs
        exact ⟨setup_argument_thrown_error d (p + 1) st _ _ hsa, Nat.le_refl _, rfl⟩
    | aborted f s1 =>
      rw [hsa] at hk hsteps hmat
      simp only [outcome.state] at hk hsteps hmat
      have hrec : setup_arguments d (p + 1) (n + 1) st = .aborted f s1 := by
        simp [setup_arguments, hsa, outcome.bind]
      rw [hrec]
      refine ⟨by simp [outcome.state, hk], by simp [outcome.state, hk],
        by simp [outcome.state, hk], hmat, 1, [], by omega, ?_, ?_,
        (fun s hs => by cases hs), (fun e s hs => by cases hs)⟩
      · simp [outcome.state, hsteps]
      · simp [outcome.state, hk]

/-- After a normal return of the binding loop for the positions `p + 1, .., p + n`,
one token has been appended for each position, in order, each argument in the range
is bound with its token, and the other arguments are untouched. -/
theorem setup_arguments_ok (d : device) (n : Nat) :
    ∀ (p : Nat) (st s : call_state T), setup_arguments d (p + 1) n st = .ok () s →
      ∃ toks : List boost_any, toks.length = n ∧
        s.k.returnee_vec_ = st.k.returnee_vec_ ++ toks ∧
        (∀ j, j < p ∨ p + n ≤ j → s.args[j]? = st.args[j]?) ∧
        (∀ t, t < n → ∃ a b token, st.args[p + t]? = some a ∧ s.args[p + t]? = some b ∧
          toks[t]? = some token ∧
          b.bound d (decide (st.k.kb_.by_reference[p + t]? = some true)) token a) := by
  induction n with
  | zero =>
    intro p st s h
    simp only [setup_arguments, outcome.ok.injEq, true_and] at h
    subst h
    exact ⟨[], rfl, by simp, fun _ _ => rfl, fun t ht => absurd ht (Nat.not_lt_zero t)⟩
  | succ n ih =>
    intro p st s h
    simp only [setup_arguments] at h
    rw [bind_eq_ok] at h
    obtain ⟨token, s1, hsa, hrest⟩ := h
    obtain ⟨hk, _, _, hother, _⟩ := setup_argument_frame d (p + 1) st
    rw [hsa] at hk hother
    simp only [outcome.state, Nat.add_sub_cancel] at hk hother
    obtain ⟨a0, b0, ha0, hb0, hbound0⟩ := setup_argument_ok_bound d (p + 1) st s1 token hsa
    simp only [Nat.add_sub_cancel] at ha0 hb0 hbound0
    obtain ⟨toks, hlen, hvec, hother2, hin⟩ := ih (p + 1) _ s hrest
    simp only at hvec hother2 hin
    refine ⟨token :: toks, by simp [hlen], ?_, fun j hj => ?_, fun t ht => ?_⟩
    · rw [hvec, hk]
      simp
    · rw [hother2 j (by omega), hother j (by omega)]
    · cases t with
      | zero =>
        refine ⟨a0, b0, token, ha0, ?_, by simp, hbound0⟩
        simp only [Nat.add_zero]
        rw [hother2 p (by omega)]
        exact hb0
      | succ t =>
        obtain ⟨a, b, tok, ha, hb, htok, hbound⟩ := hin t (by omega)
        have hidx : p + (t + 1) = p + 1 + t := by omega
        rw [hidx]
        refine ⟨a, b, tok, ?_, hb, by simpa using htok, ?_⟩
        · rw [← hother (p + 1 + t) (by omega)]
          exact ha
        · rw [hk] at hbound
          exact hbound

theorem dirty_steps_succ (k : kernel) (i n : Nat) :
    dirty_steps k i (n + 1) =
      (match k.dirty[i - 1]?, k.returnee_vec_[i - 1]? with
        | some true, some token => [.dirty i token]
        | _, _ => []) ++ dirty_steps k (i + 1) n := by
  unfold dirty_steps
  rw [List.range'_succ, List.filterMap_cons]
  split <;> rename_i heq <;> split at heq <;> simp_all

/-- After a normal return of the write-back loop for the positions `p + 1, .., p + n`,
the trace is extended by the dirty steps of these positions, each argument in the
range whose entry in the dirty table is true is marked, and everything else is
untouched. -/
theorem handle_arguments_ok (n : Nat) :
    ∀ (p : Nat) (st s : call_state T), handle_arguments (p + 1) n st = .ok () s →
      s.k = st.k ∧ s.w = st.w ∧ s.args.length = st.args.length ∧
      s.steps = st.steps ++ dirty_steps st.k (p + 1) n ∧
      (∀ j, j < p ∨ p + n ≤ j → s.args[j]? = st.args[j]?) ∧
      (∀ t a, t < n → st.args[p + t]? = some a →
        s.args[p + t]? = some (if st.k.dirty[p + t]? = some true then a.marked else a)) := by
  induction n with
  | zero =>
    intro p st s h
    simp only [handle_arguments, outcome.ok.injEq, true_and] at h
    subst h
    exact ⟨rfl, rfl, rfl, by simp [dirty_steps], fun _ _ => rfl,
      fun t _ ht => absurd ht (Nat.not_lt_zero t)⟩
  | succ n ih =>
    intro p st s h
    simp only [handle_arguments] at h
    rw [bind_eq_ok] at h
    obtain ⟨u, s1, hone, hrest⟩ := h
    obtain ⟨hk, hw, hlen, hother, hcase⟩ := handle_call_traits_ok (p + 1) st s1 hone
    simp only [Nat.add_sub_cancel] at hother hcase
    obtain ⟨hk2, hw2, hlen2, hsteps2, hother2, hin⟩ := ih (p + 1) s1 s hrest
    have hsteps : s.steps = st.steps ++ dirty_steps st.k (p + 1) (n + 1) := by
      rw [hsteps2, dirty_steps_succ, hk]
      simp only [Nat.add_sub_cancel]
      rcases hcase with ⟨hfalse, hs1⟩ | ⟨htrue, token, a, htok, hst, _, _⟩
      · rw [hs1, hfalse]
        simp
      · rw [hst, htrue, htok]
        simp
    refine ⟨by rw [hk2, hk], by rw [hw2, hw], by rw [hlen2, hlen], hsteps,
      fun j hj => ?_, fun t a ht ha => ?_⟩
    · rw [hother2 j (by omega), hother j (by omega)]
    · cases t with
      | zero =>
        rw [Nat.add_zero] at ha ⊢
        rw [hother2 p (by omega)]
        rcases hcase with ⟨hfalse, hs1⟩ | ⟨htrue, token, a1, _, _, ha1, hmarked⟩
        · rw [hs1, hfalse]
          simpa using ha
        · rw [ha] at ha1
          cases ha1
          rw [htrue]
          simpa using hmarked
      | succ t =>
        have hidx : p + (t + 1) = p + 1 + t := by omega
        rw [hidx] at ha ⊢
        rw [← hother (p + 1 + t) (by omega)] at ha
        have := hin t a (by omega) ha
        rw [hk] at this
        exact this

theorem handle_arguments_thrown (n : Nat) :
    ∀ (i : Nat) (st s : call_state T) (e : error),
      handle_arguments i n st = .thrown e s → e = .bad_any_cast := by
  induction n with
  | zero =>
    intro i st s e h
    simp [handle_arguments] at h
  | succ n ih =>
    intro i st s e h
    simp only [handle_arguments] at h
    rw [bind_eq_thrown] at h
    rcases h with h | ⟨u, s1, _, h2⟩
    · exact handle_call_traits_thrown i st s e h
    · exact ih (i + 1) s1 s e h2

/-! ### The call operator as a whole -/

/-- The ways in which `operator()` ends with an error: the arity check, the binding
loop, the launch, or the write-back loop. -/
theorem operator_call_thrown_cases (d : device) (st s : call_state T) (e : error)
    (h : operator_call d st = .thrown e s) :
    (st.k.number_of_parameters_ ≠ (st.args.length : Int) ∧
      e = .kernel_number_of_parameters_mismatch st.k.number_of_parameters_ st.args.length ∧
      s = st) ∨
    (st.k.number_of_parameters_ = (st.args.length : Int) ∧
      ((e = .cuda_runtime_error ∧
        setup_arguments d 1 st.args.length
          { st with steps := st.steps ++ [.configure_call] } = .thrown e s) ∨
       (e = .launch_error ∧ ∃ s3,
        setup_arguments d 1 st.args.length
          { st with steps := st.steps ++ [.configure_call] } = .ok () s3 ∧
        launch s3 = .thrown e s) ∨
       (e = .bad_any_cast ∧ ∃ s3 s4,
        setup_arguments d 1 st.args.length
          { st with steps := st.steps ++ [.configure_call] } = .ok () s3 ∧
        launch s3 = .ok () s4 ∧
        handle_arguments 1 st.args.length s4 = .thrown e s))) := by
  unfold operator_call at h
  rw [bind_eq_thrown] at h
  rcases h with h | ⟨u, s1, hcheck, h⟩
  · left
    unfold check_number_of_parameters at h
    split at h
    · rename_i hne
      cases h
      exact ⟨hne, rfl, rfl⟩
    · cases h
  · right
    unfold check_number_of_parameters at hcheck
    split at hcheck
    · cases hcheck
    · rename_i heq
      cases hcheck
      refine ⟨by simpa using heq, ?_⟩
      simp only [configure_call, outcome.bind] at h
      cases hsetup : setup_arguments d 1 st.args.length
          { st with steps := st.steps ++ [.configure_call] } with
      | ok u3 s3 =>
        rw [hsetup] at h
        simp only at h
        cases hlaunch : launch s3 with
        | ok u4 s4 =>
          rw [hlaunch] at h
          simp only at h
          cases hhandle : handle_arguments 1 st.args.length s4 with
          | ok u5 s5 =>
            rw [hhandle] at h
            simp only at h
            cases h
          | thrown e5 s5 =>
            rw [hhandle] at h
            simp only at h
            cases h
            right; right
            exact ⟨handle_arguments_thrown _ _ _ _ _ hhandle, s3, s4, rfl, hlaunch, hhandle⟩
          | aborted f5 s5 =>
            rw [hhandle] at h
            simp only at h
            cases h
        | thrown e4 s4 =>
          rw [hlaunch] at h
          simp only at h
          cases h
          right; left
          refine ⟨?_, s3, rfl, hlaunch⟩
          unfold launch at hlaunch
          split at hlaunch
          · cases hlaunch
            rfl
          · cases hlaunch
        | aborted f4 s4 =>
          rw [hlaunch] at h
          simp only at h
          cases h
      | thrown e3 s3 =>
        rw [hsetup] at h
        simp only at h
        cases h
        left
        obtain ⟨_, _, _, _, m, toks, _, _, _, _, hthrown⟩ :=
          setup_arguments_frame d st.args.length 0
            { st with steps := st.steps ++ [.configure_call] }
        exact ⟨(hthrown e s hsetup).1, rfl⟩
      | aborted f3 s3 =>
        rw [hsetup] at h
        simp only at h
        cases h

/-- The way in which `operator()` returns normally. -/
theorem operator_call_ok_cases (d : device) (st s : call_state T)
    (h : operator_call d st = .ok () s) :
    st.k.number_of_parameters_ = (st.args.length : Int) ∧
    ∃ s3 s4 s5,
      setup_arguments d 1 st.args.length
        { st with steps := st.steps ++ [.configure_call] } = .ok () s3 ∧
      launch s3 = .ok () s4 ∧
      handle_arguments 1 st.args.length s4 = .ok () s5 ∧
      s = (if st.args.length = 0 then s5
           else { s5 with k := { s5.k with returnee_vec_ := [] } }) := by
  unfold operator_call at h
  rw [bind_eq_ok] at h
  obtain ⟨u, s1, hcheck, h⟩ := h
  unfold check_number_of_parameters at hcheck
  split at hcheck
  · cases hcheck
  · rename_i heq
    cases hcheck
    refine ⟨by simpa using heq, ?_⟩
    rw [bind_eq_ok] at h
    obtain ⟨u2, s2, hconf, h⟩ := h
    simp only [configure_call, outcome.ok.injEq, true_and] at hconf
    subst hconf
    rw [bind_eq_ok] at h
    obtain ⟨u3, s3, hsetup, h⟩ := h
    rw [bind_eq_ok] at h
    obtain ⟨u4, s4, hlaunch, h⟩ := h
    rw [bind_eq_ok] at h
    obtain ⟨u5, s5, hhandle, h⟩ := h
    simp only [outcome.ok.injEq, true_and] at h
    exact ⟨s3, s4, s5, hsetup, hlaunch, hhandle, h.symm⟩

/-! ### C16: arity enforcement -/

/-- C16: a call with `N` arguments of a kernel of declared arity `n` fails with
`kernel_number_of_parameters_mismatch(n, N)` if and only if `N` differs from `n`, and
then the state of the call is the one before it: no `configure_call`, no
`setup_argument`, no launch and no dirty step is in the trace, the arguments and the
device world are untouched and `returnee_vec_` is unchanged. -/
theorem arity_enforcement (d : device) (st : call_state T) :
    (st.k.number_of_parameters_ ≠ (st.args.length : Int) →
      operator_call d st =
        .thrown (.kernel_number_of_parameters_mismatch st.k.number_of_parameters_
          st.args.length) st) ∧
    (∀ a b s, operator_call d st = .thrown (.kernel_number_of_parameters_mismatch a b) s →
      st.k.number_of_parameters_ ≠ (st.args.length : Int) ∧
        a = st.k.number_of_parameters_ ∧ b = (st.args.length : Int) ∧ s = st ∧
        s.steps = st.steps ∧ s.args = st.args ∧ s.w = st.w ∧
        s.k.returnee_vec_ = st.k.returnee_vec_) := by
  constructor
  · intro hne
    simp [operator_call, check_number_of_parameters, hne, outcome.bind]
  · intro a b s h
    rcases operator_call_thrown_cases d st s _ h with ⟨hne, he, hs⟩ | ⟨_, hrest⟩
    · cases he
      subst hs
      exact ⟨hne, rfl, rfl, rfl, rfl, rfl, rfl, rfl⟩
    · rcases hrest with ⟨he, _⟩ | ⟨he, _⟩ | ⟨he, _⟩ <;> cases he

/-- The arity check of C16 for a kernel of arity 3 called with 2 and with 4
arguments. -/
theorem arity_enforcement_witness :
    operator_call 7 (arity_three_call [.pod 1, .pod 2])
      = .thrown (.kernel_number_of_parameters_mismatch 3 2)
          (arity_three_call [.pod 1, .pod 2]) ∧
    operator_call 7 (arity_three_call [.pod 1, .pod 2, .pod 3, .pod 4])
      = .thrown (.kernel_number_of_parameters_mismatch 3 4)
          (arity_three_call [.pod 1, .pod 2, .pod 3, .pod 4]) :=
  ⟨(arity_enforcement 7 (arity_three_call [.pod 1, .pod 2])).1 (by decide),
   (arity_enforcement 7 (arity_three_call [.pod 1, .pod 2, .pod 3, .pod 4])).1 (by decide)⟩

/-! ### The overload for three arguments -/

theorem bind_assoc {σ α β γ : Type} (x : outcome σ α) (f : α → σ → outcome σ β)
    (g : β → σ → outcome σ γ) :
    (x.bind f).bind g = x.bind fun a s => (f a s).bind g := by
  cases x <;> rfl

theorem bind_ok {σ α β : Type} (a : α) (s : σ) (f : α → σ → outcome σ β) :
    (outcome.ok a s).bind f = f a s := rfl

/-- For a call with three arguments the call operator is the overload for three
arguments, statement by statement. -/
theorem operator_call_eq_operator_call_3 (d : device) (st : call_state T)
    (h : st.args.length = 3) : operator_call d st = operator_call_3 d st := by
  unfold operator_call operator_call_3
  rw [h]
  simp only [setup_arguments, handle_arguments, bind_assoc, bind_ok]
  rfl

/-! ### C17: the write-back -/

/-- A read through `operator[] const` ends in the state its `update_host` ends in. -/
theorem operator_index_const_state (j : Nat) (v : vector T) (w : world) :
    (operator_index_const j v w).state = (update_host v w).state := by
  unfold operator_index_const
  cases update_host v w with
  | ok u s =>
    simp only [outcome.bind]
    split <;> rfl
  | thrown e s => rfl
  | aborted f s => rfl

/-- The sync of a DeviceDirty container with a buffer of the host length calls one
primitive, the device-to-host copy of the buffer. -/
theorem update_host_device_dirty_performed (v : vector T) (w : world) (m : memory1d T)
    (hd : DeviceDirty v) (hm : v.memory_ = .valid m) (hs : m.size = v.data_.length) :
    performed w (update_host v w) = [.copy_to_host m.address] := by
  unfold update_host
  rw [if_pos hd.1, if_neg (by simp [hd.2]), hm]
  simp only [memory1d.copy_to_host]
  rw [if_neg (by omega)]
  split_ifs <;> simp [performed, outcome.state, world.step]

/-- The sync of a container without pending device changes calls no primitive. -/
theorem update_host_idle_performed (v : vector T) (w : world)
    (hd : v.device_changes_ = false) : performed w (update_host v w) = [] := by
  unfold update_host
  rw [if_neg (by simp [hd])]
  simp [performed, outcome.state]

/-- The dirty steps of the positions `p + 1, .., p + n`: one for each position in the
range whose entry in the dirty table is true and which has a token. -/
theorem mem_dirty_steps (k : kernel) (n : Nat) :
    ∀ (p i : Nat) (token : boost_any),
      step.dirty i token ∈ dirty_steps k (p + 1) n ↔
        p + 1 ≤ i ∧ i ≤ p + n ∧ k.dirty[i - 1]? = some true ∧
          k.returnee_vec_[i - 1]? = some token := by
  intro p i token
  unfold dirty_steps
  rw [List.mem_filterMap]
  constructor
  · rintro ⟨j, hj, heq⟩
    rw [List.mem_range'_1] at hj
    split at heq
    · rename_i tok hd ht
      cases heq
      exact ⟨hj.1, by omega, hd, ht⟩
    · cases heq
  · rintro ⟨h1, h2, hd, ht⟩
    refine ⟨i, ?_, ?_⟩
    · rw [List.mem_range'_1]
      omega
    · rw [hd, ht]

theorem dirty_steps_congr (k1 k : kernel) (i n : Nat) (hd : k1.dirty = k.dirty)
    (hr : k1.returnee_vec_ = k.returnee_vec_) : dirty_steps k1 i n = dirty_steps k i n := by
  unfold dirty_steps
  rw [hd, hr]

theorem performed_operator_index_const (j : Nat) (v : vector T) (w : world) :
    performed w (operator_index_const j v w) = performed w (update_host v w) := by
  unfold performed
  rw [operator_index_const_state]

/-- The write-back of a call that is entered with an empty token table: in a call that
returns normally, of a kernel with an empty token table, the
trace is the `configure_call`, one `setup_argument` for each position in order, the
launch, and then the dirty steps; there is a dirty step for position `i` with token
`token` if and only if `1 <= i <= N`, entry `i - 1` of the dirty table is true and
`token` is the token recorded for position `i`; the argument at each position is the
one of the call, bound on the device with that token, and marked if and only if its
entry in the dirty table is true.  A container argument whose entry is true is
DeviceDirty after the call and, when it was well formed, its next host read makes
one device-to-host copy of its buffer; a container argument whose entry is false
and which had no pending device changes is Synced after the call and its next host
read calls no primitive. -/
theorem write_back (d : device) (st s : call_state T)
    (hr : st.k.returnee_vec_ = [])
    (h : operator_call d st = .ok () s) :
    ∃ toks : List boost_any, toks.length = st.args.length ∧
      s.steps = st.steps ++ .configure_call ::
          (List.range' 1 st.args.length).map step.setup_argument ++ [.launch] ++
          dirty_steps { st.k with returnee_vec_ := toks } 1 st.args.length ∧
      (∀ (i : Nat) (token : boost_any),
        step.dirty i token ∈
            dirty_steps { st.k with returnee_vec_ := toks } 1 st.args.length ↔
          1 ≤ i ∧ i ≤ st.args.length ∧ st.k.dirty[i - 1]? = some true ∧
            toks[i - 1]? = some token) ∧
      (∀ i, 1 ≤ i → i ≤ st.args.length →
        ∃ (a b : argument T) (token : boost_any),
          st.args[i - 1]? = some a ∧ toks[i - 1]? = some token ∧
          b.bound d (decide (st.k.kb_.by_reference[i - 1]? = some true)) token a ∧
          s.args[i - 1]? =
            some (if st.k.dirty[i - 1]? = some true then b.marked else b)) ∧
      (∀ (i : Nat) (v : vector T), 1 ≤ i → st.args[i - 1]? = some (.container v) →
        ∃ v1, s.args[i - 1]? = some (.container v1) ∧
          (st.k.dirty[i - 1]? = some true →
            DeviceDirty v1 ∧
            (well_formed v → ∃ m, v1.memory_ = .valid m ∧
              ∀ (j : Nat) (w : world),
                performed w (operator_index_const j v1 w) = [.copy_to_host m.address])) ∧
          (st.k.dirty[i - 1]? = some false → v.device_changes_ = false →
            Synced v1 ∧
            ∀ (j : Nat) (w : world), performed w (operator_index_const j v1 w) = [])) := by
  obtain ⟨hn, s3, s4, s5, hsetup, hlaunch, hhandle, hs⟩ := operator_call_ok_cases d st s h
  obtain ⟨_, hkb, hkd, _, m, toks0, _, hsteps3, _, hok, _⟩ :=
    setup_arguments_frame d st.args.length 0
      { st with steps := st.steps ++ [.configure_call] }
  simp only [Nat.zero_add] at hkb hkd hsteps3 hok
  rw [hsetup] at hkb hkd hsteps3
  simp only [outcome.state] at hkb hkd hsteps3
  obtain ⟨hmn, _⟩ := hok s3 hsetup
  subst hmn
  obtain ⟨toks, hlen, hret, _, hbound⟩ :=
    setup_arguments_ok d st.args.length 0
      { st with steps := st.steps ++ [.configure_call] } s3 (by simpa using hsetup)
  simp only [hr, List.nil_append, Nat.zero_add] at hret hbound
  have hs4 : s4 = { s3 with w := s3.w.next, steps := s3.steps ++ [.launch] } := by
    unfold launch at hlaunch
    split at hlaunch
    · cases hlaunch
    · cases hlaunch
      rfl
  obtain ⟨hk5, _, _, hsteps5, _, hmarked⟩ :=
    handle_arguments_ok st.args.length 0 s4 s5 (by simpa using hhandle)
  simp only [Nat.zero_add] at hsteps5 hmarked
  have hsargs : s.args = s5.args := by
    rw [hs]
    split <;> rfl
  have hssteps : s.steps = s5.steps := by
    rw [hs]
    split <;> rfl
  have hk4 : s4.k = s3.k := by rw [hs4]
  have hds : dirty_steps s4.k 1 st.args.length
      = dirty_steps { st.k with returnee_vec_ := toks } 1 st.args.length :=
    dirty_steps_congr _ _ _ _ (by rw [hk4, hkd]) (by rw [hk4, hret])
  have hpos : ∀ i, 1 ≤ i → i ≤ st.args.length →
      ∃ (a b : argument T) (token : boost_any),
        st.args[i - 1]? = some a ∧ toks[i - 1]? = some token ∧
        b.bound d (decide (st.k.kb_.by_reference[i - 1]? = some true)) token a ∧
        s.args[i - 1]? =
          some (if st.k.dirty[i - 1]? = some true then b.marked else b) := by
    intro i h1 h2
    obtain ⟨a, b, token, ha, hb, htok, hbd⟩ := hbound (i - 1) (by omega)
    refine ⟨a, b, token, ha, htok, hbd, ?_⟩
    have hb4 : s4.args[i - 1]? = some b := by
      rw [hs4]
      exact hb
    have := hmarked (i - 1) b (by omega) hb4
    rw [hk4, hkd] at this
    rw [hsargs]
    exact this
  refine ⟨toks, hlen, ?_, ?_, hpos, ?_⟩
  · rw [hssteps, hsteps5, hds, hs4]
    simp only [hsteps3]
    simp
  · intro i token
    have := mem_dirty_steps { st.k with returnee_vec_ := toks } st.args.length 0 i token
    simpa using this
  · intro i v h1 hv
    have h2 : i ≤ st.args.length := by
      by_contra hgt
      rw [List.getElem?_eq_none (by omega)] at hv
      cases hv
    obtain ⟨a, b, token, ha, _, hbd, hsb⟩ := hpos i h1 h2
    rw [hv] at ha
    cases ha
    cases b with
    | pod x => simp [argument.bound] at hbd
    | container vb =>
      simp only [argument.bound, vector.bound, vector.materialised_from] at hbd
      obtain ⟨⟨hdata, hdc, _⟩, hhc, _, hwf, _, _⟩ := hbd
      by_cases hdirty : st.k.dirty[i - 1]? = some true
      · rw [if_pos hdirty] at hsb
        refine ⟨_, hsb, fun _ => ⟨⟨rfl, hhc⟩, fun hw => ?_⟩, fun hf => ?_⟩
        · obtain ⟨m, hm, hsize⟩ := (hwf hw).1 hhc
          refine ⟨m, hm, fun j w => ?_⟩
          rw [performed_operator_index_const]
          exact update_host_device_dirty_performed _ w m ⟨rfl, hhc⟩ hm hsize
        · rw [hf] at hdirty
          cases hdirty
      · rw [if_neg hdirty] at hsb
        refine ⟨_, hsb, fun ht => absurd ht hdirty, fun _ hvd => ?_⟩
        have hvb : vb.device_changes_ = false := by rw [hdc, hvd]
        refine ⟨⟨hhc, hvb⟩, fun j w => ?_⟩
        rw [performed_operator_index_const]
        exact update_host_idle_performed vb w hvb

/-- The write-back for `arity_three_kernel`, whose second parameter alone is
marked dirty, called on device 7 with three containers: the call returns normally
with one dirty step, for position 2 and with the token of the second argument; the
second argument is DeviceDirty and its next read makes one device-to-host copy, the
first and the third are Synced and their next read calls no primitive. -/
theorem write_back_three_containers :
    (arity_three_call three_containers).k.returnee_vec_ = [] ∧
    operator_call 7 (arity_three_call three_containers)
      = .ok () (operator_call 7 (arity_three_call three_containers)).state ∧
    (operator_call 7 (arity_three_call three_containers)).state.steps
      = [.configure_call, .setup_argument 1, .setup_argument 2, .setup_argument 3,
         .launch, .dirty 2 (.device_reference 7 3)] ∧
    (∃ v2 m, (operator_call 7 (arity_three_call three_containers)).state.args[1]?
        = some (.container v2) ∧ DeviceDirty v2 ∧ v2.memory_ = .valid m ∧
      ∀ (j : Nat) (w : world),
        performed w (operator_index_const j v2 w) = [.copy_to_host m.address]) ∧
    (∃ v1, (operator_call 7 (arity_three_call three_containers)).state.args[0]?
        = some (.container v1) ∧ Synced v1 ∧
      ∀ (j : Nat) (w : world), performed w (operator_index_const j v1 w) = []) ∧
    (∃ v3, (operator_call 7 (arity_three_call three_containers)).state.args[2]?
        = some (.container v3) ∧ Synced v3 ∧
      ∀ (j : Nat) (w : world), performed w (operator_index_const j v3 w) = []) := by
  obtain ⟨_, _, _, _, _, hc⟩ :=
    write_back 7 (arity_three_call three_containers)
      (operator_call 7 (arity_three_call three_containers)).state rfl rfl
  refine ⟨rfl, rfl, rfl, ?_, ?_, ?_⟩
  · obtain ⟨v2, h2, hd, _⟩ := hc 2 (vector.new_fill 1 2) (by decide) rfl
    obtain ⟨hdd, hread⟩ := hd rfl
    obtain ⟨m, hm, hr⟩ :=
      hread ⟨fun hf => absurd hf (by decide), fun _ => Or.inl ⟨rfl, rfl⟩⟩
    exact ⟨v2, m, h2, hdd, hm, hr⟩
  · obtain ⟨v1, h1, _, hs⟩ := hc 1 (vector.new_fill 1 1) (by decide) rfl
    obtain ⟨hsy, hr⟩ := hs rfl rfl
    exact ⟨v1, h1, hsy, hr⟩
  · obtain ⟨v3, h3, _, hs⟩ := hc 3 (vector.new_fill 1 3) (by decide) rfl
    obtain ⟨hsy, hr⟩ := hs rfl rfl
    exact ⟨v3, h3, hsy, hr⟩

/-- C17 fails for a call that follows a failed one: the kernel object of
`call_after_failure` still holds the token of the failed call, `device_reference(7, 1)`.
The call returns normally; `setup_argument` returns for its argument at position 1
the token `device_reference(7, 3)`, which is pushed behind the old one, and
`handle_call_traits(p1, 1)` reads `returnee_vec_[0]`: the dirty hook of position 1 is
invoked with the token of the earlier call and not with the one recorded for
position 1 in this call. -/
theorem write_back_uses_stale_token :
    call_after_failure.k.returnee_vec_ = [.device_reference 7 1] ∧
    call_after_failure.k.dirty = [true] ∧
    (∃ s, operator_call 7 call_after_failure = .ok () s) ∧
    (∃ s, setup_argument 7 1 { call_after_failure with steps := [.configure_call] }
      = .ok (.device_reference 7 3) s) ∧
    step.dirty 1 (.device_reference 7 1) ∈ (operator_call 7 call_after_failure).state.steps ∧
    step.dirty 1 (.device_reference 7 3) ∉ (operator_call 7 call_after_failure).state.steps :=
  ⟨rfl, rfl, ⟨_, rfl⟩, ⟨_, rfl⟩, by decide, by decide⟩

/-! ### C18: the clean-up of the token table -/

/-- The token table is empty after a call that returns normally, if the call has
arguments or the table was empty before. -/
theorem returnee_vec_cleared_on_return (d : device) (st s : call_state T)
    (h : operator_call d st = .ok () s)
    (hr : st.k.returnee_vec_ = [] ∨ st.args.length ≠ 0) : s.k.returnee_vec_ = [] := by
  obtain ⟨_, s3, s4, s5, hsetup, hlaunch, hhandle, hs⟩ := operator_call_ok_cases d st s h
  by_cases hn : st.args.length = 0
  · rw [hn] at hsetup hhandle
    rw [if_pos hn] at hs
    simp only [setup_arguments, outcome.ok.injEq, true_and] at hsetup
    simp only [handle_arguments, outcome.ok.injEq, true_and] at hhandle
    unfold launch at hlaunch
    split at hlaunch
    · cases hlaunch
    · cases hlaunch
      subst hsetup
      subst hhandle
      subst hs
      rcases hr with hr | hr
      · exact hr
      · exact absurd hn hr
  · rw [if_neg hn] at hs
    rw [hs]

/-- C18 fails on the failure path: the call `launch_fails`, of a kernel of arity 1 on
the container `vector(1, 5)`, ends with the launch error and leaves the token of its
argument in `returnee_vec_`, because the `returnee_vec_.clear()` at the end of
`operator()` is not reached; in the next call of the same kernel object, on another
container whose own proxy is at address 3, `handle_call_traits(p1, 1)` reads
`returnee_vec_[0]` and passes the stale token, the handle at address 1 of the earlier
argument, to the dirty hook. -/
theorem returnee_vec_survives_failed_call :
    operator_call 7 launch_fails
      = .thrown .launch_error (operator_call 7 launch_fails).state ∧
    (operator_call 7 launch_fails).state.k.returnee_vec_ = [.device_reference 7 1] ∧
    operator_call 7 call_after_failure
      = .ok () (operator_call 7 call_after_failure).state ∧
    (operator_call 7 call_after_failure).state.steps
      = [.configure_call, .setup_argument 1, .launch,
         .dirty 1 (.device_reference 7 1)] ∧
    (operator_call 7 call_after_failure).state.args
      = [.container
          { data_ := [6], host_changes_ := false, device_changes_ := true,
            proxy_invalid_ := false,
            memory_ := .valid { dev := 7, address := 2, cells := [6] },
            device_proxy_ := .valid { dev := 7, address := 3,
                                      cells := [{ size := 1, device_pointer := 2 }] },
            device_ptr_ := some 7 }] :=
  ⟨rfl, rfl, rfl, rfl, rfl⟩

/-! ### C19: failure propagation -/

/-- C19: in a call that passes the arity check, a `setup_argument` that fails ends the
binding loop with its own error and state; when the binding loop fails, the call fails
with the same error and state, and every step of its trace is an earlier one, the
`configure_call`, or the `setup_argument` of a position up to the one that failed:
there is no `setup_argument` for a later position, no launch and no dirty step;
when the launch fails, the call fails with the same error and state, and the trace
ends with the launch: there is no dirty step; in both cases each argument is as
before the call but for a materialisation, so that no argument has become
DeviceDirty. -/
theorem failure_propagation (d : device) (st : call_state T)
    (hn : st.k.number_of_parameters_ = (st.args.length : Int)) :
    (∀ (i n : Nat) (s0 s : call_state T) (e : error),
      setup_argument d i s0 = .thrown e s → setup_arguments d i (n + 1) s0 = .thrown e s) ∧
    (∀ (e : error) (s : call_state T),
      setup_arguments d 1 st.args.length
        { st with steps := st.steps ++ [.configure_call] } = .thrown e s →
      operator_call d st = .thrown e s ∧
      arguments_materialised_from s.args st.args ∧
      ∃ i, 1 ≤ i ∧ i ≤ st.args.length ∧
        s.steps = st.steps ++ .configure_call :: (List.range' 1 i).map step.setup_argument ∧
        ∀ x ∈ s.steps, x ∈ st.steps ∨ x = .configure_call ∨
          ∃ j, 1 ≤ j ∧ j ≤ i ∧ x = .setup_argument j) ∧
    (∀ (s3 s : call_state T) (e : error),
      setup_arguments d 1 st.args.length
        { st with steps := st.steps ++ [.configure_call] } = .ok () s3 →
      launch s3 = .thrown e s →
      operator_call d st = .thrown e s ∧
      arguments_materialised_from s.args st.args ∧
      s.steps = st.steps ++ .configure_call ::
        (List.range' 1 st.args.length).map step.setup_argument ++ [.launch] ∧
      ∀ x ∈ s.steps, x ∈ st.steps ∨ x = .configure_call ∨ x = .launch ∨
        ∃ j, 1 ≤ j ∧ j ≤ st.args.length ∧ x = .setup_argument j) := by
  refine ⟨fun i n s0 s e h => ?_, fun e s h => ?_, fun s3 s e h hl => ?_⟩
  · simp [setup_arguments, h, outcome.bind]
  · obtain ⟨_, _, _, hmat, m, toks, hm, hsteps, _, _, hthrown⟩ :=
      setup_arguments_frame d st.args.length 0
        { st with steps := st.steps ++ [.configure_call] }
    have hcall : operator_call d st = .thrown e s := by
      simp only [Nat.zero_add] at h
      simp [operator_call, check_number_of_parameters, hn, configure_call, outcome.bind, h]
    rw [h] at hmat hsteps
    simp only [outcome.state, Nat.zero_add] at hmat hsteps
    obtain ⟨_, hm1, _⟩ := hthrown e s h
    refine ⟨hcall, hmat, m, hm1, hm, by simp [hsteps], ?_⟩
    intro x hx
    rw [hsteps] at hx
    simp only [List.mem_append, List.mem_singleton, List.mem_map, List.mem_range'_1] at hx
    rcases hx with (hx | hx) | ⟨j, ⟨hj1, hj2⟩, hx⟩
    · exact Or.inl hx
    · exact Or.inr (Or.inl hx)
    · exact Or.inr (Or.inr ⟨j, hj1, by omega, hx.symm⟩)
  · obtain ⟨_, _, _, hmat, m, toks, hm, hsteps, _, hok, _⟩ :=
      setup_arguments_frame d st.args.length 0
        { st with steps := st.steps ++ [.configure_call] }
    have hcall : operator_call d st = .thrown e s := by
      simp only [Nat.zero_add] at h
      simp [operator_call, check_number_of_parameters, hn, configure_call, outcome.bind, h,
        hl]
    rw [h] at hmat hsteps
    simp only [outcome.state, Nat.zero_add] at hmat hsteps
    obtain ⟨hmn, _⟩ := hok s3 h
    subst hmn
    unfold launch at hl
    have hs : s = { s3 with w := s3.w.next, steps := s3.steps ++ [.launch] } := by
      split at hl
      · cases hl
        rfl
      · cases hl
    have hsteps2 : s.steps = st.steps ++ .configure_call ::
        (List.range' 1 st.args.length).map step.setup_argument ++ [.launch] := by
      rw [hs]
      simp [hsteps]
    refine ⟨hcall, by rw [hs]; exact hmat, hsteps2, ?_⟩
    intro x hx
    rw [hsteps2] at hx
    simp only [List.mem_append, List.mem_singleton, List.mem_map, List.mem_range'_1,
      List.mem_cons, List.not_mem_nil, or_false] at hx
    rcases hx with (hx | hx | ⟨j, ⟨hj1, hj2⟩, hx⟩) | hx
    · exact Or.inl hx
    · exact Or.inr (Or.inl hx)
    · exact Or.inr (Or.inr (Or.inr ⟨j, hj1, by omega, hx.symm⟩))
    · exact Or.inr (Or.inr (Or.inl hx))

/-- The propagation of C19 for the call `launch_fails`: the binding returns normally,
the launch fails, and the call fails with the launch error. -/
theorem failure_propagation_witness :
    launch_fails.k.number_of_parameters_ = (launch_fails.args.length : Int) ∧
    operator_call 7 launch_fails
      = .thrown .launch_error (operator_call 7 launch_fails).state :=
  ⟨rfl,
   ((failure_propagation 7 launch_fails rfl).2.2
      (setup_arguments 7 1 1
        { launch_fails with steps := launch_fails.steps ++ [.configure_call] }).state
      (operator_call 7 launch_fails).state .launch_error rfl rfl).1⟩

/-! ### C20: what a failed call leaves behind -/

/-- C20 fails as stated: in the call `launch_fails` the argument `vector(1, 5)` is
HostDirty, with no buffer and no recorded device; the binding returns normally, the
launch fails, and the container is left Synced, with the buffer allocated at address
0 and device 7 recorded: the materialisation of the binding step is not undone. -/
theorem failed_launch_leaves_argument_synced :
    launch_fails.args = [.container (vector.new_fill 1 5)] ∧
    HostDirty (vector.new_fill 1 (5 : Int)) ∧
    (vector.new_fill 1 (5 : Int)).memory_ = .null ∧
    (vector.new_fill 1 (5 : Int)).device_ptr_ = none ∧
    (∃ s, operator_call 7 launch_fails = .thrown .launch_error s ∧
      ∃ v, s.args = [.container v] ∧ Synced v ∧ v.host_changes_ = false ∧
        v.memory_ = .valid { dev := 7, address := 0, cells := [5] } ∧
        v.device_ptr_ = some 7) :=
  ⟨rfl, ⟨rfl, rfl⟩, rfl, rfl, _, rfl, _, rfl, ⟨rfl, rfl⟩, rfl, rfl, rfl⟩

/-- C20, amended: when a kernel call fails in the argument binding or in the launch,
the arguments are the ones of the call, position by position, each at most
materialised: a container has the same host buffer and the same `device_changes_`,
and `host_changes_` is not set where it was not (it may have been cleared by a
binding that returned before the failure); and an `update_device` that throws leaves
the host buffer, `host_changes_`, `device_changes_`, the recorded device and the
proxy flag as they were. -/
theorem failed_call_frame (d : device) (st s : call_state T) (e : error)
    (h : operator_call d st = .thrown e s)
    (he : e = .cuda_runtime_error ∨ e = .launch_error) :
    arguments_materialised_from s.args st.args ∧
    (∀ (j : Nat) (v : vector T), st.args[j]? = some (.container v) →
      ∃ v1, s.args[j]? = some (.container v1) ∧ v1.data_ = v.data_ ∧
        v1.device_changes_ = v.device_changes_ ∧
        (v.host_changes_ = false → v1.host_changes_ = false)) ∧
    (∀ (v : vector T) (w : world) (e1 : error) (s1 : cupp.st T),
      update_device d v w = .thrown e1 s1 →
      s1.1.data_ = v.data_ ∧ s1.1.host_changes_ = v.host_changes_ ∧
        s1.1.device_changes_ = v.device_changes_ ∧ s1.1.device_ptr_ = v.device_ptr_ ∧
        s1.1.proxy_invalid_ = v.proxy_invalid_) := by
  have hmat : arguments_materialised_from s.args st.args := by
    rcases operator_call_thrown_cases d st s e h with ⟨_, _, hs⟩ | ⟨_, hb | hl | hw⟩
    · rw [hs]
      exact arguments_materialised_from_refl _
    · obtain ⟨_, _, _, hm, _⟩ := setup_arguments_frame d st.args.length 0
        { st with steps := st.steps ++ [.configure_call] }
      have hb2 := hb.2
      simp only [Nat.zero_add] at hm
      rw [hb2] at hm
      exact hm
    · obtain ⟨_, s3, hb2, hl2⟩ := hl
      obtain ⟨_, _, _, hm, _⟩ := setup_arguments_frame d st.args.length 0
        { st with steps := st.steps ++ [.configure_call] }
      simp only [Nat.zero_add] at hm
      rw [hb2] at hm
      unfold launch at hl2
      split at hl2
      · cases hl2
        exact hm
      · cases hl2
    · rcases he with he | he
      · rw [he] at hw
        cases hw.1
      · rw [he] at hw
        cases hw.1
  refine ⟨hmat, fun j v hj => ?_, fun v w e1 s1 hu => ?_⟩
  · obtain ⟨b, hb, hab⟩ := hmat.2 j _ hj
    cases b with
    | pod x => simp [argument.materialised_from] at hab
    | container v1 =>
      simp only [argument.materialised_from, vector.materialised_from] at hab
      refine ⟨v1, hb, hab.1, hab.2.1, fun hf => ?_⟩
      cases hv : v1.host_changes_ with
      | false => rfl
      | true =>
        have := hab.2.2 hv
        rw [hf] at this
        cases this
  · obtain ⟨h1, h2, h3, h4, h5, _⟩ := update_device_thrown_frame d v w e1 s1 hu
    exact ⟨h1, h2, h3, h4, h5⟩

/-- The frame of C20 for the call `launch_fails`: the call fails with the launch error
and its argument still has the host buffer `[5]` and no pending device changes. -/
theorem failed_call_frame_witness :
    operator_call 7 launch_fails
      = .thrown .launch_error (operator_call 7 launch_fails).state ∧
    ∃ v1, (operator_call 7 launch_fails).state.args[0]? = some (.container v1) ∧
      v1.data_ = [5] ∧ v1.device_changes_ = false ∧
      ((vector.new_fill 1 (5 : Int)).host_changes_ = false → v1.host_changes_ = false) :=
  ⟨rfl,
   (failed_call_frame 7 launch_fails (operator_call 7 launch_fails).state .launch_error
      rfl (Or.inr rfl)).2.1 0 (vector.new_fill 1 5) rfl⟩

/-! ## The type binding -/

/-- The specialisation for `device_type&`: the binding of the referenced type. -/
theorem kernel_host_type_reference (decl : declarations) (t : cpp_type)
    (h : t.is_reference = true) :
    kernel_host_type decl t = kernel_host_type decl { t with is_reference := false } := by
  rw [kernel_host_type]
  simp [h, remove_reference]

/-- The specialisation for `device_type const`, when it is the only one that matches. -/
theorem kernel_host_type_const (decl : declarations) (t : cpp_type)
    (hr : t.is_reference = false) (hc : t.is_const = true) (hv : t.is_volatile = false) :
    kernel_host_type decl t = kernel_host_type decl { t with is_const := false } := by
  rw [kernel_host_type]
  simp [hr, hc, hv, remove_const]

/-- The specialisation for `device_type volatile`, when it is the only one that
matches. -/
theorem kernel_host_type_volatile (decl : declarations) (t : cpp_type)
    (hr : t.is_reference = false) (hc : t.is_const = false) (hv : t.is_volatile = true) :
    kernel_host_type decl t = kernel_host_type decl { t with is_volatile := false } := by
  rw [kernel_host_type]
  simp [hr, hc, hv, remove_volatile]

/-- An unqualified type is bound by the specialisation for the device container or
by the primary template. -/
theorem kernel_host_type_plain (decl : declarations) (b : base_type) :
    kernel_host_type decl (.plain b) =
      match b with
      | .deviceT_vector T => .type (.plain (.cupp_vector T))
      | b => get_type.host_type decl (is_pod decl b) b := by
  rw [kernel_host_type]
  simp [cpp_type.plain]

/-- A type that is not both `const` and `volatile` is bound like its unqualified
type. -/
theorem kernel_host_type_strip (decl : declarations) (t : cpp_type)
    (h : ¬ (t.is_const = true ∧ t.is_volatile = true)) :
    kernel_host_type decl t = kernel_host_type decl (.plain t.base) := by
  obtain ⟨b, c, v, r⟩ := t
  cases r <;> cases c <;> cases v <;> simp at h
  · rfl
  · rw [kernel_host_type_volatile decl _ rfl rfl rfl]
    rfl
  · rw [kernel_host_type_const decl _ rfl rfl rfl]
    rfl
  · rw [kernel_host_type_reference decl _ rfl]
    rfl
  · rw [kernel_host_type_reference decl _ rfl, kernel_host_type_volatile decl _ rfl rfl rfl]
    rfl
  · rw [kernel_host_type_reference decl _ rfl, kernel_host_type_const decl _ rfl rfl rfl]
    rfl

/-- A type that is both `const` and `volatile`, or a reference to one, has no binding:
two specialisations match. -/
theorem kernel_host_type_const_volatile (decl : declarations) (t : cpp_type)
    (hc : t.is_const = true) (hv : t.is_volatile = true) :
    kernel_host_type decl t = .ambiguous := by
  obtain ⟨b, c, v, r⟩ := t
  simp only at hc hv
  subst hc
  subst hv
  cases r
  · rw [kernel_host_type]
    simp
  · rw [kernel_host_type_reference decl _ rfl, kernel_host_type]
    simp

theorem kernel_device_type_reference (decl : declarations) (t : cpp_type)
    (h : t.is_reference = true) :
    kernel_device_type decl t = kernel_device_type decl { t with is_reference := false } := by
  rw [kernel_device_type]
  simp [h, remove_reference]

theorem kernel_device_type_const (decl : declarations) (t : cpp_type)
    (hr : t.is_reference = false) (hc : t.is_const = true) (hv : t.is_volatile = false) :
    kernel_device_type decl t = kernel_device_type decl { t with is_const := false } := by
  rw [kernel_device_type]
  simp [hr, hc, hv, remove_const]

theorem kernel_device_type_volatile (decl : declarations) (t : cpp_type)
    (hr : t.is_reference = false) (hc : t.is_const = false) (hv : t.is_volatile = true) :
    kernel_device_type decl t = kernel_device_type decl { t with is_volatile := false } := by
  rw [kernel_device_type]
  simp [hr, hc, hv, remove_volatile]

/-- An unqualified type is bound by the specialisation for the host container or by
the primary template. -/
theorem kernel_device_type_plain (decl : declarations) (b : base_type) :
    kernel_device_type decl (.plain b) =
      match b with
      | .cupp_vector T => .type (.plain (.deviceT_vector T))
      | b => get_type.device_type decl (is_pod decl b) b := by
  rw [kernel_device_type]
  simp [cpp_type.plain]

theorem kernel_device_type_strip (decl : declarations) (t : cpp_type)
    (h : ¬ (t.is_const = true ∧ t.is_volatile = true)) :
    kernel_device_type decl t = kernel_device_type decl (.plain t.base) := by
  obtain ⟨b, c, v, r⟩ := t
  cases r <;> cases c <;> cases v <;> simp at h
  · rfl
  · rw [kernel_device_type_volatile decl _ rfl rfl rfl]
    rfl
  · rw [kernel_device_type_const decl _ rfl rfl rfl]
    rfl
  · rw [kernel_device_type_reference decl _ rfl]
    rfl
  · rw [kernel_device_type_reference decl _ rfl, kernel_device_type_volatile decl _ rfl rfl rfl]
    rfl
  · rw [kernel_device_type_reference decl _ rfl, kernel_device_type_const decl _ rfl rfl rfl]
    rfl

theorem kernel_device_type_const_volatile (decl : declarations) (t : cpp_type)
    (hc : t.is_const = true) (hv : t.is_volatile = true) :
    kernel_device_type decl t = .ambiguous := by
  obtain ⟨b, c, v, r⟩ := t
  simp only at hc hv
  subst hc
  subst hv
  cases r
  · rw [kernel_device_type]
    simp
  · rw [kernel_device_type_reference decl _ rfl, kernel_device_type]
    simp

/-- C21 fails for a type that is both `const` and `volatile`: `int` is bound to `int`
in both directions, but `kernel_device_type<const volatile int>` and
`kernel_host_type<const volatile int>` match the specialisation for `const` and the
one for `volatile`, there is no specialisation for a type with both qualifiers,
and the instantiation is ambiguous: it names no type. -/
theorem const_volatile_binding_is_ambiguous :
    kernel_device_type declares_int int_type = .type int_type ∧
    kernel_host_type declares_int int_type = .type int_type ∧
    kernel_device_type declares_int const_volatile_int = .ambiguous ∧
    kernel_host_type declares_int const_volatile_int = .ambiguous := by
  refine ⟨?_, ?_, kernel_device_type_const_volatile _ _ rfl rfl,
    kernel_host_type_const_volatile _ _ rfl rfl⟩
  · rw [int_type, kernel_device_type_plain]
    simp [get_type.device_type, is_pod, declares_int]
  · rw [int_type, kernel_host_type_plain]
    simp [get_type.host_type, is_pod, declares_int]

/-- The identity mapping where it holds: for a type whose unqualified type is plain
old data, given without qualifiers, as a reference, `const` or `volatile`, or as a
reference to a `const` or to a `volatile` type, `kernel_device_type` and
`kernel_host_type` are the unqualified type. -/
theorem identity_mapping (decl : declarations) (t : cpp_type)
    (hp : is_pod decl t.base = true)
    (hq : ¬ (t.is_const = true ∧ t.is_volatile = true)) :
    kernel_device_type decl t = .type (.plain t.base) ∧
    kernel_host_type decl t = .type (.plain t.base) := by
  rw [kernel_device_type_strip decl t hq, kernel_host_type_strip decl t hq,
    kernel_device_type_plain, kernel_host_type_plain]
  cases hb : t.base with
  | named name =>
    rw [hb] at hp
    simp [get_type.device_type, get_type.host_type, hp]
  | cupp_vector T =>
    rw [hb] at hp
    simp [is_pod] at hp
  | deviceT_vector T =>
    rw [hb] at hp
    simp [is_pod] at hp

/-- The identity mapping for `const int&`: both bindings are `int`. -/
theorem identity_mapping_const_reference :
    is_pod declares_int const_int_reference.base = true ∧
    ¬ (const_int_reference.is_const = true ∧ const_int_reference.is_volatile = true) ∧
    kernel_device_type declares_int const_int_reference = .type int_type ∧
    kernel_host_type declares_int const_int_reference = .type int_type :=
  ⟨by decide, by decide,
   identity_mapping declares_int const_int_reference (by decide) (by decide)⟩

/-- C22 fails for a plain old data type that is both `const` and `volatile`: `int` is
plain old data and is bound to `int` in both directions, but for `const volatile int`
and for `const volatile int&` the bindings are ambiguous instantiations and not
`int`: the specialisations strip `const` and `volatile` one by one, and none
matches a type with both better than the other. -/
theorem identity_mapping_fails_for_const_volatile :
    is_pod declares_int const_volatile_int.base = true ∧
    kernel_device_type declares_int (.plain const_volatile_int.base) = .type int_type ∧
    kernel_host_type declares_int (.plain const_volatile_int.base) = .type int_type ∧
    kernel_device_type declares_int const_volatile_int ≠ .type int_type ∧
    kernel_host_type declares_int const_volatile_int ≠ .type int_type ∧
    kernel_device_type declares_int { const_volatile_int with is_reference := true }
      = .ambiguous ∧
    kernel_host_type declares_int { const_volatile_int with is_reference := true }
      = .ambiguous := by
  refine ⟨by decide, ?_, ?_, ?_, ?_, kernel_device_type_const_volatile _ _ rfl rfl,
    kernel_host_type_const_volatile _ _ rfl rfl⟩
  · rw [kernel_device_type_plain]
    simp [get_type.device_type, is_pod, declares_int, const_volatile_int, int_type]
  · rw [kernel_host_type_plain]
    simp [get_type.host_type, is_pod, declares_int, const_volatile_int, int_type]
  · rw [kernel_device_type_const_volatile _ _ rfl rfl]
    simp
  · rw [kernel_host_type_const_volatile _ _ rfl rfl]
    simp

/-- C30: for every element type `T`, a `cupp::vector<T>`, given without qualifiers, as
a reference or `const` (in any way but `const volatile`), is bound to the device type
`cupp::deviceT::vector<T>`, whose host type is `cupp::vector<T>` again; and a
`cupp::deviceT::vector<T>`, given in the same ways, is bound to the host type
`cupp::vector<T>`, whose device type is `cupp::deviceT::vector<T>` again. -/
theorem container_round_trip (decl : declarations) (T : base_type) (t : cpp_type)
    (hq : ¬ (t.is_const = true ∧ t.is_volatile = true)) :
    (t.base = .cupp_vector T →
      kernel_device_type decl t = .type (.plain (.deviceT_vector T)) ∧
      kernel_host_type decl (.plain (.deviceT_vector T)) = .type (.plain (.cupp_vector T))) ∧
    (t.base = .deviceT_vector T →
      kernel_host_type decl t = .type (.plain (.cupp_vector T)) ∧
      kernel_device_type decl (.plain (.cupp_vector T))
        = .type (.plain (.deviceT_vector T))) := by
  constructor
  · intro hb
    rw [kernel_device_type_strip decl t hq, hb, kernel_device_type_plain,
      kernel_host_type_plain]
    exact ⟨rfl, rfl⟩
  · intro hb
    rw [kernel_host_type_strip decl t hq, hb, kernel_device_type_plain,
      kernel_host_type_plain]
    exact ⟨rfl, rfl⟩

/-- The round trip of C30 for `const cupp::vector<int>&`: the device type is
`cupp::deviceT::vector<int>`, and its host type is `cupp::vector<int>`. -/
theorem container_round_trip_witness :
    ¬ (const_vector_reference.is_const = true ∧
        const_vector_reference.is_volatile = true) ∧
    kernel_device_type declares_int const_vector_reference
      = .type (.plain (.deviceT_vector (.named "int"))) ∧
    kernel_host_type declares_int (.plain (.deviceT_vector (.named "int")))
      = .type (.plain (.cupp_vector (.named "int"))) :=
  ⟨by decide,
   (container_round_trip declares_int (.named "int") const_vector_reference
      (by decide)).1 rfl⟩

/-! ## Further properties of the container -/

/-- C23: on a container without pending device changes (HostDirty or Synced),
`update_host` returns normally, calls no device primitive and leaves the container,
with its host buffer, flags, device buffer, recorded device and proxy flag, and the
device world as they were. -/
theorem update_host_noop (v : vector T) (w : world) (h : v.device_changes_ = false) :
    update_host v w = .ok () (v, w) ∧ performed w (update_host v w) = [] ∧
    (update_host v w).state.1 = v := by
  have heq : update_host v w = .ok () (v, w) := by simp [update_host, h]
  rw [heq]
  exact ⟨rfl, by simp [performed, outcome.state], rfl⟩

/-- The no-op of C23 on the HostDirty container `vector(1, 5)`. -/
theorem update_host_noop_witness :
    (vector.new_fill 1 (5 : Int)).device_changes_ = false ∧
    update_host (vector.new_fill 1 (5 : Int)) world.fresh
      = .ok () (vector.new_fill 1 5, world.fresh) :=
  ⟨rfl, (update_host_noop (vector.new_fill 1 (5 : Int)) world.fresh rfl).1⟩

/-- The default, fill and range constructors yield a container in the initial
state, which is HostDirty without device buffer and proxy and with `proxy_invalid_`
false; the copy constructor as it is meant (`vector.new_copy`), when the sync of its
argument returns, yields a container in the initial state with the host buffer of
the synced argument, and it returns normally for every argument without pending
device changes. -/
theorem constructors_initial_state :
    initial_state (vector.new : vector T) ∧
    (∀ (num : Nat) (val : T), initial_state (vector.new_fill num val)) ∧
    (∀ xs : List T, initial_state (vector.new_range xs)) ∧
    (∀ (c c1 : vector T) (w : world) (s : st T), vector.new_copy c w = .ok c1 s →
      initial_state s.1 ∧ s.1.data_ = c1.data_ ∧ update_host c w = .ok () (c1, s.2)) ∧
    (∀ (c : vector T) (w : world), c.device_changes_ = false →
      ∃ v, vector.new_copy c w = .ok c (v, w) ∧ v.data_ = c.data_) := by
  refine ⟨⟨⟨rfl, rfl⟩, rfl, rfl, rfl⟩, fun _ _ => ⟨⟨rfl, rfl⟩, rfl, rfl, rfl⟩,
    fun _ => ⟨⟨rfl, rfl⟩, rfl, rfl, rfl⟩, fun c c1 w s h => ?_, fun c w hc => ?_⟩
  · unfold vector.new_copy at h
    split at h
    · rename_i u s0 heq
      cases h
      exact ⟨⟨⟨rfl, rfl⟩, rfl, rfl, rfl⟩, rfl, heq⟩
    · cases h
    · cases h
  · have heq : update_host c w = .ok () (c, w) := by simp [update_host, hc]
    unfold vector.new_copy
    rw [heq]
    exact ⟨_, rfl, rfl⟩

/-- The copy constructor as it is meant on the DeviceDirty container of the scenario:
the new container is in the initial state and has the synced host buffer `[43]`. -/
theorem constructors_initial_state_example :
    vector.new_copy (scenario_device_dirty 7).1 (scenario_device_dirty 7).2
      = .ok (update_host (scenario_device_dirty 7).1 (scenario_device_dirty 7).2).state.1
          (vector.new_copy (scenario_device_dirty 7).1 (scenario_device_dirty 7).2).state ∧
    initial_state
      (vector.new_copy (scenario_device_dirty 7).1 (scenario_device_dirty 7).2).state.1 ∧
    (vector.new_copy (scenario_device_dirty 7).1 (scenario_device_dirty 7).2).state.1.data_
      = [43] :=
  ⟨rfl,
   ((@constructors_initial_state Int).2.2.2.1 (scenario_device_dirty 7).1 _
      (scenario_device_dirty 7).2 _ rfl).1, rfl⟩

/-- C24 fails for the copy constructor: the default, fill and range constructors have
an empty body and yield a container in the initial state, but of the two statements
of the body of the copy constructor the second, `data_(c);`, calls a function call
operator that `std::vector` does not declare; the constructor cannot be
instantiated, and copying a container yields no container at all. -/
theorem copy_constructor_ill_formed :
    copy_constructor_body.map call_statement.well_formed = [true, false] ∧
    instantiable copy_constructor_body = false ∧
    instantiable [] = true ∧
    initial_state (vector.new : vector Int) ∧
    initial_state (vector.new_fill 1 (5 : Int)) ∧
    initial_state (vector.new_range [42, 9] : vector Int) :=
  ⟨by decide, by decide, by decide, ⟨⟨rfl, rfl⟩, rfl, rfl, rfl⟩, ⟨⟨rfl, rfl⟩, rfl, rfl, rfl⟩,
    ⟨⟨rfl, rfl⟩, rfl, rfl, rfl⟩⟩

/-- C25: with `s0` the state after the sync that both accesses start with, and `i`
an index of the synced host buffer: the read through `v[i]` returns element `i` of
the synced buffer in state `s0`, in which `host_changes_` is what it was; on a Synced
container it changes nothing, the container stays Synced and the next
`update_device` for the recorded device returns at once without a device call.  The
write `v[i] = x` returns with `host_changes_` set and with the synced buffer in which
element `i` is `x`: the other elements and the length are the same. -/
theorem element_proxy_read_write (i : Nat) (x : T) (v : vector T) (w : world) (s0 : st T)
    (hs : update_host v w = .ok () s0) (hi : i < s0.1.data_.length) :
    (∃ y, s0.1.data_[i]? = some y ∧ element_proxy.read i v w = .ok y s0) ∧
    s0.1.host_changes_ = v.host_changes_ ∧
    (Synced v → s0 = (v, w) ∧
      ∀ d, some d = v.device_ptr_ →
        update_device d s0.1 s0.2 = .ok () s0 ∧
        performed s0.2 (update_device d s0.1 s0.2) = []) ∧
    (∃ s, element_proxy.assign i x v w = .ok () s ∧ s.2 = s0.2 ∧
      s.1.host_changes_ = true ∧ s.1.data_[i]? = some x ∧
      (∀ j, j ≠ i → s.1.data_[j]? = s0.1.data_[j]?) ∧
      s.1.data_.length = s0.1.data_.length) := by
  refine ⟨?_, ?_, ?_, ?_⟩
  · refine ⟨s0.1.data_[i], List.getElem?_eq_getElem hi, ?_⟩
    unfold element_proxy.read
    rw [hs]
    simp [outcome.bind, List.getElem?_eq_getElem hi]
  · have := update_host_host_flag v w
    rw [hs] at this
    exact this
  · intro hsy
    have heq : update_host v w = .ok () (v, w) := update_host_of_clean v w hsy.2
    rw [heq] at hs
    cases hs
    refine ⟨rfl, fun d hd => ?_⟩
    have hidle : update_device d v w = .ok () (v, w) := by
      apply update_device_idle
      rintro (h1 | h1)
      · rw [hsy.1] at h1
        cases h1
      · exact h1 hd
    rw [hidle]
    exact ⟨rfl, by simp [performed, outcome.state]⟩
  · refine ⟨({ s0.1 with host_changes_ := true, data_ := s0.1.data_.set i x }, s0.2), ?_,
      rfl, rfl, ?_, fun j hj => ?_, ?_⟩
    · unfold element_proxy.assign
      rw [hs]
      simp [outcome.bind, hi]
    · simp [List.getElem?_set_self hi]
    · exact List.getElem?_set_ne (fun h => hj h.symm)
    · simp

/-- The accesses of C25 on the Synced container of the scenario: `v[0]` reads 42 and
leaves the state as it is; `v[0] = 7` leaves the buffer `[7]`. -/
theorem element_proxy_read_write_witness :
    update_host (scenario_synced 7).1 (scenario_synced 7).2 = .ok () (scenario_synced 7) ∧
    0 < (scenario_synced 7).1.data_.length ∧
    (∃ y, (scenario_synced 7).1.data_[0]? = some y ∧
      element_proxy.read 0 (scenario_synced 7).1 (scenario_synced 7).2
        = .ok y (scenario_synced 7)) ∧
    (element_proxy.assign 0 7 (scenario_synced 7).1 (scenario_synced 7).2).state.1.data_
      = [7] :=
  ⟨rfl, by decide,
   (element_proxy_read_write 0 7 (scenario_synced 7).1 (scenario_synced 7).2
      (scenario_synced 7) rfl (by decide)).1, rfl⟩

/-- C27: on a container with pending device changes, `update_device(d)` calls no
device primitive, so it neither allocates nor copies to the device; it returns
normally with the container and the device world unchanged when `host_changes_` is
false and `d` is the recorded device, and it stops at the failed assertion, again
with everything unchanged, otherwise.  A DeviceDirty container whose proxy is
current is passed to the next kernel call on the same device without a device call
at all. -/
theorem device_data_not_overwritten (d : device) (v : vector T) (w : world)
    (hd : v.device_changes_ = true) :
    performed w (update_device d v w) = [] ∧
    allocates_or_copies d v w = false ∧
    (update_device d v w).state = (v, w) ∧
    (v.host_changes_ = false ∧ some d = v.device_ptr_ →
      update_device d v w = .ok () (v, w)) ∧
    (¬ (v.host_changes_ = false ∧ some d = v.device_ptr_) →
      update_device d v w = .aborted .assertion_failed (v, w)) ∧
    (∀ (m : memory1d T) (p : memory1d deviceT.vector),
      v.host_changes_ = false → some d = v.device_ptr_ → v.memory_ = .valid m →
      v.proxy_invalid_ = false → v.device_proxy_ = .valid p →
      get_device_based_device_copy d v w = .ok p.address (v, w)) := by
  have hidle : v.host_changes_ = false ∧ some d = v.device_ptr_ →
      update_device d v w = .ok () (v, w) := by
    rintro ⟨h1, h2⟩
    apply update_device_idle
    rintro (h | h)
    · rw [h1] at h
      cases h
    · exact h h2
  have hassert : ¬ (v.host_changes_ = false ∧ some d = v.device_ptr_) →
      update_device d v w = .aborted .assertion_failed (v, w) := by
    intro h
    apply update_device_assertion d v w _ hd
    by_contra hn
    apply h
    constructor
    · cases hh : v.host_changes_ with
      | false => rfl
      | true => exact absurd (Or.inl hh) hn
    · by_contra hne
      exact hn (Or.inr hne)
  have hstate : (update_device d v w).state = (v, w) := by
    by_cases h : v.host_changes_ = false ∧ some d = v.device_ptr_
    · rw [hidle h]
      rfl
    · rw [hassert h]
      rfl
  have hperf : performed w (update_device d v w) = [] := by
    unfold performed
    rw [hstate]
    simp
  refine ⟨hperf, ?_, hstate, hidle, hassert, fun m p h1 h2 hm hpi hp => ?_⟩
  · unfold allocates_or_copies
    rw [hperf]
    rfl
  · unfold get_device_based_device_copy get_host_based_device_copy
    rw [hidle ⟨h1, h2⟩]
    simp [outcome.bind, hm, rebuild_proxy, hpi, hp]

/-- The guard of C27 on the DeviceDirty container of the scenario: the next
materialisation on device 7 returns at once, the one on device 8 stops at the
assertion, and neither calls a device primitive. -/
theorem device_data_not_overwritten_witness :
    (scenario_device_dirty 7).1.device_changes_ = true ∧
    update_device 7 (scenario_device_dirty 7).1 (scenario_device_dirty 7).2
      = .ok () (scenario_device_dirty 7) ∧
    update_device 8 (scenario_device_dirty 7).1 (scenario_device_dirty 7).2
      = .aborted .assertion_failed (scenario_device_dirty 7) ∧
    performed (scenario_device_dirty 7).2
      (update_device 8 (scenario_device_dirty 7).1 (scenario_device_dirty 7).2) = [] :=
  ⟨rfl, rfl, rfl,
   (device_data_not_overwritten 8 (scenario_device_dirty 7).1 (scenario_device_dirty 7).2
      rfl).1⟩

/-! ## Positions and tokens in a call -/

/-- With the position inside the dirty table, the token table and the argument list,
`handle_call_traits` does not stop at an access outside a table. -/
theorem handle_call_traits_not_aborted (i : Nat) (st : call_state T) (h1 : 1 ≤ i)
    (hd : i ≤ st.k.dirty.length) (hr : i ≤ st.k.returnee_vec_.length)
    (ha : i ≤ st.args.length) (f : fault) (s : call_state T) :
    handle_call_traits i st ≠ .aborted f s := by
  intro h
  unfold handle_call_traits at h
  split at h
  · rename_i hnone
    rw [List.getElem?_eq_none_iff] at hnone
    omega
  · cases h
  · split at h
    · rename_i hnone
      rw [List.getElem?_eq_none_iff] at hnone
      omega
    · cases h
    · split at h
      · rename_i hnone
        rw [List.getElem?_eq_none_iff] at hnone
        omega
      · cases h
      · simp only [dirty] at h
        cases h

theorem handle_arguments_not_aborted (n : Nat) :
    ∀ (p : Nat) (st : call_state T), p + n ≤ st.k.dirty.length →
      p + n ≤ st.k.returnee_vec_.length → p + n ≤ st.args.length →
      ∀ (f : fault) (s : call_state T), handle_arguments (p + 1) n st ≠ .aborted f s := by
  induction n with
  | zero =>
    intro p st _ _ _ f s h
    simp [handle_arguments] at h
  | succ n ih =>
    intro p st hd hr ha f s h
    simp only [handle_arguments] at h
    cases hc : handle_call_traits (p + 1) st with
    | ok u s1 =>
      rw [hc] at h
      simp only [outcome.bind] at h
      obtain ⟨hk, _, hlen, _, _⟩ := handle_call_traits_ok (p + 1) st s1 hc
      exact ih (p + 1) s1 (by rw [hk]; omega) (by rw [hk]; omega) (by rw [hlen]; omega) f s h
    | thrown e s1 =>
      rw [hc] at h
      simp [outcome.bind] at h
    | aborted g s1 =>
      exact handle_call_traits_not_aborted (p + 1) st (by omega) (by omega) (by omega)
        (by omega) g s1 hc

/-- After a normal return of the binding loop for the positions `p + 1, .., p + n`,
entered with `p` tokens in the table, the table has `p + n` tokens, and the token at
index `i - 1` of each position `i` of the range is the value that `setup_argument`
returned for position `i`, called on the argument of the call at that position. -/
theorem setup_arguments_tokens (d : device) (n : Nat) :
    ∀ (p : Nat) (st s : call_state T), setup_arguments d (p + 1) n st = .ok () s →
      st.k.returnee_vec_.length = p →
      s.k.returnee_vec_.length = p + n ∧
      ∀ t, t < n → ∃ (s0 s1 : call_state T) (token : boost_any),
        setup_argument d (p + t + 1) s0 = .ok token s1 ∧
        s0.args[p + t]? = st.args[p + t]? ∧
        s.k.returnee_vec_[p + t]? = some token := by
  induction n with
  | zero =>
    intro p st s h hp
    simp only [setup_arguments, outcome.ok.injEq, true_and] at h
    subst h
    exact ⟨by omega, fun t ht => absurd ht (Nat.not_lt_zero t)⟩
  | succ n ih =>
    intro p st s h hp
    simp only [setup_arguments] at h
    rw [bind_eq_ok] at h
    obtain ⟨token, s1, hsa, hrest⟩ := h
    obtain ⟨hk, _, _, hother, _⟩ := setup_argument_frame d (p + 1) st
    rw [hsa] at hk hother
    simp only [outcome.state] at hk hother
    have hlen1 : (s1.k.returnee_vec_ ++ [token]).length = p + 1 := by
      rw [hk]
      simp [hp]
    obtain ⟨hlen, htok⟩ := ih (p + 1) _ s hrest hlen1
    obtain ⟨toks, _, happ, _, _⟩ := setup_arguments_ok d n (p + 1) _ s hrest
    refine ⟨by omega, fun t ht => ?_⟩
    cases t with
    | zero =>
      refine ⟨st, s1, token, hsa, rfl, ?_⟩
      rw [happ]
      simp only [Nat.add_zero]
      rw [List.getElem?_append_left (by rw [hlen1]; omega), hk,
        List.getElem?_append_right (by omega)]
      simp [hp]
    | succ t =>
      obtain ⟨s0, s2, tok, h0, hargs, hget⟩ := htok t (by omega)
      refine ⟨s0, s2, tok, ?_, ?_, ?_⟩
      · have : p + (t + 1) + 1 = p + 1 + t + 1 := by omega
        rw [this]
        exact h0
      · have : p + (t + 1) = p + 1 + t := by omega
        rw [this, hargs]
        exact hother (p + 1 + t) (by omega)
      · have : p + (t + 1) = p + 1 + t := by omega
        rw [this]
        exact hget

/-- The binding loop for `a + b` positions is the loop for the first `a` positions
followed by the loop for the next `b`. -/
theorem setup_arguments_split (d : device) (a : Nat) :
    ∀ (b p : Nat) (st : call_state T),
      setup_arguments d p (a + b) st
        = (setup_arguments d p a st).bind fun _ s => setup_arguments d (p + a) b s := by
  induction a with
  | zero =>
    intro b p st
    simp [setup_arguments, outcome.bind]
  | succ a ih =>
    intro b p st
    have hab : a + 1 + b = (a + b) + 1 := by omega
    rw [hab]
    simp only [setup_arguments]
    rw [bind_assoc]
    congr
    funext token s
    rw [ih]
    have hp : p + 1 + a = p + (a + 1) := by omega
    rw [hp]

/-- In a binding loop for the positions `1, .., n` that returns normally, entered with
an empty token table, position `i` is bound in the state `s0` that the loop for the
positions before it has left, in which the argument at the position is still the
one of the call; `setup_argument` returns a token there, the loop goes on with the
token pushed, and at its end the token is at index `i - 1` of the table. -/
theorem setup_arguments_position (d : device) (n : Nat) (st s3 : call_state T)
    (h : setup_arguments d 1 n st = .ok () s3) (hr : st.k.returnee_vec_ = [])
    (i : Nat) (h1 : 1 ≤ i) (h2 : i ≤ n) :
    ∃ (s0 s1 : call_state T) (token : boost_any),
      setup_arguments d 1 (i - 1) st = .ok () s0 ∧
      setup_argument d i s0 = .ok token s1 ∧
      setup_arguments d (i + 1) (n - i)
        { s1 with k := { s1.k with returnee_vec_ := s1.k.returnee_vec_ ++ [token] } }
        = .ok () s3 ∧
      s0.args[i - 1]? = st.args[i - 1]? ∧
      s0.k.returnee_vec_.length = i - 1 ∧
      s3.k.returnee_vec_[i - 1]? = some token := by
  have hn : n = (i - 1) + ((n - i) + 1) := by omega
  rw [hn, setup_arguments_split, bind_eq_ok] at h
  obtain ⟨_, s0, hpre, hrest⟩ := h
  have hi : 1 + (i - 1) = i := by omega
  rw [hi] at hrest
  simp only [setup_arguments] at hrest
  rw [bind_eq_ok] at hrest
  obtain ⟨token, s1, hsa, hsuf⟩ := hrest
  have hpre1 : setup_arguments d (0 + 1) (i - 1) st = .ok () s0 := by simpa using hpre
  obtain ⟨hlen0, _⟩ := setup_arguments_tokens d (i - 1) 0 st s0 hpre1 (by simp [hr])
  obtain ⟨_, _, _, hargs, _⟩ := setup_arguments_ok d (i - 1) 0 st s0 hpre1
  obtain ⟨hk, _⟩ := setup_argument_frame d i s0
  rw [hsa] at hk
  simp only [outcome.state] at hk
  obtain ⟨toks, _, happ, _⟩ := setup_arguments_ok d (n - i) i _ s3 hsuf
  simp only [Nat.zero_add] at hlen0
  refine ⟨s0, s1, token, hpre, hsa, hsuf, hargs (i - 1) (Or.inr (by omega)), hlen0, ?_⟩
  · rw [happ]
    simp only [hk]
    rw [List.getElem?_append_left (by simp [hlen0]),
      List.getElem?_append_right (by omega)]
    simp [hlen0]

/-- C28: in a call with `N` arguments of a kernel of arity `N` whose dirty table has
length `N`, entered with an empty token table: whatever the outcome of the binding
loop, its trace is the `setup_argument` steps of the positions `1, .., m` in
increasing order, for some `m <= N`.  When the binding and the launch return, all `N`
positions have been bound in this order, the token table has length `N` like the
dirty table, and for each position `i`: with `s0` the state in which the call binds
position `i`, the one that the binding of the positions `1, .., i - 1` has left, the
argument at position `i` is still the one of the call, `setup_argument(d, p_i, i)`
returns a token in `s0`, the binding of the positions after `i` goes on from there
with the token pushed, and this token is the entry at index `i - 1` of the token
table; every index `i - 1` with `1 <= i <= N` is inside both tables, and the
write-back loop does not stop at an access outside a table. -/
theorem index_safety (d : device) (st : call_state T)
    (hd : st.k.dirty.length = st.args.length)
    (hn : st.k.number_of_parameters_ = (st.args.length : Int))
    (hr : st.k.returnee_vec_ = []) :
    (∃ m, m ≤ st.args.length ∧
      (setup_arguments d 1 st.args.length
          { st with steps := st.steps ++ [.configure_call] }).state.steps
        = st.steps ++ .configure_call :: (List.range' 1 m).map step.setup_argument) ∧
    (∀ s3 s4 : call_state T,
      setup_arguments d 1 st.args.length
        { st with steps := st.steps ++ [.configure_call] } = .ok () s3 →
      launch s3 = .ok () s4 →
      s4.steps = st.steps ++ .configure_call ::
          (List.range' 1 st.args.length).map step.setup_argument ++ [.launch] ∧
      s4.k.dirty.length = st.args.length ∧
      s4.k.returnee_vec_.length = st.args.length ∧
      (∀ i, 1 ≤ i → i ≤ st.args.length →
        (∃ (s0 s1 : call_state T) (token : boost_any),
          setup_arguments d 1 (i - 1)
            { st with steps := st.steps ++ [.configure_call] } = .ok () s0 ∧
          setup_argument d i s0 = .ok token s1 ∧
          setup_arguments d (i + 1) (st.args.length - i)
            { s1 with k := { s1.k with returnee_vec_ := s1.k.returnee_vec_ ++ [token] } }
            = .ok () s3 ∧
          s0.args[i - 1]? = st.args[i - 1]? ∧
          s0.k.returnee_vec_.length = i - 1 ∧
          s4.k.returnee_vec_[i - 1]? = some token) ∧
        (∃ b, s4.k.dirty[i - 1]? = some b) ∧
        i - 1 < s4.k.dirty.length ∧ i - 1 < s4.k.returnee_vec_.length) ∧
      (∀ (f : fault) (s : call_state T),
        handle_arguments 1 st.args.length s4 ≠ .aborted f s) ∧
      ((∃ s, operator_call d st = .ok () s) ∨
        ∃ s, operator_call d st = .thrown .bad_any_cast s)) := by
  obtain ⟨_, _, hkd, _, m, toks0, hm, hsteps, _, hok, _⟩ :=
    setup_arguments_frame d st.args.length 0
      { st with steps := st.steps ++ [.configure_call] }
  simp only [Nat.zero_add] at hkd hsteps hok
  refine ⟨⟨m, hm, by simp [hsteps]⟩, fun s3 s4 hsetup hlaunch => ?_⟩
  rw [hsetup] at hkd hsteps
  simp only [outcome.state] at hkd hsteps
  obtain ⟨hmn, _⟩ := hok s3 hsetup
  subst hmn
  obtain ⟨hlen, htok⟩ :=
    setup_arguments_tokens d st.args.length 0
      { st with steps := st.steps ++ [.configure_call] } s3 (by simpa using hsetup)
      (by simp [hr])
  simp only [Nat.zero_add] at hlen htok
  have hs4 : s4 = { s3 with w := s3.w.next, steps := s3.steps ++ [.launch] } := by
    unfold launch at hlaunch
    split at hlaunch
    · cases hlaunch
    · cases hlaunch
      rfl
  have hargs3 : s3.args.length = st.args.length := by
    have h := (setup_arguments_frame d st.args.length 0
      { st with steps := st.steps ++ [.configure_call] }).2.2.2.1.1
    simp only [Nat.zero_add] at h
    rw [hsetup] at h
    exact h
  have hk4 : s4.k = s3.k := by rw [hs4]
  have hdl : s4.k.dirty.length = st.args.length := by rw [hk4, hkd, hd]
  have hrl : s4.k.returnee_vec_.length = st.args.length := by rw [hk4, hlen]
  have hnab : ∀ (f : fault) (s : call_state T),
      handle_arguments 1 st.args.length s4 ≠ .aborted f s :=
    handle_arguments_not_aborted st.args.length 0 s4 (by omega) (by omega)
      (by rw [hs4]; simp only [Nat.zero_add]; omega)
  refine ⟨by rw [hs4]; simp [hsteps], hdl, hrl, fun i h1 h2 => ⟨?_, ?_, by omega, by omega⟩,
    hnab, ?_⟩
  · obtain ⟨s0, s1, token, hpre, hsa, hsuf, ha, hl0, hget⟩ :=
      setup_arguments_position d st.args.length
        { st with steps := st.steps ++ [.configure_call] } s3 hsetup hr i h1 h2
    exact ⟨s0, s1, token, hpre, hsa, hsuf, ha, hl0, by rw [hk4]; exact hget⟩
  · exact ⟨s4.k.dirty[i - 1], List.getElem?_eq_getElem (by omega)⟩
  · have hcall : operator_call d st
        = (handle_arguments 1 st.args.length s4).bind fun _ s5 =>
            .ok () (if st.args.length = 0 then s5
                    else { s5 with k := { s5.k with returnee_vec_ := [] } }) := by
      simp [operator_call, check_number_of_parameters, hn, configure_call, outcome.bind,
        hsetup, hlaunch]
    rw [hcall]
    cases hh : handle_arguments 1 st.args.length s4 with
    | ok u s5 => exact Or.inl ⟨_, rfl⟩
    | thrown e s5 =>
      have he := handle_arguments_thrown st.args.length 1 s4 s5 e hh
      subst he
      exact Or.inr ⟨_, rfl⟩
    | aborted f s5 => exact absurd hh (hnab f s5)

/-- The positions of C28 in the call of `arity_three_kernel` with three containers:
the token table after the binding holds the handles of the three proxies, in the
order of the arguments. -/
theorem index_safety_witness :
    arity_three_kernel.dirty.length = three_containers.length ∧
    (launch (setup_arguments 7 1 3
        { arity_three_call three_containers with
          steps := [.configure_call] }).state).state.k.returnee_vec_
      = [.device_reference 7 1, .device_reference 7 3, .device_reference 7 5] ∧
    ∀ (f : fault) (s : call_state Int),
      handle_arguments 1 3
        (launch (setup_arguments 7 1 3
          { arity_three_call three_containers with
            steps := [.configure_call] }).state).state ≠ .aborted f s :=
  ⟨rfl, rfl,
   ((index_safety 7 (arity_three_call three_containers) rfl rfl rfl).2
      (setup_arguments 7 1 3
        { arity_three_call three_containers with steps := [.configure_call] }).state
      (launch (setup_arguments 7 1 3
        { arity_three_call three_containers with
          steps := [.configure_call] }).state).state rfl rfl).2.2.2.2.1⟩

/-! ## The pointers of the container -/

theorem pointers_present_of_keeps (v1 v : vector T) (hk : v1.keeps_pointers v)
    (h : pointers_present v) : pointers_present v1 := by
  obtain ⟨hm, hpi, hp, hh⟩ := hk
  unfold pointers_present
  rw [hm, hpi, hp]
  exact ⟨fun hf => h.1 (hh hf), h.2⟩

theorem update_host_keeps_pointers (v : vector T) (w : world) :
    (update_host v w).state.1.keeps_pointers v := by
  unfold update_host vector.keeps_pointers
  repeat' split
  all_goals simp [outcome.state]

/-- A member function that syncs first and whose rest leaves the pointers alone and
clears no pending host change leaves the pointers as they were. -/
theorem keeps_pointers_sync_then {α : Type} (v : vector T) (w : world)
    (f : Unit → st T → outcome (st T) α)
    (hf : ∀ s, (f () s).state.1.keeps_pointers s.1) :
    ((update_host v w).bind f).state.1.keeps_pointers v := by
  refine bind_state_ind (fun s : st T => s.1.keeps_pointers v) _ _ ?_ ?_
  · exact update_host_keeps_pointers v w
  · intro a s hs
    have h0 := update_host_keeps_pointers v w
    rw [hs] at h0
    simp only [outcome.state] at h0
    obtain ⟨h1, h2, h3, h4⟩ := hf s
    obtain ⟨g1, g2, g3, g4⟩ := h0
    exact ⟨h1.trans g1, h2.trans g2, h3.trans g3, fun h => g4 (h4 h)⟩

theorem pointers_present_update_device (d : device) (v : vector T) (w : world)
    (h : pointers_present v) : pointers_present (update_device d v w).state.1 := by
  obtain ⟨h1, h2⟩ := h
  unfold update_device install_memory memory1d.create memory1d.copy_to_device
  unfold pointers_present
  dsimp only
  repeat' split
  all_goals simp_all [outcome.state]

theorem pointers_present_get_host_based_device_copy (d : device) (v : vector T) (w : world)
    (h : pointers_present v) :
    pointers_present (get_host_based_device_copy d v w).state.1 := by
  unfold get_host_based_device_copy
  refine bind_state_ind (fun s : st T => pointers_present s.1) _ _ ?_ ?_
  · exact pointers_present_update_device d v w h
  · intro a s hs
    have h1 := pointers_present_update_device d v w h
    rw [hs] at h1
    split <;> exact h1

theorem pointers_present_rebuild_proxy (d : device) (r : deviceT.vector) (s : st T)
    (h : pointers_present s.1) : pointers_present (rebuild_proxy d r s).state.1 := by
  obtain ⟨h1, h2⟩ := h
  unfold rebuild_proxy pointer.delete memory1d.create
  unfold pointers_present
  dsimp only
  repeat' split
  all_goals simp_all [outcome.state]

theorem pointers_present_get_device_based_device_copy (d : device) (v : vector T)
    (w : world) (h : pointers_present v) :
    pointers_present (get_device_based_device_copy d v w).state.1 := by
  unfold get_device_based_device_copy
  refine bind_state_ind (fun s : st T => pointers_present s.1) _ _ ?_ ?_
  · exact pointers_present_get_host_based_device_copy d v w h
  · intro r s hs
    have h1 := pointers_present_get_host_based_device_copy d v w h
    rw [hs] at h1
    simp only [outcome.state] at h1
    have h3 := pointers_present_rebuild_proxy d r s h1
    refine bind_state_ind (fun s : st T => pointers_present s.1) _ _ h3 ?_
    intro a s1 hs1
    rw [hs1] at h3
    split <;> exact h3

/-- Every public call, whatever its outcome, keeps the pointers present. -/
theorem pointers_present_run (o : op T) (v : vector T) (w : world)
    (h : pointers_present v) : pointers_present (o.run v w).state.1 := by
  cases o
  case update_host =>
    exact pointers_present_of_keeps _ v (update_host_keeps_pointers v w) h
  case update_device d => exact pointers_present_update_device d v w h
  case get_host_based_device_copy d =>
    simpa [op.run] using pointers_present_get_host_based_device_copy d v w h
  case get_device_based_device_copy d =>
    simpa [op.run] using pointers_present_get_device_based_device_copy d v w h
  case dirty d hh =>
    exact pointers_present_of_keeps _ v ⟨rfl, rfl, rfl, fun hf => hf⟩ h
  case operator_assign c2 =>
    apply pointers_present_of_keeps _ v _ h
    simp only [op.run, discard_state, operator_assign]
    split <;> simp [vector.keeps_pointers, outcome.state]
  case begin_const => simpa [op.run, begin_const, outcome.state] using h
  case assign num val =>
    exact pointers_present_of_keeps _ v
      (by simp [op.run, assign, vector.keeps_pointers, outcome.state]) h
  case assign_range xs =>
    exact pointers_present_of_keeps _ v
      (by simp [op.run, assign_range, vector.keeps_pointers, outcome.state]) h
  case clear =>
    exact pointers_present_of_keeps _ v
      (by simp [op.run, clear, vector.keeps_pointers, outcome.state]) h
  all_goals
    apply pointers_present_of_keeps _ v _ h
    simp only [op.run, discard_state, element_proxy.read, operator_index_const,
      element_proxy.assign, push_back, pop_back, resize, insert, insert_n, insert_range,
      erase, erase_range, assign, assign_range, clear, begin_, end_, end_const]
  all_goals
    apply keeps_pointers_sync_then v w
    intro s
    (repeat' split) <;> simp [vector.keeps_pointers, outcome.state]

theorem pointers_present_device_store (i : Nat) (x : T) (v : vector T)
    (h : pointers_present v) : pointers_present (device_store i x v) := by
  obtain ⟨h1, h2⟩ := h
  unfold device_store pointers_present
  split
  · rename_i m hm
    simp only [hm] at h1 h2
    exact ⟨fun _ => by simp, fun hp _ => h2 hp (by simp)⟩
  · exact ⟨h1, h2⟩

/-- In every state of the transition system `reachable`, with the calls that throw,
the pointers are present. -/
theorem reachable_pointers_present (g : Bool) (s : st T) (h : reachable g s) :
    pointers_present s.1 := by
  induction h with
  | new w => simp [pointers_present, vector.new]
  | new_fill num val w => simp [pointers_present, vector.new_fill]
  | new_range xs w => simp [pointers_present, vector.new_range]
  | new_copy c c1 w s h =>
    unfold vector.new_copy at h
    split at h
    · cases h
      simp [pointers_present]
    · cases h
    · cases h
  | returned o s s1 _ _ hrun ih =>
    have h1 := pointers_present_run o s.1 s.2 ih
    rw [hrun] at h1
    exact h1
  | threw o e s s1 _ _ hrun ih =>
    have h1 := pointers_present_run o s.1 s.2 ih
    rw [hrun] at h1
    exact h1
  | kernel_store i x s _ ih => exact pointers_present_device_store i x s.1 ih

/-- C29: in every state that is reached from a constructor through public calls that
return normally or throw (and kernel stores into the mirror), a container that has
a device buffer has `proxy_invalid_` set or a proxy; where
`get_host_based_device_copy` dereferences `memory_`, after `update_device` has
returned, `memory_` is not null; where `get_device_based_device_copy` dereferences
`device_proxy_`, after the buffer has been taken and the proxy rebuilt, the proxy is
a live object; and in a state reached through calls that all returned normally the
buffer dereferenced is a live object as well. -/
theorem proxy_presence (g : Bool) (s : st T) (h : reachable g s) :
    (s.1.memory_ ≠ .null → s.1.proxy_invalid_ = true ∨ s.1.device_proxy_ ≠ .null) ∧
    (∀ (d : device) (s1 : st T), update_device d s.1 s.2 = .ok () s1 →
      s1.1.memory_ ≠ .null) ∧
    (∀ (d : device) (r : deviceT.vector) (s0 s1 : st T),
      get_host_based_device_copy d s.1 s.2 = .ok r s0 → rebuild_proxy d r s0 = .ok () s1 →
      ∃ p, s1.1.device_proxy_ = .valid p) ∧
    (reaches s → ∀ (d : device) (s1 : st T), update_device d s.1 s.2 = .ok () s1 →
      ∃ m, s1.1.memory_ = .valid m) := by
  have hpp := reachable_pointers_present g s h
  refine ⟨fun hm => ?_, fun d s1 hu => ?_, fun d r s0 s1 hg hrb => ?_, fun hr d s1 hu => ?_⟩
  · cases hpi : s.1.proxy_invalid_ with
    | true => exact Or.inl rfl
    | false =>
      obtain ⟨p, hp⟩ := hpp.2 hpi hm
      right
      rw [hp]
      simp
  · have h1 := pointers_present_update_device d s.1 s.2 hpp
    rw [hu] at h1
    exact h1.1 (update_device_ok_settled d s.1 s.2 s1 hu).1
  · have h1 := pointers_present_get_host_based_device_copy d s.1 s.2 hpp
    rw [hg] at h1
    simp only [outcome.state] at h1
    obtain ⟨_, m, hm, _⟩ := get_host_based_eq_ok d s.1 s.2 r s0 hg
    obtain ⟨hinv, hval⟩ := rebuild_proxy_eq_ok d r s0 s1 hrb
    cases hpi : s0.1.proxy_invalid_ with
    | true =>
      obtain ⟨_, heq, _⟩ := hinv hpi
      rw [heq]
      exact ⟨_, rfl⟩
    | false =>
      rw [hval hpi]
      exact h1.2 hpi (by rw [hm]; simp)
  · have hwf := well_formed_update_device d s.1 s.2 s1 (reaches_well_formed s hr) hu
    exact (hwf.1 (update_device_ok_settled d s.1 s.2 s1 hu).1).imp fun m hm => hm.1

/-- The presence of C29 in the state after `vector()`, a first materialisation on
device 7 and a second one on device 8 whose allocation fails: the old buffer is
deleted and `memory_` is left dangling, not null, with `proxy_invalid_` set. -/
theorem proxy_presence_witness :
    reachable false
      (update_device 8 round_trip_materialised.1
        { round_trip_materialised.2 with failures := [true] }).state ∧
    (update_device 8 round_trip_materialised.1
        { round_trip_materialised.2 with failures := [true] }).state.1.memory_ = .dangling ∧
    ((update_device 8 round_trip_materialised.1
        { round_trip_materialised.2 with failures := [true] }).state.1.memory_ ≠ .null →
      (update_device 8 round_trip_materialised.1
        { round_trip_materialised.2 with failures := [true] }).state.1.proxy_invalid_ = true ∨
      (update_device 8 round_trip_materialised.1
        { round_trip_materialised.2 with failures := [true] }).state.1.device_proxy_
          ≠ .null) :=
  have hr : reachable false
      (update_device 8 round_trip_materialised.1
        { round_trip_materialised.2 with failures := [true] }).state :=
    reachable.threw (.update_device 8) .cuda_runtime_error
      (round_trip_materialised.1, { round_trip_materialised.2 with failures := [true] }) _
      (reachable.returned (.update_device 7)
        (round_trip_written.1, { round_trip_written.2 with failures := [false, false, true] })
        _ (reachable.new_range [42, 9] _) (fun h => by cases h) rfl)
      (fun h => by cases h) rfl
  ⟨hr, rfl, (proxy_presence false _ hr).1⟩

end cupp
